import Mathlib

/-!
AI guardian challenge: secret matcher and streaming client.

A shallow embedding of `internal/service/password.go`, `internal/service/ai.go`,
`internal/store/store.go` and the chat handlers of `internal/handler/chat.go`.

Modelling conventions.

* A Go `string` holding well-formed UTF-8 text is a Lean `String`, i.e. a list
  of code points.  On such text `strings.Contains`, `strings.HasPrefix` and
  `for _, r := range s` act on code points exactly as the definitions below do.
* `unicode.IsLetter` and `unicode.IsDigit` are tables of the Go standard
  library.  They are passed in as a value of `Unicode`, so every general
  theorem holds for whatever tables the runtime ships.
* `json.Unmarshal` into a `streamResponse` is passed in as a function
  `String → Option streamResponse` (`none` is a non-nil error).
* A response body is the list of its lines.  The scanner made by
  `bufio.NewScanner` yields each line with a trailing carriage return dropped,
  and stops with `bufio.ErrTooLong` at the first line of 64 KiB or more.
-/

namespace Guardian

/-! ## Go standard library: `strings` -/

/-- Substring test on code point lists: `sub` occurs somewhere in `s`. -/
def containsList : List Char → List Char → Bool
  | [], sub => sub.isPrefixOf []
  | c :: s, sub => sub.isPrefixOf (c :: s) || containsList s sub

/-- Go `strings.Contains(s, substr)`. -/
def strings.Contains (s substr : String) : Bool :=
  containsList s.data substr.data

/-- Go `strings.HasPrefix(s, prefix)`. -/
def strings.HasPrefix (s pre : String) : Bool :=
  pre.data.isPrefixOf s.data

/-- Go `strings.TrimPrefix(s, prefix)`. -/
def strings.TrimPrefix (s pre : String) : String :=
  if strings.HasPrefix s pre then String.mk (s.data.drop pre.data.length) else s

/-- The two tables of Go package `unicode` used by the matcher. -/
structure Unicode where
  IsLetter : Char → Bool
  IsDigit : Char → Bool

/-- A classifier that agrees with Go on ASCII and on the CJK Unified
Ideographs block U+4E00..U+9FFF (all of general category Lo); used only to
evaluate the matcher on concrete text drawn from those ranges. -/
def basicUnicode : Unicode where
  IsLetter := fun r =>
    (decide (65 ≤ r.toNat) && decide (r.toNat ≤ 90)) ||
    (decide (97 ≤ r.toNat) && decide (r.toNat ≤ 122)) ||
    (decide (0x4E00 ≤ r.toNat) && decide (r.toNat ≤ 0x9FFF))
  IsDigit := fun r => decide (48 ≤ r.toNat) && decide (r.toNat ≤ 57)

/-! ## Go standard library: `bufio` -/

/-- The constant `bufio.MaxScanTokenSize`: the largest buffer of a scanner made
by `bufio.NewScanner`. -/
def bufio.MaxScanTokenSize : Nat := 64 * 1024

/-- The text of the error `bufio.ErrTooLong`. -/
def bufio.ErrTooLong : String := "bufio.Scanner: token too long"

/-- The helper `dropCR` of `bufio.ScanLines`: one trailing carriage return is dropped. -/
def bufio.dropCR (data : String) : String :=
  if data.data.getLast? = some (Char.ofNat 13) then String.mk data.data.dropLast else data

/-- A scanner made by `bufio.NewScanner` (split function `ScanLines`), run until
`Scan` returns false.  `body` is the body cut at its line feeds, each line
without its line feed; `readErr` is the error other than `io.EOF` with which
reading the body ends.  The result is the tokens `Text()` yields, in order,
and the value of `Err()` afterwards.  A line of `MaxScanTokenSize` bytes or
more fills the buffer before its line feed is seen, so `Scan` returns false
with `ErrTooLong` and nothing after that point is read. -/
def bufio.Scanner.run : List String → Option String → List String × Option String
  | [], readErr => ([], readErr)
  | line :: rest, readErr =>
    if line.utf8ByteSize ≥ bufio.MaxScanTokenSize then ([], some bufio.ErrTooLong)
    else
      let r := bufio.Scanner.run rest readErr
      (bufio.dropCR line :: r.1, r.2)

/-! ## `internal/service/password.go` -/

/-- PasswordChecker: the two configured phrases and their keyword fragments. -/
structure PasswordChecker where
  grandPassword : String
  consolationPassword : String
  grandKeywords : List String
  consolationKeywords : List String

/-- NewPasswordChecker: the keyword lists are fixed literals. -/
def NewPasswordChecker (grand consolation : String) : PasswordChecker where
  grandPassword := grand
  consolationPassword := consolation
  grandKeywords := ["小喵科技", "身体安康", "万事如意"]
  consolationKeywords := ["好运连连"]

/-- PasswordMatch: the result record (`Type_` is the Go field `Type`). -/
structure PasswordMatch where
  Found : Bool
  Password : String
  Type_ : String
  DisplayName : String
deriving DecidableEq, Repr

/-- The zero-valued record with only `Found` set, `&PasswordMatch{Found: false}`. -/
def PasswordMatch.notFound : PasswordMatch :=
  { Found := false, Password := "", Type_ := "", DisplayName := "" }

/-- The record returned on every grand hit. -/
def PasswordMatch.grand (pc : PasswordChecker) : PasswordMatch :=
  { Found := true, Password := pc.grandPassword, Type_ := "grand", DisplayName := "特等奖" }

/-- The record returned on every consolation hit. -/
def PasswordMatch.consolation (pc : PasswordChecker) : PasswordMatch :=
  { Found := true, Password := pc.consolationPassword, Type_ := "consolation",
    DisplayName := "安慰奖" }

/-- stripPunctuation: keep the runes that are letters or digits. -/
def stripPunctuation (unicode : Unicode) (s : String) : String :=
  String.mk (s.data.filter (fun r => unicode.IsLetter r || unicode.IsDigit r))

/-- The `for _, kw := range keywords` loop of `matchAllKeywords`. -/
def matchAllKeywords.loop (content : String) : List String → Bool
  | [] => true
  | kw :: rest =>
    if !strings.Contains content kw then false
    else matchAllKeywords.loop content rest

/-- matchAllKeywords: false on an empty list, else every keyword is contained. -/
def matchAllKeywords (content : String) (keywords : List String) : Bool :=
  if keywords.length = 0 then false
  else matchAllKeywords.loop content keywords

/-- CheckContent: three tiers for the grand phrase, then three for consolation. -/
def CheckContent (unicode : Unicode) (pc : PasswordChecker) (content : String) :
    PasswordMatch :=
  if strings.Contains content pc.grandPassword then
    PasswordMatch.grand pc
  else
    let cleanContent := stripPunctuation unicode content
    let cleanGrand := stripPunctuation unicode pc.grandPassword
    if strings.Contains cleanContent cleanGrand then
      PasswordMatch.grand pc
    else if matchAllKeywords content pc.grandKeywords then
      PasswordMatch.grand pc
    else if strings.Contains content pc.consolationPassword then
      PasswordMatch.consolation pc
    else if strings.Contains cleanContent
        (stripPunctuation unicode pc.consolationPassword) then
      PasswordMatch.consolation pc
    else if matchAllKeywords content pc.consolationKeywords then
      PasswordMatch.consolation pc
    else
      PasswordMatch.notFound

/-! ## `internal/service/ai.go` -/

/-- ChatMessage: one message in the upstream wire format. -/
structure ChatMessage where
  Role : String
  Content : String
deriving DecidableEq, Repr

/-- AIService: endpoint, credentials, model name and system prompt. -/
structure AIService where
  apiURL : String
  apiKey : String
  model : String
  systemPrompt : String

/-- StreamDelta: what the producer sends on the channel (`Error = none` is a nil error). -/
structure StreamDelta where
  Content : String
  Done : Bool
  Error : Option String
deriving DecidableEq, Repr

/-- streamChoice: `Content` is `Delta.Content`, `FinishReason = none` is a nil pointer. -/
structure streamChoice where
  Content : String
  FinishReason : Option String
deriving DecidableEq, Repr

/-- streamResponse: the decoded frame. -/
structure streamResponse where
  Choices : List streamChoice
deriving DecidableEq, Repr

/-- The constant `maxRetries`. -/
def maxRetries : Nat := 3

/-- The constant `retryDelay`, in milliseconds. -/
def retryDelay : Nat := 500

/-- The message list built at the top of `StreamChat`. -/
def StreamChat.messages (ai : AIService) (history : List ChatMessage)
    (userMessage : String) : List ChatMessage :=
  let messages : List ChatMessage := []
  let messages := messages ++ [{ Role := "system", Content := ai.systemPrompt }]
  let messages := messages ++ history
  let messages := messages ++ [{ Role := "user", Content := userMessage }]
  messages

/-- What one call of `doStreamRequest` yields: a non-nil error, or a response
with its status code and body. -/
inductive Outcome where
  | netErr (cause : String)
  | status (code : Nat) (body : String)
deriving DecidableEq, Repr

/-- The error value `StreamChat` returns: the error of `doStreamRequest`, or
the one formatted from a status code and body. -/
inductive UpstreamError where
  | request (cause : String)
  | http (code : Nat) (body : String)
deriving DecidableEq, Repr

/-- Observable steps of the retry loop, in order. -/
inductive Step where
  | request (attempt : Nat)
  | sleep (ms : Nat)
deriving DecidableEq, Repr

/-- How the retry loop is left: `break` on a 200 response, `return nil, err`,
or the loop condition turning false. -/
inductive LoopExit where
  | ok (attempt : Nat)
  | fail (err : UpstreamError)
  | exhausted
deriving DecidableEq, Repr

/-- The loop `for attempt := 1; attempt <= maxRetries; attempt++` of
`StreamChat`, started at `attempt`; `doStreamRequest n` is the outcome of the
call made by attempt `n`.  The first argument bounds the iterations left. -/
def StreamChat.retryLoop (doStreamRequest : Nat → Outcome) :
    Nat → Nat → List Step × LoopExit
  | 0, _ => ([], LoopExit.exhausted)
  | fuel + 1, attempt =>
    if attempt ≤ maxRetries then
      match doStreamRequest attempt with
      | Outcome.netErr cause =>
        if attempt < maxRetries then
          let rest := StreamChat.retryLoop doStreamRequest fuel (attempt + 1)
          (Step.request attempt :: Step.sleep retryDelay :: rest.1, rest.2)
        else
          ([Step.request attempt], LoopExit.fail (UpstreamError.request cause))
      | Outcome.status code body =>
        if code = 200 then
          ([Step.request attempt], LoopExit.ok attempt)
        else if code ≥ 500 then
          if attempt < maxRetries then
            let rest := StreamChat.retryLoop doStreamRequest fuel (attempt + 1)
            (Step.request attempt :: Step.sleep retryDelay :: rest.1, rest.2)
          else
            ([Step.request attempt], LoopExit.fail (UpstreamError.http code body))
        else
          ([Step.request attempt], LoopExit.fail (UpstreamError.http code body))
    else
      ([], LoopExit.exhausted)

/-- The retry part of `StreamChat`: the loop from attempt 1. -/
def StreamChat.retry (doStreamRequest : Nat → Outcome) : List Step × LoopExit :=
  StreamChat.retryLoop doStreamRequest maxRetries 1

/-- The delta `StreamDelta{Done: true}`. -/
def StreamDelta.done : StreamDelta := { Content := "", Done := true, Error := none }

/-- The delta `StreamDelta{Content: c}`. -/
def StreamDelta.content (c : String) : StreamDelta :=
  { Content := c, Done := false, Error := none }

/-- The delta `StreamDelta{Error: e}`. -/
def StreamDelta.error (e : String) : StreamDelta :=
  { Content := "", Done := false, Error := some e }

/-- The send guarded by `if choice.Delta.Content != ""`. -/
def contentDelta (choice : streamChoice) : List StreamDelta :=
  if choice.Content ≠ "" then [StreamDelta.content choice.Content] else []

/-- The loop `for _, choice := range sr.Choices`: the deltas sent, and whether
the goroutine returned from inside it. -/
def StreamChat.choices : List streamChoice → List StreamDelta × Bool
  | [] => ([], false)
  | choice :: rest =>
    if choice.FinishReason.isSome then
      (contentDelta choice ++ [StreamDelta.done], true)
    else
      let r := StreamChat.choices rest
      (contentDelta choice ++ r.1, r.2)

/-- The producer goroutine of `StreamChat`: `lines` are the tokens the scanner
yields, `scanErr` is `scanner.Err()` once `Scan` returns false; the result is
the sequence of deltas sent before the channel is closed. -/
def StreamChat.produce (decode : String → Option streamResponse) :
    List String → Option String → List StreamDelta
  | [], scanErr =>
    match scanErr with
    | some e => [StreamDelta.error ("读取流式响应失败: " ++ e)]
    | none => []
  | line :: rest, scanErr =>
    if line = "" then
      StreamChat.produce decode rest scanErr
    else if !strings.HasPrefix line "data: " then
      StreamChat.produce decode rest scanErr
    else
      let data := strings.TrimPrefix line "data: "
      if data = "[DONE]" then
        [StreamDelta.done]
      else
        match decode data with
        | none => StreamChat.produce decode rest scanErr
        | some sr =>
          let r := StreamChat.choices sr.Choices
          if r.2 then r.1 else r.1 ++ StreamChat.produce decode rest scanErr

/-- The producer goroutine of `StreamChat` over a response body: the scanner
made by `bufio.NewScanner(resp.Body)` cuts the body into lines and the loop
of `StreamChat.produce` runs over the tokens it yields, ending with its
`Err()`.  `body` is the body cut at its line feeds and `readErr` the error
other than `io.EOF` with which reading the body ends. -/
def StreamChat.deltas (decode : String → Option streamResponse) (body : List String)
    (readErr : Option String) : List StreamDelta :=
  let scanned := bufio.Scanner.run body readErr
  StreamChat.produce decode scanned.1 scanned.2

/-! ## `internal/model/model.go` -/

/-- User: `model.User`. -/
structure User where
  ID : String
  Contact : String
  Nickname : String
  IsAdmin : Bool
deriving DecidableEq, Repr

/-- Message: `model.Message`. -/
structure Message where
  Role : String
  Content : String
deriving DecidableEq, Repr

/-- Conversation: `model.Conversation` without `CreatedAt`; `LastMessage` is
kept as bytes because the store cuts it at a byte offset. -/
structure Conversation where
  ID : String
  UserID : String
  Nickname : String
  Messages : List Message
  TurnCount : Int
  MaxTurns : Int
  IsActive : Bool
  IsSuccess : Bool
  IsPublic : Bool
  FoundPassword : String
  LastMessage : List UInt8
deriving DecidableEq, Repr

/-- SSEEvent: `model.SSEEvent`; unset fields hold their zero value. -/
structure SSEEvent where
  Type_ : String
  Content : String := ""
  Password : String := ""
  PrizeType : String := ""
  PrizeAmount : String := ""
  IsFirstWinner : Bool := false
  TotalTurns : Int := 0
  ConsolationPassword : String := ""
  ConsolationPrizeAmount : String := ""
  GrandAvailable : Bool := false
deriving DecidableEq, Repr

/-! ## `internal/config/config.go` -/

/-- PasswordsConfig: the two configured phrases. -/
structure PasswordsConfig where
  Grand : String
  Consolation : String
deriving DecidableEq, Repr

/-- PrizesConfig: prize descriptors and caps. -/
structure PrizesConfig where
  GrandAmount : String
  ConsolationAmount : String
  ConsolationCount : Int
  GrandCount : Int
deriving DecidableEq, Repr

/-- GameConfig: the fields of `config.GameConfig` read by the chat handler. -/
structure GameConfig where
  MaxTurns : Int
  MaxMessageLength : Int
  Passwords : PasswordsConfig
  Prizes : PrizesConfig
  BonusConsolationThreshold : Int
  BonusGrandThreshold : Int
deriving DecidableEq, Repr

/-- Config: `config.Config` restricted to the `Game` section. -/
structure Config where
  Game : GameConfig
deriving DecidableEq, Repr

/-! ## `internal/store/store.go`

The SQLite tables are lists of rows in insertion order; `created_at`,
`updated_at` and `timestamp` columns are left out.  Statements are taken to
succeed unless a primary key is violated. -/

/-- A row of table `conversations`; the 0/1 integer columns are booleans. -/
structure ConversationRow where
  id : String
  user_id : String
  nickname : String
  turn_count : Int
  max_turns : Int
  is_active : Bool
  is_success : Bool
  is_public : Bool
  found_password : String
  last_message : List UInt8
deriving DecidableEq, Repr

/-- A row of table `messages`. -/
structure MessageRow where
  conversation_id : String
  role : String
  content : String
deriving DecidableEq, Repr

/-- A row of table `winners`. -/
structure WinnerRow where
  nickname : String
  conversation_id : String
  category : String
  prize_type : String
  prize_amount : String
  password : String
deriving DecidableEq, Repr

/-- Store: the database. `sessions`, `claim_status` and `user_bonus_status`
hold (key, value) rows. -/
structure Store where
  users : List User
  sessions : List (String × String)
  conversations : List ConversationRow
  messages : List MessageRow
  winners : List WinnerRow
  claim_status : List (String × String)
  user_bonus_status : List (String × String)
deriving DecidableEq, Repr

/-- The value of the first row with the given key, as `QueryRow(...).Scan` reads it. -/
def lookupRow (rows : List (String × String)) (key : String) : Option String :=
  (rows.find? (fun r => r.1 = key)).map (fun r => r.2)

/-- getClaimStatus: "0" when no row is found. -/
def Store.getClaimStatus (s : Store) (key : String) : String :=
  match lookupRow s.claim_status key with
  | some value => value
  | none => "0"

/-- setClaimStatus: `INSERT OR REPLACE` drops the old row and adds the new one. -/
def Store.setClaimStatus (s : Store) (key value : String) : Store :=
  { s with claim_status := s.claim_status.filter (fun r => r.1 ≠ key) ++ [(key, value)] }

/-- The database after `New`: empty tables and the three `claim_status` defaults. -/
def Store.New : Store where
  users := []
  sessions := []
  conversations := []
  messages := []
  winners := []
  claim_status := [("grand_first_claimed", "0"), ("consolation_first_claimed", "0"),
    ("consolation_claim_count", "0")]
  user_bonus_status := []

/-- getUserByID: the first row of `users` with that id. -/
def Store.getUserByID (s : Store) (userID : String) : Option User :=
  s.users.find? (fun u => u.ID = userID)

/-- GetOrCreateUser: refresh the nickname of a known user, else insert a new row. -/
def Store.GetOrCreateUser (s : Store) (contact nickname : String) : Store × Option User :=
  let userID := contact
  match s.getUserByID userID with
  | some user =>
    let users := s.users.map
      (fun u => if u.ID = userID then { u with Nickname := nickname } else u)
    ({ s with users := users }, some { user with Nickname := nickname })
  | none =>
    let user : User := { ID := userID, Contact := contact, Nickname := nickname, IsAdmin := false }
    ({ s with users := s.users ++ [user] }, some user)

/-- CreateSession: `token` stands for the time-stamped token; a token that is
already a key leaves the table as it is. -/
def Store.CreateSession (s : Store) (token userID : String) : Store × String :=
  if (lookupRow s.sessions token).isSome then (s, token)
  else ({ s with sessions := s.sessions ++ [(token, userID)] }, token)

/-- GetUserBySession: session row, then user row. -/
def Store.GetUserBySession (s : Store) (token : String) : Option User :=
  match lookupRow s.sessions token with
  | none => none
  | some userID => s.getUserByID userID

/-- getConversationMessages: the messages of a conversation in id order. -/
def Store.getConversationMessages (s : Store) (convID : String) : List Message :=
  (s.messages.filter (fun m => m.conversation_id = convID)).map
    (fun m => { Role := m.role, Content := m.content })

/-- GetConversation: the first row with that id, with its messages loaded. -/
def Store.GetConversation (s : Store) (convID : String) : Option Conversation :=
  match s.conversations.find? (fun r => r.id = convID) with
  | none => none
  | some r =>
    some { ID := r.id, UserID := r.user_id, Nickname := r.nickname,
           Messages := s.getConversationMessages convID,
           TurnCount := r.turn_count, MaxTurns := r.max_turns,
           IsActive := r.is_active, IsSuccess := r.is_success, IsPublic := r.is_public,
           FoundPassword := r.found_password, LastMessage := r.last_message }

/-- CreateConversation: `convID` stands for the generated id; a duplicate id
makes the insert fail and `nil` is returned. -/
def Store.CreateConversation (s : Store) (convID userID nickname : String) (maxTurns : Int)
    (initialMessage : String) : Store × Option Conversation :=
  if (s.conversations.find? (fun r => r.id = convID)).isSome then (s, none)
  else
    let row : ConversationRow :=
      { id := convID, user_id := userID, nickname := nickname, turn_count := 0,
        max_turns := maxTurns, is_active := true, is_success := false, is_public := true,
        found_password := "", last_message := [] }
    ({ s with conversations := s.conversations ++ [row],
              messages := s.messages ++
                [{ conversation_id := convID, role := "assistant", content := initialMessage }] },
      some { ID := convID, UserID := userID, Nickname := nickname,
             Messages := [{ Role := "assistant", Content := initialMessage }],
             TurnCount := 0, MaxTurns := maxTurns, IsActive := true, IsSuccess := false,
             IsPublic := true, FoundPassword := "", LastMessage := [] })

/-- `UPDATE conversations SET ... WHERE id = ?`. -/
def Store.updateConversation (s : Store) (convID : String)
    (f : ConversationRow → ConversationRow) : Store :=
  { s with conversations := s.conversations.map (fun r => if r.id = convID then f r else r) }

/-- The preview text of `AddMessage`: the first 100 bytes and "..." when the
content has more than 100 bytes. -/
def previewText (content : String) : List UInt8 :=
  let bytes := content.toUTF8.data.toList
  if bytes.length > 100 then bytes.take 100 ++ "...".toUTF8.data.toList else bytes

/-- AddMessage: insert the message; a user message also adds one to the turn
count and deactivates the conversation once the count reaches the maximum. -/
def Store.AddMessage (s : Store) (convID : String) (msg : Message) : Store :=
  let row : MessageRow := { conversation_id := convID, role := msg.Role, content := msg.Content }
  let s1 : Store := { s with messages := s.messages ++ [row] }
  let content := previewText msg.Content
  if msg.Role = "user" then
    let s2 := s1.updateConversation convID
      (fun r => { r with turn_count := r.turn_count + 1, last_message := content })
    match s2.conversations.find? (fun r => r.id = convID) with
    | some r =>
      if r.turn_count ≥ r.max_turns then
        s2.updateConversation convID (fun r => { r with is_active := false })
      else s2
    | none => s2
  else
    s1.updateConversation convID (fun r => { r with last_message := content })

/-- EndConversation: deactivate and set the success flag and the found phrase. -/
def Store.EndConversation (s : Store) (convID : String) (isSuccess : Bool)
    (foundPassword : String) : Store :=
  s.updateConversation convID
    (fun r => { r with is_active := false, is_success := isSuccess,
                       found_password := foundPassword })

/-- The integer `fmt.Sscanf(s, "%d", &c)` leaves in `c`, which starts at 0:
leading blanks, an optional sign and a run of decimal digits; 0 when there is
no digit.  Values outside the range of `int` are not modelled. -/
def scanDecimal (s : String) : Int :=
  let cs := s.data.dropWhile (fun c => c = ' ' || c = '\t')
  let signed : Bool × List Char :=
    match cs with
    | '-' :: t => (true, t)
    | '+' :: t => (false, t)
    | _ => (false, cs)
  let ds := signed.2.takeWhile Char.isDigit
  if ds.isEmpty then 0
  else
    let n : Nat := ds.foldl (fun acc d => 10 * acc + (d.toNat - 48)) 0
    if signed.1 then -(n : Int) else (n : Int)

/-- RecordWinner: decide the category from the first-claimed flag of the tier,
bump the consolation counter, insert the winner row; returns `isFirst`. -/
def Store.RecordWinner (s : Store) (nickname convID passwordType password prizeAmount : String) :
    Store × Bool :=
  let r : Store × Bool × String :=
    if passwordType = "grand" then
      if s.getClaimStatus "grand_first_claimed" = "0" then
        (s.setClaimStatus "grand_first_claimed" "1", true, "grand-first")
      else (s, false, "grand-subsequent")
    else if passwordType = "consolation" then
      let r1 : Store × Bool × String :=
        if s.getClaimStatus "consolation_first_claimed" = "0" then
          (s.setClaimStatus "consolation_first_claimed" "1", true, "consolation-first")
        else (s, false, "consolation-subsequent")
      let count := r1.1.getClaimStatus "consolation_claim_count"
      let c := scanDecimal count
      (r1.1.setClaimStatus "consolation_claim_count" (toString (c + 1)), r1.2.1, r1.2.2)
    else (s, false, "")
  let winner : WinnerRow :=
    { nickname := nickname, conversation_id := convID, category := r.2.2,
      prize_type := passwordType, prize_amount := prizeAmount, password := password }
  ({ r.1 with winners := r.1.winners ++ [winner] }, r.2.1)

/-- GetUserTotalTurnCount: the sum of `turn_count` over the user's conversations. -/
def Store.GetUserTotalTurnCount (s : Store) (userID : String) : Int :=
  ((s.conversations.filter (fun r => r.user_id = userID)).map (fun r => r.turn_count)).sum

/-- GetGrandWinnerCount: the number of winner rows with `prize_type = 'grand'`. -/
def Store.GetGrandWinnerCount (s : Store) : Int :=
  ((s.winners.filter (fun w => w.prize_type = "grand")).length : Int)

/-- GetUserBonusStatus: "" when the user has no row. -/
def Store.GetUserBonusStatus (s : Store) (userID : String) : String :=
  match lookupRow s.user_bonus_status userID with
  | some status => status
  | none => ""

/-- SetUserBonusStatus: insert the row, or update the status on conflict. -/
def Store.SetUserBonusStatus (s : Store) (userID status : String) : Store :=
  if (lookupRow s.user_bonus_status userID).isSome then
    let rows := s.user_bonus_status.map (fun r => if r.1 = userID then (r.1, status) else r)
    { s with user_bonus_status := rows }
  else
    { s with user_bonus_status := s.user_bonus_status ++ [(userID, status)] }

/-! ## `internal/handler/chat.go`

A handler takes the database and a request and yields the database after the
call, the response written, and the calls made to the upstream client. -/

/-- A value in a JSON response body. -/
inductive JsonValue where
  | str (s : String)
  | bool (b : Bool)
deriving DecidableEq, Repr

/-- One `data: ...` frame of the event stream: a marshalled event or the
literal `[DONE]`. -/
inductive Frame where
  | event (e : SSEEvent)
  | done
deriving DecidableEq, Repr

/-- What a handler writes: a JSON document with a status (`writeJSON`), an
event stream, or nothing because the handler dereferenced `nil`. -/
inductive Response where
  | json (status : Nat) (body : List (String × JsonValue))
  | sse (frames : List Frame)
  | aborted
deriving DecidableEq, Repr

/-- The parts of an HTTP request a handler reads: the value of cookie
`session` (`none` when `r.Cookie` fails), the decoded body (`none` when
`Decode` fails), and whether the response writer is an `http.Flusher`. -/
structure Request (β : Type) where
  cookie : Option String
  body : Option β
  flusher : Bool

/-- The request body of `SendMessage`. -/
structure messageRequest where
  ConversationID : String
  Message : String
  ImageURL : String
deriving DecidableEq, Repr

/-- The request body of `BonusChoice`. -/
structure bonusChoiceRequest where
  ConversationID : String
  Choice : String
deriving DecidableEq, Repr

/-- ChatHandler: configuration, matcher, the Unicode tables the matcher uses,
and the upstream client as the result `StreamChat` gives for a history and a
user message (an error, or the deltas it puts on the channel). -/
structure ChatHandler where
  config : Config
  unicode : Unicode
  passwordChecker : PasswordChecker
  aiService : List ChatMessage → String → Except UpstreamError (List StreamDelta)

/-- The outcome of a handler call. -/
structure HandlerResult where
  store : Store
  response : Response
  aiCalls : List (List ChatMessage × String)

/-- The response `writeJSON(w, status, {"error": msg})`. -/
def errorJSON (status : Nat) (msg : String) : Response :=
  Response.json status [("error", JsonValue.str msg)]

/-- The response `writeJSON(w, status, {"success": false, "error": msg})`. -/
def failureJSON (status : Nat) (msg : String) : Response :=
  Response.json status [("success", JsonValue.bool false), ("error", JsonValue.str msg)]

/-- GenerateInitialMessage: the fixed opening line. -/
def GenerateInitialMessage : String :=
  "你好！我是 AI 守护者。我正在守护一些神秘口令。你可以尝试和我对话，看看能否让我说出口令。但我会尽全力保护它们！准备好了吗？"

/-- NewConversation: `convID` stands for the id `CreateConversation` generates. -/
def ChatHandler.NewConversation (h : ChatHandler) (s : Store) (r : Request Unit)
    (convID : String) : HandlerResult :=
  match r.cookie with
  | none => { store := s, response := failureJSON 401 "未登录", aiCalls := [] }
  | some cookie =>
    match s.GetUserBySession cookie with
    | none => { store := s, response := failureJSON 401 "会话已过期", aiCalls := [] }
    | some user =>
      let bonusStatus := s.GetUserBonusStatus user.ID
      if bonusStatus = "claimed_consolation" ∨ bonusStatus = "claimed_grand" then
        { store := s, response := failureJSON 400 "你已获得口令奖品，无法再创建新对话",
          aiCalls := [] }
      else
        let initialMessage := GenerateInitialMessage
        let c := s.CreateConversation convID user.ID user.Nickname h.config.Game.MaxTurns
          initialMessage
        match c.2 with
        | none => { store := c.1, response := Response.aborted, aiCalls := [] }
        | some conv =>
          { store := c.1,
            response := Response.json 200 [("success", JsonValue.bool true),
              ("conversationId", JsonValue.str conv.ID),
              ("initialMessage", JsonValue.str initialMessage)],
            aiCalls := [] }

/-- The text `autoGrantPassword` formats with `fmt.Sprintf`: the turn count in
decimal and the phrase at the end. -/
def bonusTextOf (totalTurns : Int) (password : String) : String :=
  "\n\n好吧，你已经和我聊了这么久了（共" ++ toString totalTurns ++
    "轮对话），我实在不忍心了，告诉你吧，口令是：" ++ password

/-- autoGrantPassword: disclose the phrase as a content event and an assistant
message, record the winner, end the conversation, set the claimed state and
send the `password_found` event. -/
def ChatHandler.autoGrantPassword (_h : ChatHandler) (s : Store) (user : User)
    (convID passwordType password prizeAmount : String) (totalTurns : Int) :
    Store × List Frame :=
  let bonusText := bonusTextOf totalTurns password
  let bonusEvent : SSEEvent := { Type_ := "content", Content := bonusText }
  let s1 := s.AddMessage convID { Role := "assistant", Content := bonusText }
  let displayName := if passwordType = "consolation" then "安慰奖" else "特等奖"
  let w := s1.RecordWinner user.Nickname convID passwordType password prizeAmount
  let s2 := w.1.EndConversation convID true password
  let s3 :=
    if passwordType = "grand" then s2.SetUserBonusStatus user.ID "claimed_grand"
    else s2.SetUserBonusStatus user.ID "claimed_consolation"
  let winEvent : SSEEvent :=
    { Type_ := "password_found", Password := password, PrizeType := displayName,
      PrizeAmount := prizeAmount, IsFirstWinner := w.2 }
  (s3, [Frame.event bonusEvent, Frame.event winEvent])

/-- handleBonusMechanism: nothing for a claimed user; the grand grant for a
continued user at the grand threshold; for a fresh user at the consolation
threshold the offer while grand prizes remain and the consolation grant
otherwise; nothing in every other case. -/
def ChatHandler.handleBonusMechanism (h : ChatHandler) (s : Store) (user : User)
    (convID : String) : Store × List Frame :=
  let totalTurns := s.GetUserTotalTurnCount user.ID
  let bonusStatus := s.GetUserBonusStatus user.ID
  if bonusStatus = "claimed_consolation" ∨ bonusStatus = "claimed_grand" then (s, [])
  else
    let grandThreshold := h.config.Game.BonusGrandThreshold
    let consolationThreshold := h.config.Game.BonusConsolationThreshold
    if grandThreshold > 0 ∧ totalTurns ≥ grandThreshold ∧ bonusStatus = "continued" then
      h.autoGrantPassword s user convID "grand" h.config.Game.Passwords.Grand
        h.config.Game.Prizes.GrandAmount totalTurns
    else if consolationThreshold > 0 ∧ totalTurns ≥ consolationThreshold ∧ bonusStatus = "" then
      let grandWinnerCount := s.GetGrandWinnerCount
      let grandAvailable := decide (grandWinnerCount < h.config.Game.Prizes.GrandCount)
      if grandAvailable then
        let s1 := s.SetUserBonusStatus user.ID "offered"
        let offerEvent : SSEEvent :=
          { Type_ := "bonus_offer", TotalTurns := totalTurns,
            ConsolationPassword := h.config.Game.Passwords.Consolation,
            ConsolationPrizeAmount := h.config.Game.Prizes.ConsolationAmount,
            GrandAvailable := true }
        (s1, [Frame.event offerEvent])
      else
        h.autoGrantPassword s user convID "consolation" h.config.Game.Passwords.Consolation
          h.config.Game.Prizes.ConsolationAmount totalTurns
    else (s, [])

/-- State at the end of the `for delta := range ch` loop of `SendMessage`:
`fullResponse = none` means the handler returned from inside the loop. -/
structure LoopResult where
  store : Store
  frames : List Frame
  fullResponse : Option String

/-- The loop `for delta := range ch` of `SendMessage`, from the accumulated
text `full`: an error delta sends the error event and breaks, a Done delta
breaks, any other delta is accumulated, sent as a content event and checked;
on a match the winner is recorded, the conversation ended, the claimed state
set, the `password_found` event sent, the reply stored and `[DONE]` sent. -/
def ChatHandler.streamLoop (h : ChatHandler) (s : Store) (user : User) (convID : String) :
    String → List StreamDelta → LoopResult
  | full, [] => { store := s, frames := [], fullResponse := some full }
  | full, delta :: rest =>
    if delta.Error.isSome then
      { store := s,
        frames := [Frame.event { Type_ := "error", Content := "AI 响应出错，请重试" }],
        fullResponse := some full }
    else if delta.Done then
      { store := s, frames := [], fullResponse := some full }
    else
      let full := full ++ delta.Content
      let event : SSEEvent := { Type_ := "content", Content := delta.Content }
      let m := CheckContent h.unicode h.passwordChecker full
      if m.Found then
        let prizeAmount :=
          if m.Type_ = "consolation" then h.config.Game.Prizes.ConsolationAmount
          else h.config.Game.Prizes.GrandAmount
        let w := s.RecordWinner user.Nickname convID m.Type_ m.Password prizeAmount
        let s2 := w.1.EndConversation convID true m.Password
        let s3 :=
          if m.Type_ = "grand" then s2.SetUserBonusStatus user.ID "claimed_grand"
          else s2.SetUserBonusStatus user.ID "claimed_consolation"
        let winEvent : SSEEvent :=
          { Type_ := "password_found", Password := m.Password, PrizeType := m.DisplayName,
            PrizeAmount := prizeAmount, IsFirstWinner := w.2 }
        let s4 := s3.AddMessage convID { Role := "assistant", Content := full }
        { store := s4, frames := [Frame.event event, Frame.event winEvent, Frame.done],
          fullResponse := none }
      else
        let r := ChatHandler.streamLoop h s user convID full rest
        { store := r.store, frames := Frame.event event :: r.frames,
          fullResponse := r.fullResponse }

/-- The user's full message of `SendMessage`, with the image reference in
front when an image URL is given. -/
def messageRequest.userContent (req : messageRequest) : String :=
  if req.ImageURL ≠ "" then "[图片:" ++ req.ImageURL ++ "]\n" ++ req.Message
  else req.Message

/-- The history `SendMessage` hands to the upstream client: the messages of
the conversation as loaded before the user's message is stored. -/
def Conversation.history (conv : Conversation) : List ChatMessage :=
  conv.Messages.map (fun msg => { Role := msg.Role, Content := msg.Content })

/-- SendMessage: session, body, conversation and ownership checks; the three
rejections; then the user message is stored, the upstream client called and
its deltas streamed; after the loop the reply is stored when non-empty, the
bonus mechanism runs and `[DONE]` is sent. -/
def ChatHandler.SendMessage (h : ChatHandler) (s : Store) (r : Request messageRequest) :
    HandlerResult :=
  match r.cookie with
  | none => { store := s, response := errorJSON 401 "未登录", aiCalls := [] }
  | some cookie =>
    match s.GetUserBySession cookie with
    | none => { store := s, response := errorJSON 401 "会话已过期", aiCalls := [] }
    | some user =>
      match r.body with
      | none => { store := s, response := errorJSON 400 "请求格式错误", aiCalls := [] }
      | some req =>
        match s.GetConversation req.ConversationID with
        | none => { store := s, response := errorJSON 404 "对话不存在", aiCalls := [] }
        | some conv =>
          if conv.UserID ≠ user.ID then
            { store := s, response := errorJSON 403 "无权访问此对话", aiCalls := [] }
          else if !conv.IsActive then
            { store := s, response := errorJSON 400 "对话已结束", aiCalls := [] }
          else if conv.TurnCount ≥ conv.MaxTurns then
            { store := s.EndConversation req.ConversationID false "",
              response := errorJSON 400 "已达到最大对话轮次", aiCalls := [] }
          else if (req.Message.utf8ByteSize : Int) > h.config.Game.MaxMessageLength then
            { store := s,
              response := errorJSON 400
                ("消息长度超过 " ++ toString h.config.Game.MaxMessageLength ++ " 字"),
              aiCalls := [] }
          else
            let userContent := messageRequest.userContent req
            let s1 := s.AddMessage req.ConversationID { Role := "user", Content := userContent }
            let history := Conversation.history conv
            match h.aiService history userContent with
            | Except.error _ =>
              { store := s1, response := errorJSON 500 "AI 服务暂时不可用",
                aiCalls := [(history, userContent)] }
            | Except.ok ch =>
              if !r.flusher then
                { store := s1, response := errorJSON 500 "不支持流式传输",
                  aiCalls := [(history, userContent)] }
              else
                let loop := h.streamLoop s1 user req.ConversationID "" ch
                match loop.fullResponse with
                | none =>
                  { store := loop.store, response := Response.sse loop.frames,
                    aiCalls := [(history, userContent)] }
                | some aiResponse =>
                  let s2 :=
                    if aiResponse ≠ "" then
                      loop.store.AddMessage req.ConversationID
                        { Role := "assistant", Content := aiResponse }
                    else loop.store
                  let b := h.handleBonusMechanism s2 user req.ConversationID
                  { store := b.1,
                    response := Response.sse (loop.frames ++ b.2 ++ [Frame.done]),
                    aiCalls := [(history, userContent)] }

/-- BonusChoice: only for a user in state offered; "claim" records the
consolation winner, ends the conversation and sets claimed_consolation,
"continue" sets continued; each stores an assistant message. -/
def ChatHandler.BonusChoice (h : ChatHandler) (s : Store) (r : Request bonusChoiceRequest) :
    HandlerResult :=
  match r.cookie with
  | none => { store := s, response := errorJSON 401 "未登录", aiCalls := [] }
  | some cookie =>
    match s.GetUserBySession cookie with
    | none => { store := s, response := errorJSON 401 "会话已过期", aiCalls := [] }
    | some user =>
      match r.body with
      | none => { store := s, response := errorJSON 400 "请求格式错误", aiCalls := [] }
      | some req =>
        let bonusStatus := s.GetUserBonusStatus user.ID
        if bonusStatus ≠ "offered" then
          { store := s, response := errorJSON 400 "当前无可用的福利选择", aiCalls := [] }
        else
          let conv := s.GetConversation req.ConversationID
          if conv.isNone ∨ (conv.map (fun c => c.UserID)) ≠ some user.ID then
            { store := s, response := errorJSON 400 "对话不存在或无权访问", aiCalls := [] }
          else if req.Choice = "claim" then
            let password := h.config.Game.Passwords.Consolation
            let prizeAmount := h.config.Game.Prizes.ConsolationAmount
            let w := s.RecordWinner user.Nickname req.ConversationID "consolation" password
              prizeAmount
            let s1 := w.1.EndConversation req.ConversationID true password
            let s2 := s1.SetUserBonusStatus user.ID "claimed_consolation"
            let s3 := s2.AddMessage req.ConversationID
              { Role := "assistant", Content := "🎉 恭喜你选择领取福利口令！口令是：" ++ password }
            { store := s3,
              response := Response.json 200 [("success", JsonValue.bool true),
                ("choice", JsonValue.str "claim"), ("password", JsonValue.str password),
                ("prizeAmount", JsonValue.str prizeAmount),
                ("isFirstWinner", JsonValue.bool w.2)],
              aiCalls := [] }
          else if req.Choice = "continue" then
            let s1 := s.SetUserBonusStatus user.ID "continued"
            let s2 := s1.AddMessage req.ConversationID
              { Role := "assistant",
                Content := "你选择了放弃福利口令，继续挑战主口令！加油！当你的总对话次数达到80次时，将自动获得主口令。" }
            { store := s2,
              response := Response.json 200 [("success", JsonValue.bool true),
                ("choice", JsonValue.str "continue"),
                ("message", JsonValue.str "你已放弃福利口令，继续加油挑战主口令吧！")],
              aiCalls := [] }
          else
            { store := s, response := errorJSON 400 "无效的选择", aiCalls := [] }

/-! ## Vocabulary of the specification -/

/-- The three tiers of one phrase, as the claim words them. -/
def tierHit (unicode : Unicode) (content phrase : String) (keywords : List String) : Prop :=
  strings.Contains content phrase = true ∨
  strings.Contains (stripPunctuation unicode content) (stripPunctuation unicode phrase) = true ∨
  (keywords ≠ [] ∧ ∀ kw ∈ keywords, strings.Contains content kw = true)

/-- Some tier of the grand phrase hits. -/
def grandHit (unicode : Unicode) (pc : PasswordChecker) (content : String) : Prop :=
  tierHit unicode content pc.grandPassword pc.grandKeywords

/-- Some tier of the consolation phrase hits. -/
def consolationHit (unicode : Unicode) (pc : PasswordChecker) (content : String) : Prop :=
  tierHit unicode content pc.consolationPassword pc.consolationKeywords

/-- `Inserted keep s t`: the text `t` is `s` with characters inserted at any
positions, every inserted character failing `keep`. -/
inductive Inserted (keep : Char → Bool) : List Char → List Char → Prop where
  | nil : Inserted keep [] []
  | same (c : Char) {s t : List Char} : Inserted keep s t → Inserted keep (c :: s) (c :: t)
  | ins (c : Char) {s t : List Char} : keep c = false → Inserted keep s t →
      Inserted keep s (c :: t)

/-- An outcome after which the loop tries again: a network error or a status of 500 or more. -/
def transient : Outcome → Bool
  | Outcome.netErr _ => true
  | Outcome.status code _ => decide (code ≥ 500)

/-- The result an attempt's outcome stands for: success on status 200, else an
error carrying the cause of that attempt. -/
def resultOf (attempt : Nat) : Outcome → LoopExit
  | Outcome.netErr cause => LoopExit.fail (UpstreamError.request cause)
  | Outcome.status code body =>
    if code = 200 then LoopExit.ok attempt else LoopExit.fail (UpstreamError.http code body)

/-- Requests 1 to `n` in order with one sleep of `retryDelay` between neighbours. -/
def attemptTrace (n : Nat) : List Step :=
  List.intersperse (Step.sleep retryDelay) ((List.range n).map (fun i => Step.request (i + 1)))

/-- A delta that is a completion or error marker. -/
def isMarker (d : StreamDelta) : Bool := d.Done || d.Error.isSome

/-- The content deltas of a run of choices, one per non-empty content. -/
def contentDeltas : List streamChoice → List StreamDelta
  | [] => []
  | choice :: rest => contentDelta choice ++ contentDeltas rest

/-- A line the reader skips: empty, or without the marker `data: `, or with a
payload that is not the end sentinel and does not decode. -/
def ignorable (decode : String → Option streamResponse) (line : String) : Prop :=
  line = "" ∨ strings.HasPrefix line "data: " = false ∨
    (strings.TrimPrefix line "data: " ≠ "[DONE]" ∧
      decode (strings.TrimPrefix line "data: ") = none)

/-- A line that ends the stream: it carries the marker `data: ` and its payload
is the end sentinel or decodes to a frame with a choice whose finish reason is
not null. -/
def finishes (decode : String → Option streamResponse) (line : String) : Bool :=
  strings.HasPrefix line "data: " &&
    (decide (strings.TrimPrefix line "data: " = "[DONE]") ||
      match decode (strings.TrimPrefix line "data: ") with
      | some sr => sr.Choices.any (fun c => c.FinishReason.isSome)
      | none => false)

/-- The marker that closes the delta sequence, if any: Done when some line
finishes, else the scanner error when there is one, else nothing. -/
def closing (decode : String → Option streamResponse) (lines : List String)
    (scanErr : Option String) : List StreamDelta :=
  if lines.any (finishes decode) then [StreamDelta.done]
  else match scanErr with
    | some e => [StreamDelta.error ("读取流式响应失败: " ++ e)]
    | none => []

/-- The frame `\x7b"choices":[\x7b"delta":\x7b"content":"hi"\x7d,"finish_reason":null\x7d]\x7d`. -/
def hiFrame : String :=
  "\x7b\"choices\":[\x7b\"delta\":\x7b\"content\":\"hi\"\x7d,\"finish_reason\":null\x7d]\x7d"

/-- The frame `\x7b"choices":[\x7b"delta":\x7b"content":"!"\x7d,"finish_reason":"stop"\x7d]\x7d`. -/
def stopFrame : String :=
  "\x7b\"choices\":[\x7b\"delta\":\x7b\"content\":\"!\"\x7d,\"finish_reason\":\"stop\"\x7d]\x7d"

/-- A decoder that agrees with `json.Unmarshal` on `hiFrame`, on `stopFrame`
and on text that is not JSON at all; used only to evaluate the reader on lines
carrying such payloads. -/
def sampleDecode (data : String) : Option streamResponse :=
  if data = hiFrame then some { Choices := [{ Content := "hi", FinishReason := none }] }
  else if data = stopFrame then
    some { Choices := [{ Content := "!", FinishReason := some "stop" }] }
  else none

/-- A line of 70000 copies of the letter x (70000 bytes), without the marker `data: `. -/
def oversizedLine : String := String.mk (List.replicate 70000 'x')

/-- The text accumulated in `fullResponse` after the deltas `ds`, starting from `full`. -/
def accumulate (full : String) : List StreamDelta → String
  | [] => full
  | d :: ds => accumulate (full ++ d.Content) ds

/-- A delta that is neither a Done marker nor an error. -/
def isContent (d : StreamDelta) : Prop := d.Done = false ∧ d.Error = none

instance isContent.decidable (d : StreamDelta) : Decidable (isContent d) :=
  inferInstanceAs (Decidable (d.Done = false ∧ d.Error = none))

/-- The content event sent for a delta. -/
def contentFrame (d : StreamDelta) : Frame :=
  Frame.event { Type_ := "content", Content := d.Content }

/-- The error event sent for an error delta. -/
def errorFrame : Frame :=
  Frame.event { Type_ := "error", Content := "AI 响应出错，请重试" }

/-- The prize descriptor `SendMessage` picks for a match. -/
def prizeAmountOf (h : ChatHandler) (m : PasswordMatch) : String :=
  if m.Type_ = "consolation" then h.config.Game.Prizes.ConsolationAmount
  else h.config.Game.Prizes.GrandAmount

/-- The request passed every check of `SendMessage` and the upstream client
answered with the deltas `ch`: the session names `user`, the body is `req`,
the conversation `conv` exists, belongs to the user, is active and below its
turn limit, the message is within the length limit, and the writer can flush. -/
def Accepted (h : ChatHandler) (s : Store) (r : Request messageRequest) (user : User)
    (req : messageRequest) (conv : Conversation) (ch : List StreamDelta) : Prop :=
  (∃ cookie, r.cookie = some cookie ∧ s.GetUserBySession cookie = some user) ∧
  r.body = some req ∧
  s.GetConversation req.ConversationID = some conv ∧
  conv.UserID = user.ID ∧ conv.IsActive = true ∧ conv.TurnCount < conv.MaxTurns ∧
  (req.Message.utf8ByteSize : Int) ≤ h.config.Game.MaxMessageLength ∧
  h.aiService conv.history req.userContent = Except.ok ch ∧
  r.flusher = true

/-- A configuration with phrases 新年快乐 (grand) and 恭喜发财 (consolation),
20 turns per conversation, thresholds 2 and 4, and one grand prize. -/
def sampleConfig : Config where
  Game :=
    { MaxTurns := 20
      MaxMessageLength := 1500
      Passwords := { Grand := "新年快乐", Consolation := "恭喜发财" }
      Prizes :=
        { GrandAmount := "100", ConsolationAmount := "10", ConsolationCount := 10,
          GrandCount := 1 }
      BonusConsolationThreshold := 2
      BonusGrandThreshold := 4 }

/-- The handler `main` wires from a configuration, with the upstream client `ai`. -/
def handlerOf (cfg : Config)
    (ai : List ChatMessage → String → Except UpstreamError (List StreamDelta)) : ChatHandler where
  config := cfg
  unicode := basicUnicode
  passwordChecker := NewPasswordChecker cfg.Game.Passwords.Grand cfg.Game.Passwords.Consolation
  aiService := ai

/-- An upstream client that always answers with the deltas `ch`. -/
def replyWith (ch : List StreamDelta) :
    List ChatMessage → String → Except UpstreamError (List StreamDelta) :=
  fun _ _ => Except.ok ch

/-- A database with user `u1` (nickname Ann) logged in under token `t1`. -/
def loggedIn : Store :=
  ((Store.New.GetOrCreateUser "u1" "Ann").1.CreateSession "t1" "u1").1

/-- The user row of `loggedIn`. -/
def ann : User := { ID := "u1", Contact := "u1", Nickname := "Ann", IsAdmin := false }

/-- A conversation row of user `u1` with the given id, turn count, maximum and
active flag. -/
def convRow (id : String) (turns maxTurns : Int) (active : Bool) : ConversationRow :=
  { id := id, user_id := "u1", nickname := "Ann", turn_count := turns, max_turns := maxTurns,
    is_active := active, is_success := false, is_public := true, found_password := "",
    last_message := [] }

/-- The database `loggedIn` with one conversation `c1` of user `u1`. -/
def withConversation (turns maxTurns : Int) (active : Bool) : Store :=
  { loggedIn with conversations := [convRow "c1" turns maxTurns active] }

/-- A `SendMessage` request of user `u1` for conversation `c1`. -/
def sendRequest (message : String) : Request messageRequest :=
  { cookie := some "t1",
    body := some { ConversationID := "c1", Message := message, ImageURL := "" },
    flusher := true }

/-- The conversation `GetConversation` builds from a row and its messages. -/
def loadRow (r : ConversationRow) (msgs : List Message) : Conversation :=
  { ID := r.id, UserID := r.user_id, Nickname := r.nickname, Messages := msgs,
    TurnCount := r.turn_count, MaxTurns := r.max_turns, IsActive := r.is_active,
    IsSuccess := r.is_success, IsPublic := r.is_public, FoundPassword := r.found_password,
    LastMessage := r.last_message }

/-- The `password_found` event `SendMessage` sends for a match. -/
def winFrame (h : ChatHandler) (m : PasswordMatch) (isFirst : Bool) : Frame :=
  Frame.event
    { Type_ := "password_found", Password := m.Password, PrizeType := m.DisplayName,
      PrizeAmount := prizeAmountOf h m, IsFirstWinner := isFirst }

/-- The step after the streaming loop of `SendMessage`: the accumulated reply
is stored as an assistant message unless it is empty. -/
def storeReply (s : Store) (convID aiResponse : String) : Store :=
  if aiResponse ≠ "" then s.AddMessage convID { Role := "assistant", Content := aiResponse }
  else s

/-- The sample configuration with other bonus thresholds and grand prize cap. -/
def configWith (consolationThreshold grandThreshold grandCount : Int) : Config where
  Game :=
    { MaxTurns := 20
      MaxMessageLength := 1500
      Passwords := { Grand := "新年快乐", Consolation := "恭喜发财" }
      Prizes :=
        { GrandAmount := "100", ConsolationAmount := "10", ConsolationCount := 10,
          GrandCount := grandCount }
      BonusConsolationThreshold := consolationThreshold
      BonusGrandThreshold := grandThreshold }

/-- The database `withConversation` with the bonus state of user `u1` set. -/
def withStatus (turns maxTurns : Int) (active : Bool) (status : String) : Store :=
  { withConversation turns maxTurns active with user_bonus_status := [("u1", status)] }

/-- A `SendMessage` request of user `u1` for the conversation `convID`. -/
def sendRequestTo (convID message : String) : Request messageRequest :=
  { cookie := some "t1",
    body := some { ConversationID := convID, Message := message, ImageURL := "" },
    flusher := true }

/-- An upstream client whose reply to the message "a" is the consolation
phrase of `sampleConfig` and to any other message the grand phrase. -/
def leakyClient : List ChatMessage → String → Except UpstreamError (List StreamDelta) :=
  fun _ message =>
    if message = "a" then Except.ok [StreamDelta.content "恭喜发财", StreamDelta.done]
    else Except.ok [StreamDelta.content "新年快乐", StreamDelta.done]

/-- One call of a chat handler; `convID` of `newConversation` stands for the
id the store generates. -/
inductive Operation where
  | newConversation (r : Request Unit) (convID : String)
  | sendMessage (r : Request messageRequest)
  | bonusChoice (r : Request bonusChoiceRequest)

/-- The database after one operation. -/
def ChatHandler.step (h : ChatHandler) (s : Store) : Operation → Store
  | Operation.newConversation r convID => (h.NewConversation s r convID).store
  | Operation.sendMessage r => (h.SendMessage s r).store
  | Operation.bonusChoice r => (h.BonusChoice s r).store

/-- The database after a sequence of operations. -/
def ChatHandler.run (h : ChatHandler) (s : Store) (ops : List Operation) : Store :=
  ops.foldl h.step s

/-- The operations of user `u1` after login: `NewConversation` giving `c1`,
`NewConversation` giving `c2`, `SendMessage` "a" to `c1`, `SendMessage` "b"
to `c2`. -/
def claimedOps : List Operation :=
  [Operation.newConversation { cookie := some "t1", body := some (), flusher := true } "c1",
   Operation.newConversation { cookie := some "t1", body := some (), flusher := true } "c2",
   Operation.sendMessage (sendRequestTo "c1" "a"),
   Operation.sendMessage (sendRequestTo "c2" "b")]

/-- The database after the first `n` operations of `claimedOps`, run with
the sample configuration from the freshly created database with `u1` logged in. -/
def claimedRun (n : Nat) : Store :=
  (handlerOf sampleConfig leakyClient).run loggedIn (claimedOps.take n)

/-- A message of 501 copies of the CJK character 好 (3 bytes each in UTF-8). -/
def longMessage : String := String.mk (List.replicate 501 '好')

/-- The id `convID` is unused: no conversation row and no message row carries it. -/
def Store.freshID (s : Store) (convID : String) : Prop :=
  (∀ r ∈ s.conversations, r.id ≠ convID) ∧ (∀ m ∈ s.messages, m.conversation_id ≠ convID)

/-- The arguments of one `RecordWinner` call. -/
structure WinnerCall where
  nickname : String
  convID : String
  passwordType : String
  password : String
  prizeAmount : String
deriving DecidableEq, Repr

/-- A sequential run of `RecordWinner` calls: the database after the calls
and the `isFirst` flags they returned, in order. -/
def Store.recordAll (s : Store) : List WinnerCall → Store × List Bool
  | [] => (s, [])
  | c :: cs =>
    let r := s.RecordWinner c.nickname c.convID c.passwordType c.password c.prizeAmount
    let rest := Store.recordAll r.1 cs
    (rest.1, r.2 :: rest.2)

/-- The first row of table `conversations` with the given id, as
`GetConversation` reads it. -/
def Store.row (s : Store) (c : String) : Option ConversationRow :=
  s.conversations.find? (fun r => decide (r.id = c))

/-- The row `r'` keeps the turn count and the maximum of `r` and is active
only if `r` is. -/
def quietRow (r r' : ConversationRow) : Prop :=
  r'.turn_count = r.turn_count ∧ r'.max_turns = r.max_turns ∧
    (r'.is_active = true → r.is_active = true)

/-- From `s` to `s'` no conversation appears or disappears, no turn is
counted, and no conversation is activated. -/
def Quiet (s s' : Store) : Prop :=
  ∀ c, (s.row c = none → s'.row c = none) ∧
    (∀ r, s.row c = some r → ∃ r', s'.row c = some r' ∧ quietRow r r')

/-- From `s` to `s'` every conversation is kept and none is activated. -/
def Calm (s s' : Store) : Prop :=
  ∀ c r, s.row c = some r →
    ∃ r', s'.row c = some r' ∧ (r'.is_active = true → r.is_active = true)

/-- Every conversation has a turn count within its maximum, and strictly
below it while active. -/
def Store.turnsOK (s : Store) : Prop :=
  ∀ c conv, s.GetConversation c = some conv →
    conv.TurnCount ≤ conv.MaxTurns ∧ (conv.IsActive = true → conv.TurnCount < conv.MaxTurns)

/-- The sample configuration with a maximum of 2 turns per conversation. -/
def shortConfig : Config where
  Game := { sampleConfig.Game with MaxTurns := 2 }

/-- The operations of user `u1` after login: `NewConversation` giving `c1`,
then `SendMessage` "x" and `SendMessage` "y" to `c1`. -/
def limitOps : List Operation :=
  [Operation.newConversation { cookie := some "t1", body := some (), flusher := true } "c1",
   Operation.sendMessage (sendRequestTo "c1" "x"),
   Operation.sendMessage (sendRequestTo "c1" "y")]

/-- A `BonusChoice` request of user `u1` choosing "claim" for `convID`. -/
def claimRequest (convID : String) : Request bonusChoiceRequest :=
  { cookie := some "t1", body := some { ConversationID := convID, Choice := "claim" },
    flusher := true }

/-- The state of a conversation as `GetConversation` reports it: active flag,
success flag, found phrase, turn count and maximum. -/
def outcomeOf (s : Store) (convID : String) : Option (Bool × Bool × String × Int × Int) :=
  (s.GetConversation convID).map
    (fun c => (c.IsActive, c.IsSuccess, c.FoundPassword, c.TurnCount, c.MaxTurns))

/-- The database `loggedIn` with a second user `u2` (nickname Bob) logged in
under token `t2`. -/
def twoLoggedIn : Store :=
  ((loggedIn.GetOrCreateUser "u2" "Bob").1.CreateSession "t2" "u2").1

/-- Two users each open a conversation and send one message to it. -/
def grandLeakOps : List Operation :=
  [Operation.newConversation { cookie := some "t1", body := some (), flusher := true } "c1",
   Operation.newConversation { cookie := some "t2", body := some (), flusher := true } "c2",
   Operation.sendMessage (sendRequestTo "c1" "a"),
   Operation.sendMessage
     { cookie := some "t2",
       body := some { ConversationID := "c2", Message := "b", ImageURL := "" },
       flusher := true }]

/-- `SendMessage` reports a match at the deltas `ds` for a phrase, label, prize
and tier: the event stream is one content event per delta of `ds`, then one
`password_found` event carrying the phrase, label and prize, then `[DONE]`;
and exactly one winner row is added, of that tier and phrase. -/
def reportsMatch (h : ChatHandler) (s : Store) (r : Request messageRequest)
    (ds : List StreamDelta) (password label amount tier : String) : Prop :=
  ∃ (isFirst : Bool) (w : WinnerRow),
    (h.SendMessage s r).response =
      Response.sse
        (ds.map (fun x => Frame.event { Type_ := "content", Content := x.Content }) ++
          [Frame.event
            { Type_ := "password_found", Password := password, PrizeType := label,
              PrizeAmount := amount, IsFirstWinner := isFirst },
           Frame.done]) ∧
    (h.SendMessage s r).store.winners = s.winners ++ [w] ∧
    w.prize_type = tier ∧ w.password = password

/-- An upstream client whose reply to the message "leak" is the grand phrase of
`sampleConfig` and to any other message the text "hi". -/
def leakOnRequest : List ChatMessage → String → Except UpstreamError (List StreamDelta) :=
  fun _ message =>
    if message = "leak" then Except.ok [StreamDelta.content "新年快乐", StreamDelta.done]
    else Except.ok [StreamDelta.content "hi", StreamDelta.done]

/-- User `u1` opens `c1` and `u2` opens `c2`; `u1` sends two messages, is
offered the choice and continues; `u2` sends "leak"; `u1` sends two more
messages. -/
def capOps : List Operation :=
  [Operation.newConversation { cookie := some "t1", body := some (), flusher := true } "c1",
   Operation.newConversation { cookie := some "t2", body := some (), flusher := true } "c2",
   Operation.sendMessage (sendRequestTo "c1" "x"),
   Operation.sendMessage (sendRequestTo "c1" "y"),
   Operation.bonusChoice
     { cookie := some "t1", body := some { ConversationID := "c1", Choice := "continue" },
       flusher := true },
   Operation.sendMessage
     { cookie := some "t2",
       body := some { ConversationID := "c2", Message := "leak", ImageURL := "" },
       flusher := true },
   Operation.sendMessage (sendRequestTo "c1" "z"),
   Operation.sendMessage (sendRequestTo "c1" "w")]

/-- The operation is a `BonusChoice` with the choice "claim" naming the
conversation `k`. -/
def Operation.claims (op : Operation) (k : String) : Prop :=
  match op with
  | Operation.bonusChoice r =>
    ∃ req, r.body = some req ∧ req.ConversationID = k ∧ req.Choice = "claim"
  | _ => False

/-! ## Facts about the string primitives -/

theorem containsList_iff (s sub : List Char) :
    containsList s sub = true ↔ sub <:+: s := by
  induction s with
  | nil =>
    cases sub with
    | nil => simp [containsList]
    | cons a t => simp [containsList, List.isPrefixOf]
  | cons c s ih =>
    rw [containsList, Bool.or_eq_true, ih, List.infix_cons_iff, List.isPrefixOf_iff_prefix]

theorem strings.Contains_iff (s sub : String) :
    strings.Contains s sub = true ↔ sub.data <:+: s.data :=
  containsList_iff s.data sub.data

theorem strings.Contains_self (s : String) : strings.Contains s s = true :=
  (strings.Contains_iff s s).2 List.infix_rfl

theorem matchAllKeywords.loop_iff (content : String) (kws : List String) :
    matchAllKeywords.loop content kws = true ↔
      ∀ kw ∈ kws, strings.Contains content kw = true := by
  induction kws with
  | nil => simp [matchAllKeywords.loop]
  | cons kw rest ih =>
    cases h : strings.Contains content kw <;> simp [matchAllKeywords.loop, h, ih]

theorem matchAllKeywords_iff (content : String) (kws : List String) :
    matchAllKeywords content kws = true ↔
      kws ≠ [] ∧ ∀ kw ∈ kws, strings.Contains content kw = true := by
  cases kws with
  | nil => simp [matchAllKeywords]
  | cons kw rest =>
    simp only [matchAllKeywords, List.length_cons, Nat.succ_ne_zero, if_false,
      matchAllKeywords.loop_iff, ne_eq, reduceCtorEq, not_false_eq_true, true_and]

theorem CheckContent_of_grandHit (unicode : Unicode) (pc : PasswordChecker) (content : String)
    (h : grandHit unicode pc content) :
    CheckContent unicode pc content = PasswordMatch.grand pc := by
  unfold CheckContent
  rcases h with h | h | h
  · simp [h]
  · by_cases h1 : strings.Contains content pc.grandPassword = true
    · simp [h1]
    · simp [h1, h]
  · have hk := (matchAllKeywords_iff content pc.grandKeywords).2 h
    by_cases h1 : strings.Contains content pc.grandPassword = true
    · simp [h1]
    · by_cases h2 : strings.Contains (stripPunctuation unicode content)
          (stripPunctuation unicode pc.grandPassword) = true
      · simp [h1, h2]
      · simp [h1, h2, hk]

theorem CheckContent_of_not_grandHit (unicode : Unicode) (pc : PasswordChecker)
    (content : String) (h : ¬ grandHit unicode pc content) :
    CheckContent unicode pc content =
      if strings.Contains content pc.consolationPassword then PasswordMatch.consolation pc
      else if strings.Contains (stripPunctuation unicode content)
          (stripPunctuation unicode pc.consolationPassword) then PasswordMatch.consolation pc
      else if matchAllKeywords content pc.consolationKeywords then PasswordMatch.consolation pc
      else PasswordMatch.notFound := by
  simp only [grandHit, tierHit, not_or] at h
  obtain ⟨h1, h2, h3⟩ := h
  rw [← matchAllKeywords_iff] at h3
  unfold CheckContent
  simp only [h1, h2, h3, if_false, Bool.false_eq_true]

theorem CheckContent_of_consolationHit (unicode : Unicode) (pc : PasswordChecker)
    (content : String) (hg : ¬ grandHit unicode pc content)
    (h : consolationHit unicode pc content) :
    CheckContent unicode pc content = PasswordMatch.consolation pc := by
  rw [CheckContent_of_not_grandHit unicode pc content hg]
  rcases h with h | h | h
  · simp [h]
  · split_ifs <;> rfl
  · have hk := (matchAllKeywords_iff content pc.consolationKeywords).2 h
    split_ifs <;> rfl

theorem CheckContent_of_no_hit (unicode : Unicode) (pc : PasswordChecker)
    (content : String) (hg : ¬ grandHit unicode pc content)
    (hc : ¬ consolationHit unicode pc content) :
    CheckContent unicode pc content = PasswordMatch.notFound := by
  rw [CheckContent_of_not_grandHit unicode pc content hg]
  simp only [consolationHit, tierHit, not_or] at hc
  obtain ⟨h1, h2, h3⟩ := hc
  rw [← matchAllKeywords_iff] at h3
  simp only [h1, h2, h3, if_false, Bool.false_eq_true]

/-- The result is one of three records, decided by which phrase hits. -/
theorem CheckContent_cases (unicode : Unicode) (pc : PasswordChecker) (content : String) :
    (grandHit unicode pc content ∧ CheckContent unicode pc content = PasswordMatch.grand pc) ∨
    (¬ grandHit unicode pc content ∧ consolationHit unicode pc content ∧
      CheckContent unicode pc content = PasswordMatch.consolation pc) ∨
    (¬ grandHit unicode pc content ∧ ¬ consolationHit unicode pc content ∧
      CheckContent unicode pc content = PasswordMatch.notFound) := by
  by_cases hg : grandHit unicode pc content
  · exact Or.inl ⟨hg, CheckContent_of_grandHit unicode pc content hg⟩
  · by_cases hc : consolationHit unicode pc content
    · exact Or.inr (Or.inl ⟨hg, hc, CheckContent_of_consolationHit unicode pc content hg hc⟩)
    · exact Or.inr (Or.inr ⟨hg, hc, CheckContent_of_no_hit unicode pc content hg hc⟩)

theorem Inserted.filter_eq {keep : Char → Bool} {s t : List Char}
    (h : Inserted keep s t) : t.filter keep = s.filter keep := by
  induction h with
  | nil => rfl
  | same c _ ih => simp only [List.filter_cons, ih]
  | ins c hc _ ih => simp only [List.filter_cons, hc, ih, Bool.false_eq_true, if_false]

theorem found_iff_some_hit (unicode : Unicode) (pc : PasswordChecker)
    (content : String) :
    (CheckContent unicode pc content).Found = true ↔
      grandHit unicode pc content ∨ consolationHit unicode pc content := by
  rcases CheckContent_cases unicode pc content with ⟨hg, h⟩ | ⟨hg, hc, h⟩ | ⟨hg, hc, h⟩
  · simp [h, hg, PasswordMatch.grand]
  · simp [h, hc, PasswordMatch.consolation]
  · simp [h, hg, hc, PasswordMatch.notFound]

/-! ## Secret matcher -/

/-- C1: `CheckContent(T).Found` is true exactly when some tier holds for the
grand phrase or for the consolation phrase: `T` contains the phrase verbatim,
or the stripped `T` contains the stripped phrase, or the phrase's keyword list
is non-empty and `T` contains every fragment of it. -/
theorem CheckContent_found_iff (unicode : Unicode) (pc : PasswordChecker) (T : String) :
    (CheckContent unicode pc T).Found = true ↔
      ((strings.Contains T pc.grandPassword = true ∨
        strings.Contains (stripPunctuation unicode T)
          (stripPunctuation unicode pc.grandPassword) = true ∨
        (pc.grandKeywords ≠ [] ∧ ∀ kw ∈ pc.grandKeywords, strings.Contains T kw = true)) ∨
       (strings.Contains T pc.consolationPassword = true ∨
        strings.Contains (stripPunctuation unicode T)
          (stripPunctuation unicode pc.consolationPassword) = true ∨
        (pc.consolationKeywords ≠ [] ∧
          ∀ kw ∈ pc.consolationKeywords, strings.Contains T kw = true))) :=
  found_iff_some_hit unicode pc T

/-- C2, as stated, fails: with grand phrase 新年快乐 and consolation phrase
祝你新年快乐, checking the consolation phrase itself reports the grand tier and
the grand phrase. -/
theorem CheckContent_consolation_phrase_reports_grand :
    CheckContent basicUnicode (NewPasswordChecker "新年快乐" "祝你新年快乐") "祝你新年快乐" =
      { Found := true, Password := "新年快乐", Type_ := "grand", DisplayName := "特等奖" } ∧
    ¬ ((CheckContent basicUnicode (NewPasswordChecker "新年快乐" "祝你新年快乐")
          "祝你新年快乐").Password = "祝你新年快乐" ∧
       (CheckContent basicUnicode (NewPasswordChecker "新年快乐" "祝你新年快乐")
          "祝你新年快乐").Type_ = "consolation") := by
  decide

/-- C2, amended: checking the grand phrase reports Found with the grand phrase
and type "grand"; checking the consolation phrase reports Found with the
consolation phrase and type "consolation" provided no tier of the grand phrase
holds on the consolation phrase, and reports the grand phrase and type "grand"
when one does. -/
theorem CheckContent_configured_phrase (unicode : Unicode) (grand consolation : String) :
    ((CheckContent unicode (NewPasswordChecker grand consolation) grand).Found = true ∧
     (CheckContent unicode (NewPasswordChecker grand consolation) grand).Password = grand ∧
     (CheckContent unicode (NewPasswordChecker grand consolation) grand).Type_ = "grand") ∧
    (¬ (strings.Contains consolation grand = true ∨
        strings.Contains (stripPunctuation unicode consolation)
          (stripPunctuation unicode grand) = true ∨
        (∀ kw ∈ ["小喵科技", "身体安康", "万事如意"],
          strings.Contains consolation kw = true)) →
      (CheckContent unicode (NewPasswordChecker grand consolation) consolation).Found = true ∧
      (CheckContent unicode (NewPasswordChecker grand consolation) consolation).Password
        = consolation ∧
      (CheckContent unicode (NewPasswordChecker grand consolation) consolation).Type_
        = "consolation") ∧
    ((strings.Contains consolation grand = true ∨
        strings.Contains (stripPunctuation unicode consolation)
          (stripPunctuation unicode grand) = true ∨
        (∀ kw ∈ ["小喵科技", "身体安康", "万事如意"],
          strings.Contains consolation kw = true)) →
      (CheckContent unicode (NewPasswordChecker grand consolation) consolation).Found = true ∧
      (CheckContent unicode (NewPasswordChecker grand consolation) consolation).Password
        = grand ∧
      (CheckContent unicode (NewPasswordChecker grand consolation) consolation).Type_
        = "grand") := by
  have key : ∀ T : String, grandHit unicode (NewPasswordChecker grand consolation) T ↔
      (strings.Contains T grand = true ∨
        strings.Contains (stripPunctuation unicode T) (stripPunctuation unicode grand) = true ∨
        (∀ kw ∈ ["小喵科技", "身体安康", "万事如意"], strings.Contains T kw = true)) := by
    intro T
    simp [grandHit, tierHit, NewPasswordChecker]
  refine ⟨?_, ?_, ?_⟩
  · have h := CheckContent_of_grandHit unicode (NewPasswordChecker grand consolation) grand
      (Or.inl (strings.Contains_self grand))
    rw [h]
    exact ⟨rfl, rfl, rfl⟩
  · intro hno
    have hg : ¬ grandHit unicode (NewPasswordChecker grand consolation) consolation :=
      fun h => hno ((key consolation).1 h)
    have h := CheckContent_of_consolationHit unicode (NewPasswordChecker grand consolation)
      consolation hg (Or.inl (strings.Contains_self consolation))
    rw [h]
    exact ⟨rfl, rfl, rfl⟩
  · intro hyes
    have h := CheckContent_of_grandHit unicode (NewPasswordChecker grand consolation)
      consolation ((key consolation).2 hyes)
    rw [h]
    exact ⟨rfl, rfl, rfl⟩

/-- C2, amended, at grand phrase 新年快乐 and consolation phrase 恭喜发财: the
consolation phrase is reported as itself with type "consolation". -/
theorem CheckContent_configured_phrase_witness :
    (CheckContent basicUnicode (NewPasswordChecker "新年快乐" "恭喜发财") "恭喜发财").Found = true ∧
    (CheckContent basicUnicode (NewPasswordChecker "新年快乐" "恭喜发财") "恭喜发财").Password
      = "恭喜发财" ∧
    (CheckContent basicUnicode (NewPasswordChecker "新年快乐" "恭喜发财") "恭喜发财").Type_
      = "consolation" :=
  (CheckContent_configured_phrase basicUnicode "新年快乐" "恭喜发财").2.1 (by decide)

/-- C3: a text obtained from a configured phrase by inserting characters that
are neither letters nor digits, at any positions, is reported Found. -/
theorem CheckContent_inserted_punctuation (unicode : Unicode) (grand consolation S T : String)
    (hS : S = grand ∨ S = consolation)
    (hT : Inserted (fun r => unicode.IsLetter r || unicode.IsDigit r) S.data T.data) :
    (CheckContent unicode (NewPasswordChecker grand consolation) T).Found = true := by
  have hstrip : stripPunctuation unicode T = stripPunctuation unicode S := by
    unfold stripPunctuation
    rw [hT.filter_eq]
  have hc : strings.Contains (stripPunctuation unicode T) (stripPunctuation unicode S) = true := by
    rw [hstrip]
    exact strings.Contains_self _
  rw [found_iff_some_hit]
  rcases hS with h | h
  · subst h
    exact Or.inl (Or.inr (Or.inl hc))
  · subst h
    exact Or.inr (Or.inr (Or.inl hc))

/-- C3 at the phrase 新年快乐 with a comma, a space and an exclamation mark
inserted. -/
theorem CheckContent_inserted_punctuation_witness :
    (CheckContent basicUnicode (NewPasswordChecker "恭喜发财" "新年快乐") "新年, 快乐!").Found
      = true :=
  CheckContent_inserted_punctuation basicUnicode "恭喜发财" "新年快乐" "新年快乐" "新年, 快乐!"
    (Or.inr rfl)
    (Inserted.same _ (Inserted.same _ (Inserted.ins ',' (by decide) (Inserted.ins ' ' (by decide)
      (Inserted.same _ (Inserted.same _ (Inserted.ins '!' (by decide) Inserted.nil)))))))

/-- C4: a text containing both phrases verbatim is reported as the grand
phrase with type "grand". -/
theorem CheckContent_both_phrases_grand (unicode : Unicode) (grand consolation T : String)
    (hg : strings.Contains T grand = true) (_hc : strings.Contains T consolation = true) :
    (CheckContent unicode (NewPasswordChecker grand consolation) T).Found = true ∧
    (CheckContent unicode (NewPasswordChecker grand consolation) T).Type_ = "grand" ∧
    (CheckContent unicode (NewPasswordChecker grand consolation) T).Password = grand := by
  rw [CheckContent_of_grandHit unicode (NewPasswordChecker grand consolation) T (Or.inl hg)]
  exact ⟨rfl, rfl, rfl⟩

/-- C4 at a text that holds the consolation phrase before the grand phrase. -/
theorem CheckContent_both_phrases_grand_witness :
    (CheckContent basicUnicode (NewPasswordChecker "新年快乐" "恭喜发财") "恭喜发财，新年快乐").Found
      = true ∧
    (CheckContent basicUnicode (NewPasswordChecker "新年快乐" "恭喜发财") "恭喜发财，新年快乐").Type_
      = "grand" ∧
    (CheckContent basicUnicode (NewPasswordChecker "新年快乐" "恭喜发财") "恭喜发财，新年快乐").Password
      = "新年快乐" :=
  CheckContent_both_phrases_grand basicUnicode "新年快乐" "恭喜发财" "恭喜发财，新年快乐"
    (by decide) (by decide)

/-- C5: a Found result carries one of the two canonical records (the grand
phrase with "grand" and 特等奖, or the consolation phrase with "consolation"
and 安慰奖), so when the two phrases differ the password fixes type and label;
a result that is not Found has empty password, type and label. -/
theorem CheckContent_result_canonical (unicode : Unicode) (pc : PasswordChecker) (T : String) :
    ((CheckContent unicode pc T).Found = true →
      ((CheckContent unicode pc T).Password = pc.grandPassword ∧
        (CheckContent unicode pc T).Type_ = "grand" ∧
        (CheckContent unicode pc T).DisplayName = "特等奖") ∨
      ((CheckContent unicode pc T).Password = pc.consolationPassword ∧
        (CheckContent unicode pc T).Type_ = "consolation" ∧
        (CheckContent unicode pc T).DisplayName = "安慰奖")) ∧
    ((CheckContent unicode pc T).Found = true →
      pc.grandPassword ≠ pc.consolationPassword →
      ((CheckContent unicode pc T).Password = pc.grandPassword →
        (CheckContent unicode pc T).Type_ = "grand" ∧
        (CheckContent unicode pc T).DisplayName = "特等奖") ∧
      ((CheckContent unicode pc T).Password = pc.consolationPassword →
        (CheckContent unicode pc T).Type_ = "consolation" ∧
        (CheckContent unicode pc T).DisplayName = "安慰奖")) ∧
    ((CheckContent unicode pc T).Found = false →
      (CheckContent unicode pc T).Password = "" ∧
      (CheckContent unicode pc T).Type_ = "" ∧
      (CheckContent unicode pc T).DisplayName = "") := by
  rcases CheckContent_cases unicode pc T with ⟨_, h⟩ | ⟨_, _, h⟩ | ⟨_, _, h⟩
  · rw [h]
    refine ⟨fun _ => Or.inl ⟨rfl, rfl, rfl⟩, fun _ hne => ⟨fun _ => ⟨rfl, rfl⟩, fun he => ?_⟩,
      fun hf => ?_⟩
    · exact absurd he hne
    · exact absurd hf (by simp [PasswordMatch.grand])
  · rw [h]
    refine ⟨fun _ => Or.inr ⟨rfl, rfl, rfl⟩, fun _ hne => ⟨fun he => ?_, fun _ => ⟨rfl, rfl⟩⟩,
      fun hf => ?_⟩
    · exact absurd he.symm hne
    · exact absurd hf (by simp [PasswordMatch.consolation])
  · rw [h]
    refine ⟨fun hf => ?_, fun hf => ?_, fun _ => ⟨rfl, rfl, rfl⟩⟩
    · exact absurd hf (by simp [PasswordMatch.notFound])
    · exact absurd hf (by simp [PasswordMatch.notFound])

/-- C5 at a text leaking the consolation phrase with punctuation inside: the
reported password is the configured phrase, not the variant in the text. -/
theorem CheckContent_result_canonical_witness :
    ((CheckContent basicUnicode (NewPasswordChecker "新年快乐" "恭喜发财") "恭喜，发财").Password
        = "新年快乐" ∧
      (CheckContent basicUnicode (NewPasswordChecker "新年快乐" "恭喜发财") "恭喜，发财").Type_
        = "grand" ∧
      (CheckContent basicUnicode (NewPasswordChecker "新年快乐" "恭喜发财") "恭喜，发财").DisplayName
        = "特等奖") ∨
    ((CheckContent basicUnicode (NewPasswordChecker "新年快乐" "恭喜发财") "恭喜，发财").Password
        = "恭喜发财" ∧
      (CheckContent basicUnicode (NewPasswordChecker "新年快乐" "恭喜发财") "恭喜，发财").Type_
        = "consolation" ∧
      (CheckContent basicUnicode (NewPasswordChecker "新年快乐" "恭喜发财") "恭喜，发财").DisplayName
        = "安慰奖") :=
  (CheckContent_result_canonical basicUnicode (NewPasswordChecker "新年快乐" "恭喜发财")
    "恭喜，发财").1 (by decide)

/-! ## Streaming client: retry loop and request messages -/

theorem StreamChat.retry_eq (up : Nat → Outcome) :
    StreamChat.retry up =
      if transient (up 1) then
        if transient (up 2) then
          ([Step.request 1, Step.sleep 500, Step.request 2, Step.sleep 500, Step.request 3],
            resultOf 3 (up 3))
        else ([Step.request 1, Step.sleep 500, Step.request 2], resultOf 2 (up 2))
      else ([Step.request 1], resultOf 1 (up 1)) := by
  have step : ∀ (fuel attempt : Nat), attempt ≤ 3 →
      StreamChat.retryLoop up (fuel + 1) attempt =
        if transient (up attempt) && decide (attempt < 3) then
          (Step.request attempt :: Step.sleep 500 ::
              (StreamChat.retryLoop up fuel (attempt + 1)).1,
            (StreamChat.retryLoop up fuel (attempt + 1)).2)
        else ([Step.request attempt], resultOf attempt (up attempt)) := by
    intro fuel attempt hle
    rw [StreamChat.retryLoop]
    simp only [maxRetries, hle, if_true, retryDelay]
    cases h : up attempt with
    | netErr cause =>
      by_cases hlt : attempt < 3 <;> simp [transient, resultOf, hlt]
    | status code body =>
      by_cases h200 : code = 200
      · subst h200
        simp [transient, resultOf]
      · by_cases h500 : code ≥ 500
        · by_cases hlt : attempt < 3 <;> simp [transient, resultOf, hlt, h200, h500]
        · simp [transient, resultOf, h200, h500]
  unfold StreamChat.retry
  simp only [maxRetries]
  rw [step 2 1 (by decide), step 1 2 (by decide), step 0 3 (by decide)]
  cases transient (up 1) <;> cases transient (up 2) <;> cases transient (up 3) <;> simp

theorem resultOf_transient_fail (n : Nat) (o : Outcome) (h : transient o = true) :
    ∃ e, resultOf n o = LoopExit.fail e := by
  cases o with
  | netErr cause => exact ⟨_, rfl⟩
  | status code body =>
    have h5 : code ≥ 500 := by simpa [transient] using h
    have : code ≠ 200 := by omega
    exact ⟨UpstreamError.http code body, by simp [resultOf, this]⟩

/-- C6: with the upstream given as the outcome of each attempt, `StreamChat`
makes attempts 1..n in order, n at most 3, every attempt before the n-th being
a network error or a status of 500 or more and the n-th being the first that
is not (unless n = 3); it sleeps 500 ms once between consecutive attempts and
not after the last; and its result is that of attempt n: success exactly on
status 200, otherwise an error carrying that attempt's cause.  Outcomes
500, 500, 200 succeed after 3 attempts and 2 sleeps, a first outcome 400 fails
after 1 attempt with no sleep, and three transient failures fail with the
cause of the third. -/
theorem StreamChat_retry_policy (up : Nat → Outcome) :
    (∃ n, 1 ≤ n ∧ n ≤ maxRetries ∧
      (∀ i, 1 ≤ i → i < n → transient (up i) = true) ∧
      (n < maxRetries → transient (up n) = false) ∧
      (StreamChat.retry up).1 = attemptTrace n ∧
      ((StreamChat.retry up).1.filter (fun st => decide (st = Step.sleep retryDelay))).length
        = n - 1 ∧
      (StreamChat.retry up).2 = resultOf n (up n) ∧
      ((StreamChat.retry up).2 = LoopExit.ok n ↔ ∃ body, up n = Outcome.status 200 body)) ∧
    (∀ b1 b2 b3, up 1 = Outcome.status 500 b1 → up 2 = Outcome.status 500 b2 →
      up 3 = Outcome.status 200 b3 →
      StreamChat.retry up =
        ([Step.request 1, Step.sleep 500, Step.request 2, Step.sleep 500, Step.request 3],
          LoopExit.ok 3)) ∧
    (∀ b, up 1 = Outcome.status 400 b →
      StreamChat.retry up = ([Step.request 1], LoopExit.fail (UpstreamError.http 400 b))) ∧
    (transient (up 1) = true → transient (up 2) = true → transient (up 3) = true →
      StreamChat.retry up =
        ([Step.request 1, Step.sleep 500, Step.request 2, Step.sleep 500, Step.request 3],
          resultOf 3 (up 3)) ∧
      ∃ e, resultOf 3 (up 3) = LoopExit.fail e) := by
  have hok : ∀ (n : Nat) (o : Outcome),
      resultOf n o = LoopExit.ok n ↔ ∃ body, o = Outcome.status 200 body := by
    intro n o
    cases o with
    | netErr cause => simp [resultOf]
    | status code body =>
      by_cases h : code = 200 <;> simp [resultOf, h]
  refine ⟨?_, ?_, ?_, ?_⟩
  · rw [StreamChat.retry_eq]
    cases h1 : transient (up 1)
    · refine ⟨1, by decide, by decide, ?_, fun _ => h1, ?_, ?_, ?_, ?_⟩
      · intro i h h'
        omega
      · rfl
      · simp [retryDelay]
      · simp
      · simpa using hok 1 (up 1)
    · cases h2 : transient (up 2)
      · refine ⟨2, by decide, by decide, ?_, fun _ => h2, ?_, ?_, ?_, ?_⟩
        · intro i h h'
          have : i = 1 := by omega
          subst this
          exact h1
        · rfl
        · simp [retryDelay]
        · simp
        · simpa using hok 2 (up 2)
      · refine ⟨3, by decide, by decide, ?_, fun h => absurd h (by decide), ?_, ?_, ?_, ?_⟩
        · intro i h h'
          have : i = 1 ∨ i = 2 := by omega
          rcases this with rfl | rfl
          · exact h1
          · exact h2
        · rfl
        · simp [retryDelay]
        · simp
        · simpa using hok 3 (up 3)
  · intro b1 b2 b3 e1 e2 e3
    rw [StreamChat.retry_eq]
    simp [e1, e2, e3, transient, resultOf]
  · intro b e1
    rw [StreamChat.retry_eq]
    simp [e1, transient, resultOf]
  · intro h1 h2 h3
    rw [StreamChat.retry_eq]
    simp only [h1, h2, if_true]
    exact ⟨trivial, resultOf_transient_fail 3 (up 3) h3⟩

/-- C6 at an upstream that answers 500, 500 and then 200. -/
theorem StreamChat_retry_policy_witness :
    StreamChat.retry (fun n => if n = 3 then Outcome.status 200 "" else Outcome.status 500 "busy") =
      ([Step.request 1, Step.sleep 500, Step.request 2, Step.sleep 500, Step.request 3],
        LoopExit.ok 3) :=
  (StreamChat_retry_policy
    (fun n => if n = 3 then Outcome.status 200 "" else Outcome.status 500 "busy")).2.1
    "busy" "busy" "" rfl rfl rfl

/-- C7: the message list sent upstream is the system prompt with role
"system", then the history unchanged and in order, then the new message with
role "user"; its length is the history's length plus 2. -/
theorem StreamChat_messages_layout (ai : AIService) (history : List ChatMessage)
    (userMessage : String) :
    StreamChat.messages ai history userMessage =
      [{ Role := "system", Content := ai.systemPrompt }] ++ history ++
        [{ Role := "user", Content := userMessage }] ∧
    (StreamChat.messages ai history userMessage).length = history.length + 2 := by
  constructor
  · simp [StreamChat.messages]
  · simp [StreamChat.messages]

/-! ## Streaming client: the line reader -/

theorem isMarker_eq_false_iff (d : StreamDelta) :
    isMarker d = false ↔ d.Done = false ∧ d.Error = none := by
  cases d with
  | mk c dn e => cases dn <;> cases e <;> simp [isMarker]

theorem contentDelta_not_marker (c : streamChoice) :
    ∀ d ∈ contentDelta c, isMarker d = false := by
  intro d hd
  unfold contentDelta at hd
  split_ifs at hd with h
  · simp only [List.mem_singleton] at hd
    subst hd
    rfl
  · simp at hd

theorem contentDeltas_not_marker (cs : List streamChoice) :
    ∀ d ∈ contentDeltas cs, isMarker d = false := by
  induction cs with
  | nil => simp [contentDeltas]
  | cons c cs ih =>
    intro d hd
    simp only [contentDeltas, List.mem_append] at hd
    rcases hd with hd | hd
    · exact contentDelta_not_marker c d hd
    · exact ih d hd

theorem StreamChat.choices_of_none (cs : List streamChoice)
    (h : ∀ c ∈ cs, c.FinishReason = none) :
    StreamChat.choices cs = (contentDeltas cs, false) := by
  induction cs with
  | nil => rfl
  | cons c cs ih =>
    have hc : c.FinishReason = none := h c (List.mem_cons_self _ _)
    have ih' := ih (fun x hx => h x (List.mem_cons_of_mem _ hx))
    simp [StreamChat.choices, hc, ih', contentDeltas]

theorem StreamChat.choices_split (cs1 cs2 : List streamChoice) (c : streamChoice)
    (h1 : ∀ x ∈ cs1, x.FinishReason = none) (hc : c.FinishReason ≠ none) :
    StreamChat.choices (cs1 ++ c :: cs2) =
      (contentDeltas cs1 ++ contentDelta c ++ [StreamDelta.done], true) := by
  induction cs1 with
  | nil =>
    have : c.FinishReason.isSome = true := Option.isSome_iff_ne_none.2 hc
    simp [StreamChat.choices, this, contentDeltas]
  | cons x cs1 ih =>
    have hx : x.FinishReason = none := h1 x (List.mem_cons_self _ _)
    have ih' := ih (fun y hy => h1 y (List.mem_cons_of_mem _ hy))
    simp [StreamChat.choices, hx, ih', contentDeltas]

theorem StreamChat.choices_any (cs : List streamChoice) :
    cs.any (fun c => c.FinishReason.isSome) = true →
      ∃ cs1 c cs2, cs = cs1 ++ c :: cs2 ∧ (∀ x ∈ cs1, x.FinishReason = none) ∧
        c.FinishReason ≠ none := by
  induction cs with
  | nil => simp
  | cons x cs ih =>
    intro h
    by_cases hx : x.FinishReason = none
    · have hrest : cs.any (fun c => c.FinishReason.isSome) = true := by
        simpa [hx] using h
      obtain ⟨cs1, c, cs2, he, h1, hc⟩ := ih hrest
      refine ⟨x :: cs1, c, cs2, by simp [he], ?_, hc⟩
      intro y hy
      rcases List.mem_cons.1 hy with rfl | hy
      · exact hx
      · exact h1 y hy
    · exact ⟨[], x, cs, rfl, by simp, hx⟩

theorem StreamChat.produce_cons_skip (decode : String → Option streamResponse)
    (x : String) (rest : List String) (err : Option String) (hx : ignorable decode x) :
    StreamChat.produce decode (x :: rest) err = StreamChat.produce decode rest err := by
  simp only [StreamChat.produce]
  by_cases h0 : x = ""
  · simp [h0]
  · by_cases hp : strings.HasPrefix x "data: " = true
    · rcases hx with h | h | ⟨hd, hn⟩
      · exact absurd h h0
      · rw [hp] at h
        exact absurd h (by decide)
      · simp [h0, hp, hd, hn]
    · simp [h0, hp]

theorem StreamChat.produce_cons_congr (decode : String → Option streamResponse)
    (l : String) (A B : List String) (err : Option String)
    (h : StreamChat.produce decode A err = StreamChat.produce decode B err) :
    StreamChat.produce decode (l :: A) err = StreamChat.produce decode (l :: B) err := by
  simp only [StreamChat.produce, h]

theorem StreamChat.produce_cons_not_finishing (decode : String → Option streamResponse)
    (l : String) (hl : finishes decode l = false) :
    ∃ ds, (∀ d ∈ ds, isMarker d = false) ∧
      ∀ rest err, StreamChat.produce decode (l :: rest) err =
        ds ++ StreamChat.produce decode rest err := by
  by_cases h0 : l = ""
  · exact ⟨[], by simp, fun rest err => by simp [StreamChat.produce, h0]⟩
  · by_cases hp : strings.HasPrefix l "data: " = true
    · simp only [finishes, hp, Bool.true_and, Bool.or_eq_false_iff, decide_eq_false_iff_not]
        at hl
      obtain ⟨hd, hm⟩ := hl
      cases hdec : decode (strings.TrimPrefix l "data: ") with
      | none =>
        exact ⟨[], by simp, fun rest err => by simp [StreamChat.produce, h0, hp, hd, hdec]⟩
      | some sr =>
        rw [hdec] at hm
        have hnone : ∀ c ∈ sr.Choices, c.FinishReason = none := by
          intro c hc
          have := List.any_eq_false.1 hm c hc
          simpa using this
        refine ⟨contentDeltas sr.Choices, contentDeltas_not_marker _, fun rest err => ?_⟩
        simp [StreamChat.produce, h0, hp, hd, hdec, StreamChat.choices_of_none _ hnone]
    · exact ⟨[], by simp, fun rest err => by simp [StreamChat.produce, h0, hp]⟩

theorem StreamChat.produce_cons_finishing (decode : String → Option streamResponse)
    (l : String) (hl : finishes decode l = true) :
    ∃ ds, (∀ d ∈ ds, isMarker d = false) ∧
      ∀ rest err, StreamChat.produce decode (l :: rest) err = ds ++ [StreamDelta.done] := by
  simp only [finishes, Bool.and_eq_true, Bool.or_eq_true, decide_eq_true_eq] at hl
  obtain ⟨hp, hl⟩ := hl
  have h0 : l ≠ "" := by
    intro h
    rw [h] at hp
    exact absurd hp (by decide)
  by_cases hd : strings.TrimPrefix l "data: " = "[DONE]"
  · exact ⟨[], by simp, fun rest err => by simp [StreamChat.produce, h0, hp, hd]⟩
  · rcases hl with hl | hl
    · exact absurd hl hd
    · cases hdec : decode (strings.TrimPrefix l "data: ") with
      | none => simp [hdec] at hl
      | some sr =>
        rw [hdec] at hl
        obtain ⟨cs1, c, cs2, he, h1, hc⟩ := StreamChat.choices_any sr.Choices hl
        refine ⟨contentDeltas cs1 ++ contentDelta c, ?_, fun rest err => ?_⟩
        · intro d hd'
          rcases List.mem_append.1 hd' with h | h
          · exact contentDeltas_not_marker cs1 d h
          · exact contentDelta_not_marker c d h
        · simp [StreamChat.produce, h0, hp, hd, hdec, he, StreamChat.choices_split cs1 cs2 c h1 hc]

theorem StreamChat.produce_append (decode : String → Option streamResponse)
    (pre : List String) (hpre : ∀ l ∈ pre, finishes decode l = false) :
    (∀ d ∈ StreamChat.produce decode pre none, isMarker d = false) ∧
    ∀ rest err, StreamChat.produce decode (pre ++ rest) err =
      StreamChat.produce decode pre none ++ StreamChat.produce decode rest err := by
  induction pre with
  | nil => simp [StreamChat.produce]
  | cons l pre ih =>
    obtain ⟨ds, hds, hl⟩ := StreamChat.produce_cons_not_finishing decode l
      (hpre l (List.mem_cons_self _ _))
    obtain ⟨ih1, ih2⟩ := ih (fun x hx => hpre x (List.mem_cons_of_mem _ hx))
    constructor
    · intro d hd
      rw [hl] at hd
      rcases List.mem_append.1 hd with h | h
      · exact hds d h
      · exact ih1 d h
    · intro rest err
      rw [List.cons_append, hl, hl, ih2, List.append_assoc]

theorem StreamChat.produce_closing (decode : String → Option streamResponse)
    (lines : List String) (err : Option String) :
    ∃ ds, (∀ d ∈ ds, isMarker d = false) ∧
      StreamChat.produce decode lines err = ds ++ closing decode lines err := by
  induction lines with
  | nil =>
    refine ⟨[], by simp, ?_⟩
    cases err <;> simp [StreamChat.produce, closing]
  | cons l lines ih =>
    cases hl : finishes decode l
    · obtain ⟨ds, hds, h⟩ := StreamChat.produce_cons_not_finishing decode l hl
      obtain ⟨ds', hds', h'⟩ := ih
      refine ⟨ds ++ ds', ?_, ?_⟩
      · intro d hd
        rcases List.mem_append.1 hd with x | x
        · exact hds d x
        · exact hds' d x
      · rw [h, h', List.append_assoc]
        simp [closing, hl]
    · obtain ⟨ds, hds, h⟩ := StreamChat.produce_cons_finishing decode l hl
      exact ⟨ds, hds, by rw [h]; simp [closing, hl]⟩

theorem closing_cases (decode : String → Option streamResponse)
    (lines : List String) (err : Option String) :
    (closing decode lines err = [] ∧ (∀ l ∈ lines, finishes decode l = false) ∧ err = none) ∨
    (∃ m, closing decode lines err = [m] ∧ isMarker m = true ∧
      ((∃ l ∈ lines, finishes decode l = true) ∨ err ≠ none)) := by
  unfold closing
  by_cases h : lines.any (finishes decode) = true
  · right
    refine ⟨StreamDelta.done, by simp [h], rfl, Or.inl ?_⟩
    simpa using h
  · have hall : ∀ l ∈ lines, finishes decode l = false := by
      intro l hl
      cases hf : finishes decode l
      · rfl
      · exact absurd (List.any_eq_true.2 ⟨l, hl, hf⟩) h
    cases err with
    | none =>
      left
      exact ⟨by simp [h], hall, rfl⟩
    | some e =>
      right
      exact ⟨StreamDelta.error ("读取流式响应失败: " ++ e), by simp [h], rfl, Or.inr (by simp)⟩

/-- Over the tokens of the scanner, a token that is empty, or lacks the marker
`data: `, or whose payload is not the end sentinel and does not decode, can be
inserted or deleted at any position without changing the deltas. -/
theorem StreamChat.produce_insert_ignorable (decode : String → Option streamResponse)
    (pre post : List String) (x : String) (err : Option String)
    (hx : ignorable decode x) :
    StreamChat.produce decode (pre ++ x :: post) err =
      StreamChat.produce decode (pre ++ post) err := by
  induction pre with
  | nil => exact StreamChat.produce_cons_skip decode x post err hx
  | cons l pre ih => exact StreamChat.produce_cons_congr decode l _ _ err ih

/-- Over the tokens of the scanner: when no token before `t` finishes the
stream and `t` is `data: [DONE]` or a decoded frame whose first choice with a
finish reason is `c`, nothing after that point is produced: the sequence is
the content deltas of the earlier tokens, then those of the choices before
`c`, then the content of `c` when non-empty, then Done; Done is last and no
other element is a marker. -/
theorem StreamChat.produce_stops (decode : String → Option streamResponse)
    (pre post : List String) (t : String) (err : Option String)
    (hpre : ∀ l ∈ pre, finishes decode l = false) :
    (t = "data: [DONE]" →
      StreamChat.produce decode (pre ++ t :: post) err =
        StreamChat.produce decode pre none ++ [StreamDelta.done]) ∧
    (∀ sr cs1 c cs2, strings.HasPrefix t "data: " = true →
      strings.TrimPrefix t "data: " ≠ "[DONE]" →
      decode (strings.TrimPrefix t "data: ") = some sr →
      sr.Choices = cs1 ++ c :: cs2 → (∀ x ∈ cs1, x.FinishReason = none) →
      c.FinishReason ≠ none →
      StreamChat.produce decode (pre ++ t :: post) err =
        StreamChat.produce decode pre none ++ contentDeltas cs1 ++
          (if c.Content ≠ "" then [StreamDelta.content c.Content] else []) ++
          [StreamDelta.done]) ∧
    (∀ d ∈ StreamChat.produce decode pre none, d.Done = false ∧ d.Error = none) ∧
    (finishes decode t = true →
      StreamChat.produce decode (pre ++ t :: post) err =
        StreamChat.produce decode (pre ++ [t]) none ∧
      ∃ ds, StreamChat.produce decode (pre ++ t :: post) err = ds ++ [StreamDelta.done] ∧
        ∀ d ∈ ds, d.Done = false ∧ d.Error = none) := by
  obtain ⟨hm, happ⟩ := StreamChat.produce_append decode pre hpre
  refine ⟨?_, ?_, ?_, ?_⟩
  · intro ht
    subst ht
    rw [happ]
    rfl
  · intro sr cs1 c cs2 hp hd hdec he h1 hc
    have h0 : t ≠ "" := by
      intro h
      rw [h] at hp
      exact absurd hp (by decide)
    rw [happ]
    have : StreamChat.produce decode (t :: post) err =
        contentDeltas cs1 ++ contentDelta c ++ [StreamDelta.done] := by
      simp [StreamChat.produce, h0, hp, hd, hdec, he, StreamChat.choices_split cs1 cs2 c h1 hc]
    rw [this]
    simp only [contentDelta, List.append_assoc]
  · intro d hd
    exact (isMarker_eq_false_iff d).1 (hm d hd)
  · intro ht
    obtain ⟨ds, hds, h⟩ := StreamChat.produce_cons_finishing decode t ht
    refine ⟨?_, StreamChat.produce decode pre none ++ ds, ?_, ?_⟩
    · rw [happ, happ, h, h]
    · rw [happ, h, List.append_assoc]
    · intro d hd
      rcases List.mem_append.1 hd with x | x
      · exact (isMarker_eq_false_iff d).1 (hm d x)
      · exact (isMarker_eq_false_iff d).1 (hds d x)

/-! ### The scanner -/

theorem utf8ByteSize_replicate_x (n : Nat) :
    (String.mk (List.replicate n 'x')).utf8ByteSize = n := by
  have key : ∀ k : Nat, String.utf8ByteSize.go (List.replicate k 'x') = k := by
    intro k
    induction k with
    | zero => rfl
    | succ k ih =>
      have hx : ('x' : Char).utf8Size = 1 := by decide
      simp only [List.replicate_succ, String.utf8ByteSize.go, ih, hx]
  exact key n

theorem oversizedLine_utf8ByteSize : oversizedLine.utf8ByteSize = 70000 :=
  utf8ByteSize_replicate_x 70000

theorem oversizedLine_too_long : bufio.MaxScanTokenSize ≤ oversizedLine.utf8ByteSize := by
  rw [oversizedLine_utf8ByteSize]
  decide

theorem oversizedLine_no_marker : strings.HasPrefix oversizedLine "data: " = false := by
  have key : ∀ k : Nat, ("data: " : String).data.isPrefixOf (List.replicate (k + 1) 'x') = false := by
    intro k
    have hd : ("data: " : String).data = ['d', 'a', 't', 'a', ':', ' '] := by decide
    rw [hd, List.replicate_succ]
    have hne : ('d' == 'x') = false := by decide
    simp only [List.isPrefixOf, hne, Bool.false_and]
  exact key 69999

theorem bufio.Scanner.run_cons_long (x : String) (rest : List String) (readErr : Option String)
    (hx : bufio.MaxScanTokenSize ≤ x.utf8ByteSize) :
    bufio.Scanner.run (x :: rest) readErr = ([], some bufio.ErrTooLong) := by
  have hx' : x.utf8ByteSize ≥ bufio.MaxScanTokenSize := hx
  simp only [bufio.Scanner.run, hx', if_true]

theorem bufio.Scanner.run_cons_short (x : String) (rest : List String) (readErr : Option String)
    (hx : x.utf8ByteSize < bufio.MaxScanTokenSize) :
    bufio.Scanner.run (x :: rest) readErr =
      (bufio.dropCR x :: (bufio.Scanner.run rest readErr).1,
        (bufio.Scanner.run rest readErr).2) := by
  have hx' : ¬ x.utf8ByteSize ≥ bufio.MaxScanTokenSize := not_le.2 hx
  simp only [bufio.Scanner.run, hx', if_false]

theorem bufio.Scanner.run_append_short (pre rest : List String) (readErr : Option String)
    (hpre : ∀ l ∈ pre, l.utf8ByteSize < bufio.MaxScanTokenSize) :
    bufio.Scanner.run (pre ++ rest) readErr =
      (pre.map bufio.dropCR ++ (bufio.Scanner.run rest readErr).1,
        (bufio.Scanner.run rest readErr).2) := by
  induction pre with
  | nil => rfl
  | cons l pre ih =>
    have ih' := ih (fun x hx => hpre x (List.mem_cons_of_mem _ hx))
    rw [List.cons_append,
      bufio.Scanner.run_cons_short l _ readErr (hpre l (List.mem_cons_self _ _)), ih']
    rfl

theorem StreamChat.produce_cons_congr_err (decode : String → Option streamResponse)
    (l : String) (A B : List String) (e1 e2 : Option String)
    (h : StreamChat.produce decode A e1 = StreamChat.produce decode B e2) :
    StreamChat.produce decode (l :: A) e1 = StreamChat.produce decode (l :: B) e2 := by
  simp only [StreamChat.produce, h]

/-- A line at or beyond the token limit ends the scan: the deltas are those of
the lines before it, ended as by the scanner error `ErrTooLong`. -/
theorem StreamChat.deltas_long (decode : String → Option streamResponse)
    (pre post : List String) (x : String) (readErr : Option String)
    (hpre : ∀ l ∈ pre, l.utf8ByteSize < bufio.MaxScanTokenSize)
    (hx : bufio.MaxScanTokenSize ≤ x.utf8ByteSize) :
    StreamChat.deltas decode (pre ++ x :: post) readErr =
      StreamChat.produce decode (pre.map bufio.dropCR) (some bufio.ErrTooLong) := by
  unfold StreamChat.deltas
  simp only [bufio.Scanner.run_append_short pre (x :: post) readErr hpre,
    bufio.Scanner.run_cons_long x post readErr hx, List.append_nil]

/-- The deltas of a body whose first lines `pre` are below the token limit. -/
theorem StreamChat.deltas_short_prefix (decode : String → Option streamResponse)
    (pre rest : List String) (readErr : Option String)
    (hpre : ∀ l ∈ pre, l.utf8ByteSize < bufio.MaxScanTokenSize) :
    StreamChat.deltas decode (pre ++ rest) readErr =
      StreamChat.produce decode
        (pre.map bufio.dropCR ++ (bufio.Scanner.run rest readErr).1)
        (bufio.Scanner.run rest readErr).2 := by
  unfold StreamChat.deltas
  simp only [bufio.Scanner.run_append_short pre rest readErr hpre]

theorem StreamChat.deltas_skip (decode : String → Option streamResponse)
    (pre post : List String) (x : String) (readErr : Option String)
    (hx : ignorable decode (bufio.dropCR x))
    (hshort : x.utf8ByteSize < bufio.MaxScanTokenSize) :
    StreamChat.deltas decode (pre ++ x :: post) readErr =
      StreamChat.deltas decode (pre ++ post) readErr := by
  unfold StreamChat.deltas
  simp only []
  induction pre with
  | nil =>
    simp only [List.nil_append, bufio.Scanner.run_cons_short x post readErr hshort]
    exact StreamChat.produce_cons_skip decode _ _ _ hx
  | cons l pre ih =>
    by_cases hl : bufio.MaxScanTokenSize ≤ l.utf8ByteSize
    · simp only [List.cons_append, bufio.Scanner.run_cons_long l _ readErr hl]
    · have hl' : l.utf8ByteSize < bufio.MaxScanTokenSize := not_le.1 hl
      simp only [List.cons_append, bufio.Scanner.run_cons_short l _ readErr hl']
      exact StreamChat.produce_cons_congr_err decode _ _ _ _ _ ih

/-- C8, as stated, fails: a line of 70000 bytes that does not start with the
marker `data: `, inserted between two content frames, is not skipped; the
scanner stops at it with `ErrTooLong`, so the deltas are "hi" and an Error
delta instead of "hi", "hi". -/
theorem StreamChat_oversized_line_not_skipped :
    strings.HasPrefix oversizedLine "data: " = false ∧
    StreamChat.deltas sampleDecode ["data: " ++ hiFrame, "data: " ++ hiFrame] none =
      [StreamDelta.content "hi", StreamDelta.content "hi"] ∧
    StreamChat.deltas sampleDecode
        (["data: " ++ hiFrame] ++ oversizedLine :: ["data: " ++ hiFrame]) none =
      [StreamDelta.content "hi",
       StreamDelta.error "读取流式响应失败: bufio.Scanner: token too long"] := by
  refine ⟨oversizedLine_no_marker, by decide, ?_⟩
  rw [StreamChat.deltas_long sampleDecode ["data: " ++ hiFrame] ["data: " ++ hiFrame]
    oversizedLine none (by decide) oversizedLine_too_long]
  decide

/-- C8, amended: inserting or deleting, at any position of the body, a line
below the scanner's token limit of 65536 bytes that (after its trailing
carriage return is dropped) is empty, or lacks the marker `data: `, or whose
payload is not the end sentinel and does not decode, leaves the produced
delta sequence unchanged.  A line of 65536 bytes or more, whatever it holds,
ends the scan: the deltas are those of the lines before it, ended as by the
scanner error `ErrTooLong`, and nothing after it is read. -/
theorem StreamChat_skips_ignorable_lines (decode : String → Option streamResponse)
    (pre post : List String) (x : String) (readErr : Option String) :
    (ignorable decode (bufio.dropCR x) → x.utf8ByteSize < bufio.MaxScanTokenSize →
      StreamChat.deltas decode (pre ++ x :: post) readErr =
        StreamChat.deltas decode (pre ++ post) readErr) ∧
    (bufio.MaxScanTokenSize ≤ x.utf8ByteSize →
      (∀ l ∈ pre, l.utf8ByteSize < bufio.MaxScanTokenSize) →
      StreamChat.deltas decode (pre ++ x :: post) readErr =
        StreamChat.produce decode (pre.map bufio.dropCR) (some bufio.ErrTooLong)) :=
  ⟨fun hx hshort => StreamChat.deltas_skip decode pre post x readErr hx hshort,
   fun hx hpre => StreamChat.deltas_long decode pre post x readErr hpre hx⟩

/-- C8 (amended) at a stream with a comment line inserted between two content
frames. -/
theorem StreamChat_skips_ignorable_lines_witness :
    StreamChat.deltas sampleDecode
        (["data: " ++ hiFrame] ++ ": ping" :: ["data: " ++ hiFrame, "data: [DONE]"]) none =
      StreamChat.deltas sampleDecode
        (["data: " ++ hiFrame] ++ ["data: " ++ hiFrame, "data: [DONE]"]) none :=
  (StreamChat_skips_ignorable_lines sampleDecode ["data: " ++ hiFrame]
    ["data: " ++ hiFrame, "data: [DONE]"] ": ping" none).1
    (Or.inr (Or.inl (by decide))) (by decide)

/-- C9, as stated, fails: in the body "hi" frame, a line of 70000 bytes,
`data: [DONE]`, the scanner stops at the long line, so the sentinel is never
read and the last delta is an Error delta, not a Done marker. -/
theorem StreamChat_sentinel_after_oversized_line :
    StreamChat.deltas sampleDecode
        (["data: " ++ hiFrame] ++ oversizedLine :: ["data: [DONE]"]) none =
      [StreamDelta.content "hi",
       StreamDelta.error "读取流式响应失败: bufio.Scanner: token too long"] ∧
    (StreamDelta.error "读取流式响应失败: bufio.Scanner: token too long").Done = false ∧
    ∀ d ∈ StreamChat.deltas sampleDecode
        (["data: " ++ hiFrame] ++ oversizedLine :: ["data: [DONE]"]) none, d.Done = false := by
  have h : StreamChat.deltas sampleDecode
      (["data: " ++ hiFrame] ++ oversizedLine :: ["data: [DONE]"]) none =
      [StreamDelta.content "hi",
       StreamDelta.error "读取流式响应失败: bufio.Scanner: token too long"] := by
    rw [StreamChat.deltas_long sampleDecode ["data: " ++ hiFrame] ["data: [DONE]"]
      oversizedLine none (by decide) oversizedLine_too_long]
    decide
  refine ⟨h, rfl, ?_⟩
  rw [h]
  decide

/-- C9, amended: let every line of `pre` be below the scanner's token limit of
65536 bytes and none of them finish the stream.  If the next line `t` is
below the limit and is `data: [DONE]` or a decoded frame whose first choice
with a finish reason is `c`, nothing after that point is produced: the
sequence is the content deltas of the earlier lines, then those of the
choices before `c`, then the content of `c` when non-empty, then Done; Done is
last and no other element is a marker.  If instead `t` has 65536 bytes or
more, the scan ends at it: the sequence is the content deltas of the earlier
lines followed by one Error delta for `ErrTooLong`, and holds no Done marker,
whatever follows `t`. -/
theorem StreamChat_stops_at_finish (decode : String → Option streamResponse)
    (pre post : List String) (t : String) (readErr : Option String)
    (hshort : ∀ l ∈ pre, l.utf8ByteSize < bufio.MaxScanTokenSize)
    (hpre : ∀ l ∈ pre, finishes decode (bufio.dropCR l) = false) :
    (t.utf8ByteSize < bufio.MaxScanTokenSize → bufio.dropCR t = "data: [DONE]" →
      StreamChat.deltas decode (pre ++ t :: post) readErr =
        StreamChat.produce decode (pre.map bufio.dropCR) none ++ [StreamDelta.done]) ∧
    (t.utf8ByteSize < bufio.MaxScanTokenSize →
      ∀ sr cs1 c cs2, strings.HasPrefix (bufio.dropCR t) "data: " = true →
      strings.TrimPrefix (bufio.dropCR t) "data: " ≠ "[DONE]" →
      decode (strings.TrimPrefix (bufio.dropCR t) "data: ") = some sr →
      sr.Choices = cs1 ++ c :: cs2 → (∀ x ∈ cs1, x.FinishReason = none) →
      c.FinishReason ≠ none →
      StreamChat.deltas decode (pre ++ t :: post) readErr =
        StreamChat.produce decode (pre.map bufio.dropCR) none ++ contentDeltas cs1 ++
          (if c.Content ≠ "" then [StreamDelta.content c.Content] else []) ++
          [StreamDelta.done]) ∧
    (∀ d ∈ StreamChat.produce decode (pre.map bufio.dropCR) none,
      d.Done = false ∧ d.Error = none) ∧
    (t.utf8ByteSize < bufio.MaxScanTokenSize → finishes decode (bufio.dropCR t) = true →
      StreamChat.deltas decode (pre ++ t :: post) readErr =
        StreamChat.deltas decode (pre ++ [t]) none ∧
      ∃ ds, StreamChat.deltas decode (pre ++ t :: post) readErr = ds ++ [StreamDelta.done] ∧
        ∀ d ∈ ds, d.Done = false ∧ d.Error = none) ∧
    (bufio.MaxScanTokenSize ≤ t.utf8ByteSize →
      StreamChat.deltas decode (pre ++ t :: post) readErr =
        StreamChat.produce decode (pre.map bufio.dropCR) none ++
          [StreamDelta.error ("读取流式响应失败: " ++ bufio.ErrTooLong)] ∧
      ∀ d ∈ StreamChat.deltas decode (pre ++ t :: post) readErr, d.Done = false) := by
  have hpre' : ∀ l ∈ pre.map bufio.dropCR, finishes decode l = false := by
    intro l hl
    obtain ⟨l0, hl0, e⟩ := List.mem_map.1 hl
    rw [← e]
    exact hpre l0 hl0
  have hrun : ∀ (rest : List String) (e : Option String), t.utf8ByteSize < bufio.MaxScanTokenSize →
      StreamChat.deltas decode (pre ++ t :: rest) e =
        StreamChat.produce decode
          (pre.map bufio.dropCR ++ bufio.dropCR t :: (bufio.Scanner.run rest e).1)
          (bufio.Scanner.run rest e).2 := by
    intro rest e ht
    rw [StreamChat.deltas_short_prefix decode pre (t :: rest) e hshort,
      bufio.Scanner.run_cons_short t rest e ht]
  obtain ⟨hm, happ⟩ := StreamChat.produce_append decode (pre.map bufio.dropCR) hpre'
  refine ⟨?_, ?_, ?_, ?_, ?_⟩
  · intro ht hdone
    rw [hrun post readErr ht]
    exact (StreamChat.produce_stops decode (pre.map bufio.dropCR) _ (bufio.dropCR t) _
      hpre').1 hdone
  · intro ht sr cs1 c cs2 hp hd hdec he h1 hc
    rw [hrun post readErr ht]
    exact (StreamChat.produce_stops decode (pre.map bufio.dropCR) _ (bufio.dropCR t) _
      hpre').2.1 sr cs1 c cs2 hp hd hdec he h1 hc
  · intro d hd
    exact (isMarker_eq_false_iff d).1 (hm d hd)
  · intro ht hfin
    have key := (StreamChat.produce_stops decode (pre.map bufio.dropCR)
      (bufio.Scanner.run post readErr).1 (bufio.dropCR t) (bufio.Scanner.run post readErr).2
      hpre').2.2.2 hfin
    have hone : StreamChat.deltas decode (pre ++ [t]) none =
        StreamChat.produce decode (pre.map bufio.dropCR ++ [bufio.dropCR t]) none := by
      rw [hrun [] none ht]
      rfl
    rw [hrun post readErr ht, hone]
    exact key
  · intro ht
    have h := StreamChat.deltas_long decode pre post t readErr hshort ht
    have h2 := happ [] (some bufio.ErrTooLong)
    rw [List.append_nil] at h2
    have h3 : StreamChat.produce decode [] (some bufio.ErrTooLong) =
        [StreamDelta.error ("读取流式响应失败: " ++ bufio.ErrTooLong)] := rfl
    rw [h3] at h2
    rw [h, h2]
    refine ⟨rfl, ?_⟩
    intro d hd
    rcases List.mem_append.1 hd with x | x
    · exact ((isMarker_eq_false_iff d).1 (hm d x)).1
    · rw [List.mem_singleton] at x
      rw [x]
      rfl

/-- C9 (amended) at a stream whose second frame carries the content "!" and
the finish reason "stop", followed by a further frame and a read error. -/
theorem StreamChat_stops_at_finish_witness :
    StreamChat.deltas sampleDecode
        (["data: " ++ hiFrame, ""] ++ ("data: " ++ stopFrame) :: ["data: " ++ hiFrame])
        (some "unexpected EOF") =
      StreamChat.produce sampleDecode (["data: " ++ hiFrame, ""].map bufio.dropCR) none ++
        contentDeltas [] ++
        (if ("!" : String) ≠ "" then [StreamDelta.content "!"] else []) ++
        [StreamDelta.done] :=
  (StreamChat_stops_at_finish sampleDecode ["data: " ++ hiFrame, ""]
    ["data: " ++ hiFrame] ("data: " ++ stopFrame) (some "unexpected EOF")
    (by decide) (by decide)).2.1 (by decide)
    { Choices := [{ Content := "!", FinishReason := some "stop" }] }
    [] { Content := "!", FinishReason := some "stop" } []
    (by decide) (by decide) (by decide) rfl (by simp) (by simp)

/-- C10, as stated, fails: a body that ends cleanly after one content frame
yields the single delta "hi", whose last element is neither Done nor an error;
an empty body yields no delta at all. -/
theorem StreamChat_produce_unterminated :
    StreamChat.produce sampleDecode ["data: " ++ hiFrame] none = [StreamDelta.content "hi"] ∧
    (StreamDelta.content "hi").Done = false ∧ (StreamDelta.content "hi").Error = none ∧
    StreamChat.produce sampleDecode [] none = [] ∧
    ¬ ∃ d, (StreamChat.produce sampleDecode ["data: " ++ hiFrame] none).getLast? = some d ∧
      (d.Done = true ∨ d.Error ≠ none) := by
  have h : StreamChat.produce sampleDecode ["data: " ++ hiFrame] none =
      [StreamDelta.content "hi"] := by decide
  refine ⟨h, rfl, rfl, rfl, ?_⟩
  rw [h]
  rintro ⟨d, hd, hm⟩
  simp only [List.getLast?_singleton, Option.some.injEq] at hd
  subst hd
  rcases hm with hm | hm
  · exact absurd hm (by decide)
  · exact hm rfl

/-- C10, amended: no element before the last is a Done or error marker; the
last element is such a marker exactly when some line finishes the stream
(the end sentinel or a finish reason) or the scanner ends with an error; when
neither happens the sequence holds no marker. -/
theorem StreamChat_produce_marker_last (decode : String → Option streamResponse)
    (lines : List String) (err : Option String) :
    (∀ ds d, StreamChat.produce decode lines err = ds ++ [d] →
      ∀ x ∈ ds, x.Done = false ∧ x.Error = none) ∧
    ((∃ d, (StreamChat.produce decode lines err).getLast? = some d ∧
        (d.Done = true ∨ d.Error ≠ none)) ↔
      ((∃ l ∈ lines, finishes decode l = true) ∨ err ≠ none)) ∧
    ((∀ l ∈ lines, finishes decode l = false) → err = none →
      ∀ d ∈ StreamChat.produce decode lines err, d.Done = false ∧ d.Error = none) := by
  obtain ⟨ds, hds, h⟩ := StreamChat.produce_closing decode lines err
  have hmark : ∀ d : StreamDelta, isMarker d = true → (d.Done = true ∨ d.Error ≠ none) := by
    intro d hd
    cases d with
    | mk c dn e => cases dn <;> cases e <;> simp_all [isMarker]
  rcases closing_cases decode lines err with ⟨hc, hall, herr⟩ | ⟨m, hc, hm, hcause⟩
  · rw [hc, List.append_nil] at h
    refine ⟨?_, ?_, ?_⟩
    · intro ds' d he x hx
      have : x ∈ ds := by
        rw [← h, he]
        exact List.mem_append_left _ hx
      exact (isMarker_eq_false_iff x).1 (hds x this)
    · constructor
      · rintro ⟨d, hlast, hd⟩
        have hmem : d ∈ ds := by
          rw [h] at hlast
          exact List.mem_of_getLast?_eq_some hlast
        have := (isMarker_eq_false_iff d).1 (hds d hmem)
        rcases hd with hd | hd
        · rw [this.1] at hd
          exact absurd hd (by decide)
        · exact absurd this.2 hd
      · rintro (⟨l, hl, hf⟩ | he)
        · rw [hall l hl] at hf
          exact absurd hf (by decide)
        · exact absurd herr he
    · intro _ _ d hd
      rw [h] at hd
      exact (isMarker_eq_false_iff d).1 (hds d hd)
  · rw [hc] at h
    refine ⟨?_, ?_, ?_⟩
    · intro ds' d he x hx
      rw [h] at he
      have := List.append_inj_left' he rfl
      rw [← this] at hx
      exact (isMarker_eq_false_iff x).1 (hds x hx)
    · constructor
      · intro _
        exact hcause
      · intro _
        exact ⟨m, by rw [h]; simp, hmark m hm⟩
    · intro hall herr
      rcases hcause with ⟨l, hl, hf⟩ | he
      · rw [hall l hl] at hf
        exact absurd hf (by decide)
      · exact absurd herr he

/-- C10, amended, at a stream that ends on the end sentinel: its last delta is
Done. -/
theorem StreamChat_produce_marker_last_witness :
    ∃ d, (StreamChat.produce sampleDecode ["data: " ++ hiFrame, "data: [DONE]"]
        none).getLast? = some d ∧ (d.Done = true ∨ d.Error ≠ none) :=
  (StreamChat_produce_marker_last sampleDecode ["data: " ++ hiFrame, "data: [DONE]"]
    none).2.1.2 (Or.inl ⟨"data: [DONE]", by simp, by decide⟩)

/-! ## Store facts -/

theorem find_map_update (rows : List ConversationRow) (c : String)
    (f : ConversationRow → ConversationRow) (hf : ∀ r, (f r).id = r.id) :
    (rows.map (fun r => if r.id = c then f r else r)).find? (fun r => decide (r.id = c)) =
      (rows.find? (fun r => decide (r.id = c))).map f := by
  induction rows with
  | nil => rfl
  | cons r rows ih =>
    by_cases hr : r.id = c
    · have : (f r).id = c := by rw [hf, hr]
      simp [List.find?_cons, hr, this]
    · simp [List.find?_cons, hr, ih]

theorem Store.row_updateConversation (s : Store) (c : String)
    (f : ConversationRow → ConversationRow) (hf : ∀ r, (f r).id = r.id) :
    (s.updateConversation c f).conversations.find? (fun r => decide (r.id = c)) =
      (s.conversations.find? (fun r => decide (r.id = c))).map f :=
  find_map_update s.conversations c f hf

theorem Store.GetConversation_eq (s : Store) (c : String) :
    s.GetConversation c =
      (s.conversations.find? (fun r => decide (r.id = c))).map
        (fun r => loadRow r (s.getConversationMessages c)) := by
  unfold Store.GetConversation
  cases s.conversations.find? (fun r => decide (r.id = c)) <;> rfl

theorem Store.GetConversation_updateConversation (s : Store) (c : String)
    (f : ConversationRow → ConversationRow) (hf : ∀ r, (f r).id = r.id) :
    (s.updateConversation c f).GetConversation c =
      (s.conversations.find? (fun r => decide (r.id = c))).map
        (fun r => loadRow (f r) (s.getConversationMessages c)) := by
  rw [Store.GetConversation_eq, Store.row_updateConversation s c f hf, Option.map_map]
  rfl

theorem Store.GetConversation_EndConversation (s : Store) (c : String) (b : Bool) (p : String) :
    (s.EndConversation c b p).GetConversation c =
      (s.GetConversation c).map
        (fun conv => { conv with IsActive := false, IsSuccess := b, FoundPassword := p }) := by
  unfold Store.EndConversation
  refine (Store.GetConversation_updateConversation s c _ ?_).trans ?_
  · intro r
    rfl
  · rw [Store.GetConversation_eq, Option.map_map]
    rfl

theorem Store.AddMessage_shape (s : Store) (c : String) (msg : Message) :
    (s.AddMessage c msg).messages =
        s.messages ++ [{ conversation_id := c, role := msg.Role, content := msg.Content }] ∧
    (s.AddMessage c msg).winners = s.winners ∧
    (s.AddMessage c msg).user_bonus_status = s.user_bonus_status ∧
    (s.AddMessage c msg).claim_status = s.claim_status ∧
    (s.AddMessage c msg).users = s.users ∧
    (s.AddMessage c msg).sessions = s.sessions := by
  unfold Store.AddMessage
  dsimp only
  split
  · split
    · split <;> exact ⟨rfl, rfl, rfl, rfl, rfl, rfl⟩
    · exact ⟨rfl, rfl, rfl, rfl, rfl, rfl⟩
  · exact ⟨rfl, rfl, rfl, rfl, rfl, rfl⟩

/-- The row update a user message applies: one more turn, the new preview,
and deactivation once the count reaches the maximum. -/
theorem Store.row_AddMessage_user (s : Store) (c content : String) :
    (s.AddMessage c { Role := "user", Content := content }).conversations.find?
        (fun r => decide (r.id = c)) =
      (s.conversations.find? (fun r => decide (r.id = c))).map
        (fun r => { r with turn_count := r.turn_count + 1, last_message := previewText content,
                           is_active := r.is_active && !decide (r.turn_count + 1 ≥ r.max_turns) }) := by
  have h1 := Store.row_updateConversation
    { s with messages := s.messages ++
        [{ conversation_id := c, role := "user", content := content }] } c
    (fun r => { r with turn_count := r.turn_count + 1, last_message := previewText content })
    (fun _ => rfl)
  unfold Store.AddMessage
  simp only [if_true]
  rw [h1]
  cases hrow : s.conversations.find? (fun r => decide (r.id = c)) with
  | none =>
    simp only [Option.map_none']
    rw [h1, hrow]
    rfl
  | some r0 =>
    simp only [Option.map_some']
    by_cases hge : r0.turn_count + 1 ≥ r0.max_turns
    · simp only [hge, if_true]
      refine (Store.row_updateConversation _ c _ ?_).trans ?_
      · intro r
        rfl
      · rw [h1, hrow]
        simp
    · simp only [hge, if_false]
      rw [h1, hrow]
      simp

theorem Store.row_AddMessage_assistant (s : Store) (c content : String) :
    (s.AddMessage c { Role := "assistant", Content := content }).conversations.find?
        (fun r => decide (r.id = c)) =
      (s.conversations.find? (fun r => decide (r.id = c))).map
        (fun r => { r with last_message := previewText content }) := by
  unfold Store.AddMessage
  have hne : ¬ ("assistant" : String) = "user" := by decide
  simp only [hne, if_false]
  exact Store.row_updateConversation _ c _ (fun _ => rfl)

theorem Store.RecordWinner_shape (s : Store) (n c t p a : String) :
    (s.RecordWinner n c t p a).1.conversations = s.conversations ∧
    (s.RecordWinner n c t p a).1.messages = s.messages ∧
    (s.RecordWinner n c t p a).1.user_bonus_status = s.user_bonus_status ∧
    (s.RecordWinner n c t p a).1.users = s.users ∧
    (s.RecordWinner n c t p a).1.sessions = s.sessions ∧
    ∃ w : WinnerRow, (s.RecordWinner n c t p a).1.winners = s.winners ++ [w] ∧
      w.nickname = n ∧ w.conversation_id = c ∧ w.prize_type = t ∧ w.prize_amount = a ∧
      w.password = p := by
  unfold Store.RecordWinner
  dsimp only
  split_ifs <;>
    exact ⟨rfl, rfl, rfl, rfl, rfl, _, rfl, rfl, rfl, rfl, rfl, rfl⟩

theorem lookupRow_map_set (rows : List (String × String)) (u st : String)
    (h : (lookupRow rows u).isSome = true) :
    lookupRow (rows.map (fun r => if r.1 = u then (r.1, st) else r)) u = some st := by
  induction rows with
  | nil => simp [lookupRow] at h
  | cons r rows ih =>
    by_cases hr : r.1 = u
    · simp [lookupRow, List.find?_cons, hr]
    · have h' : (lookupRow rows u).isSome = true := by
        simpa [lookupRow, List.find?_cons, hr] using h
      have := ih h'
      simpa [lookupRow, List.find?_cons, hr] using this

theorem lookupRow_append_new (rows : List (String × String)) (u st : String)
    (h : (lookupRow rows u).isSome = false) :
    lookupRow (rows ++ [(u, st)]) u = some st := by
  induction rows with
  | nil => simp [lookupRow, List.find?_cons]
  | cons r rows ih =>
    by_cases hr : r.1 = u
    · simp [lookupRow, List.find?_cons, hr] at h
    · have h' : (lookupRow rows u).isSome = false := by
        simpa [lookupRow, List.find?_cons, hr] using h
      have := ih h'
      simpa [lookupRow, List.find?_cons, hr] using this

theorem Store.SetUserBonusStatus_shape (s : Store) (u st : String) :
    (s.SetUserBonusStatus u st).conversations = s.conversations ∧
    (s.SetUserBonusStatus u st).messages = s.messages ∧
    (s.SetUserBonusStatus u st).winners = s.winners ∧
    (s.SetUserBonusStatus u st).users = s.users ∧
    (s.SetUserBonusStatus u st).sessions = s.sessions ∧
    (s.SetUserBonusStatus u st).GetUserBonusStatus u = st := by
  unfold Store.SetUserBonusStatus
  cases hl : (lookupRow s.user_bonus_status u).isSome
  · refine ⟨by simp, by simp, by simp, by simp, by simp, ?_⟩
    simp [Store.GetUserBonusStatus, lookupRow_append_new _ u st hl]
  · refine ⟨by simp, by simp, by simp, by simp, by simp, ?_⟩
    simp [Store.GetUserBonusStatus, lookupRow_map_set _ u st hl]

theorem String.length_le_utf8ByteSize (s : String) : s.length ≤ s.utf8ByteSize := by
  have key : ∀ cs : List Char, cs.length ≤ String.utf8ByteSize.go cs := by
    intro cs
    induction cs with
    | nil => simp [String.utf8ByteSize.go]
    | cons c cs ih =>
      have hc : 0 < c.utf8Size := Char.utf8Size_pos c
      simp only [List.length_cons, String.utf8ByteSize.go]
      omega
  cases s with
  | mk cs => exact key cs

/-! ## Conversation orchestrator -/

/-- C11: for a conversation owned by the caller, `SendMessage` rejects with
status 400, in this order, an inactive conversation, a turn count at or above
the maximum, and a message longer than the limit (in bytes as the code counts,
hence also whenever its character count exceeds the limit).  Each rejection
makes no upstream call and writes no event stream; the first and third leave
the database as it was, and the second only ends the conversation as not
successful, keeping messages, turn count, winners and bonus states. -/
theorem SendMessage_rejections (h : ChatHandler) (s : Store) (r : Request messageRequest)
    (cookie : String) (user : User) (req : messageRequest) (conv : Conversation)
    (hc : r.cookie = some cookie) (hu : s.GetUserBySession cookie = some user)
    (hb : r.body = some req) (hconv : s.GetConversation req.ConversationID = some conv)
    (hown : conv.UserID = user.ID) :
    (conv.IsActive = false →
      (h.SendMessage s r).store = s ∧
      (h.SendMessage s r).response = errorJSON 400 "对话已结束" ∧
      (h.SendMessage s r).aiCalls = []) ∧
    (conv.IsActive = true → conv.TurnCount ≥ conv.MaxTurns →
      (h.SendMessage s r).store = s.EndConversation req.ConversationID false "" ∧
      (h.SendMessage s r).response = errorJSON 400 "已达到最大对话轮次" ∧
      (h.SendMessage s r).aiCalls = [] ∧
      (h.SendMessage s r).store.messages = s.messages ∧
      (h.SendMessage s r).store.winners = s.winners ∧
      (h.SendMessage s r).store.user_bonus_status = s.user_bonus_status ∧
      (h.SendMessage s r).store.GetConversation req.ConversationID =
        some { conv with IsActive := false, IsSuccess := false, FoundPassword := "" }) ∧
    (conv.IsActive = true → conv.TurnCount < conv.MaxTurns →
      ((req.Message.utf8ByteSize : Int) > h.config.Game.MaxMessageLength ∨
        (req.Message.length : Int) > h.config.Game.MaxMessageLength) →
      (h.SendMessage s r).store = s ∧
      (h.SendMessage s r).response = errorJSON 400
        ("消息长度超过 " ++ toString h.config.Game.MaxMessageLength ++ " 字") ∧
      (h.SendMessage s r).aiCalls = []) := by
  have hown' : ¬ conv.UserID ≠ user.ID := fun hne => hne hown
  refine ⟨?_, ?_, ?_⟩
  · intro hact
    simp [ChatHandler.SendMessage, hc, hu, hb, hconv, hown, hact]
  · intro hact hturn
    have hres : h.SendMessage s r =
        { store := s.EndConversation req.ConversationID false "",
          response := errorJSON 400 "已达到最大对话轮次", aiCalls := [] } := by
      simp [ChatHandler.SendMessage, hc, hu, hb, hconv, hown, hact, hturn]
    rw [hres]
    refine ⟨rfl, rfl, rfl, rfl, rfl, rfl, ?_⟩
    simp only [Store.GetConversation_EndConversation, hconv, Option.map_some']
  · intro hact hturn hlen
    have hbytes : (req.Message.utf8ByteSize : Int) > h.config.Game.MaxMessageLength := by
      rcases hlen with hl | hl
      · exact hl
      · have := String.length_le_utf8ByteSize req.Message
        omega
    have hturn' : ¬ conv.TurnCount ≥ conv.MaxTurns := by omega
    simp [ChatHandler.SendMessage, hc, hu, hb, hconv, hown, hact, hturn', hbytes]

/-- C11 at an inactive conversation: the request is rejected and the database
is as before. -/
theorem SendMessage_rejections_witness :
    ((handlerOf sampleConfig (replyWith [])).SendMessage (withConversation 3 20 false)
        (sendRequest "hi")).store = withConversation 3 20 false ∧
    ((handlerOf sampleConfig (replyWith [])).SendMessage (withConversation 3 20 false)
        (sendRequest "hi")).response = errorJSON 400 "对话已结束" ∧
    ((handlerOf sampleConfig (replyWith [])).SendMessage (withConversation 3 20 false)
        (sendRequest "hi")).aiCalls = [] :=
  (SendMessage_rejections (handlerOf sampleConfig (replyWith [])) (withConversation 3 20 false)
    (sendRequest "hi") "t1" ann { ConversationID := "c1", Message := "hi", ImageURL := "" }
    { ID := "c1", UserID := "u1", Nickname := "Ann", Messages := [], TurnCount := 3,
      MaxTurns := 20, IsActive := false, IsSuccess := false, IsPublic := true,
      FoundPassword := "", LastMessage := [] }
    rfl (by decide) rfl (by decide) rfl).1 rfl

theorem accumulate_append (full : String) (a b : List StreamDelta) :
    accumulate full (a ++ b) = accumulate (accumulate full a) b := by
  induction a generalizing full with
  | nil => rfl
  | cons d a ih => simp only [List.cons_append, accumulate, List.append_eq, ih]

theorem accumulate_snoc (full : String) (a : List StreamDelta) (d : StreamDelta) :
    accumulate full (a ++ [d]) = accumulate full a ++ d.Content := by
  rw [accumulate_append]
  rfl

theorem ChatHandler.streamLoop_prefix (h : ChatHandler) (s : Store) (user : User) (c : String)
    (pre rest : List StreamDelta) (full : String) (hpre : ∀ d ∈ pre, isContent d)
    (hno : ∀ j, 1 ≤ j → j ≤ pre.length →
      (CheckContent h.unicode h.passwordChecker (accumulate full (pre.take j))).Found = false) :
    h.streamLoop s user c full (pre ++ rest) =
      { store := (h.streamLoop s user c (accumulate full pre) rest).store,
        frames := pre.map contentFrame ++ (h.streamLoop s user c (accumulate full pre) rest).frames,
        fullResponse := (h.streamLoop s user c (accumulate full pre) rest).fullResponse } := by
  induction pre generalizing full with
  | nil => rfl
  | cons d pre ih =>
    obtain ⟨hdone, herr⟩ := hpre d (List.mem_cons_self _ _)
    have h1 : (CheckContent h.unicode h.passwordChecker (full ++ d.Content)).Found = false := by
      have := hno 1 (le_refl 1) (by simp)
      simpa [accumulate] using this
    have ih' := ih (full ++ d.Content) (fun x hx => hpre x (List.mem_cons_of_mem _ hx))
      (fun j hj1 hj2 => by
        have := hno (j + 1) (by omega) (by simp; omega)
        simpa [accumulate] using this)
    simp only [List.cons_append, ChatHandler.streamLoop, herr, hdone, h1, Option.isSome_none,
      Bool.false_eq_true, if_false, List.append_eq, ih', accumulate, List.map_cons, contentFrame]

theorem ChatHandler.streamLoop_match (h : ChatHandler) (s : Store) (user : User) (c : String)
    (d : StreamDelta) (post : List StreamDelta) (full : String) (hd : isContent d)
    (hhit : (CheckContent h.unicode h.passwordChecker (full ++ d.Content)).Found = true) :
    h.streamLoop s user c full (d :: post) =
      { store :=
          ((((s.RecordWinner user.Nickname c
                  (CheckContent h.unicode h.passwordChecker (full ++ d.Content)).Type_
                  (CheckContent h.unicode h.passwordChecker (full ++ d.Content)).Password
                  (prizeAmountOf h (CheckContent h.unicode h.passwordChecker
                    (full ++ d.Content)))).1.EndConversation c true
                (CheckContent h.unicode h.passwordChecker (full ++ d.Content)).Password
              ).SetUserBonusStatus user.ID
              (if (CheckContent h.unicode h.passwordChecker (full ++ d.Content)).Type_ = "grand"
                then "claimed_grand" else "claimed_consolation")).AddMessage c
            { Role := "assistant", Content := full ++ d.Content }),
        frames := [contentFrame d,
          winFrame h (CheckContent h.unicode h.passwordChecker (full ++ d.Content))
            (s.RecordWinner user.Nickname c
              (CheckContent h.unicode h.passwordChecker (full ++ d.Content)).Type_
              (CheckContent h.unicode h.passwordChecker (full ++ d.Content)).Password
              (prizeAmountOf h (CheckContent h.unicode h.passwordChecker
                (full ++ d.Content)))).2,
          Frame.done],
        fullResponse := none } := by
  obtain ⟨hdone, herr⟩ := hd
  simp only [ChatHandler.streamLoop, herr, hdone, hhit, Option.isSome_none,
    Bool.false_eq_true, if_false, if_true, contentFrame, winFrame, prizeAmountOf]
  split_ifs <;> rfl

theorem ChatHandler.SendMessage_accepted (h : ChatHandler) (s : Store)
    (r : Request messageRequest) (user : User) (req : messageRequest) (conv : Conversation)
    (ch : List StreamDelta) (hacc : Accepted h s r user req conv ch) :
    h.SendMessage s r =
      match (h.streamLoop (s.AddMessage req.ConversationID
          { Role := "user", Content := req.userContent }) user req.ConversationID "" ch
          ).fullResponse with
      | none =>
        { store := (h.streamLoop (s.AddMessage req.ConversationID
            { Role := "user", Content := req.userContent }) user req.ConversationID "" ch).store,
          response := Response.sse (h.streamLoop (s.AddMessage req.ConversationID
            { Role := "user", Content := req.userContent }) user req.ConversationID "" ch).frames,
          aiCalls := [(conv.history, req.userContent)] }
      | some aiResponse =>
        { store := (h.handleBonusMechanism
            (if aiResponse ≠ "" then
              (h.streamLoop (s.AddMessage req.ConversationID
                { Role := "user", Content := req.userContent }) user req.ConversationID "" ch
                ).store.AddMessage req.ConversationID
                { Role := "assistant", Content := aiResponse }
            else (h.streamLoop (s.AddMessage req.ConversationID
                { Role := "user", Content := req.userContent }) user req.ConversationID "" ch
                ).store) user req.ConversationID).1,
          response := Response.sse
            ((h.streamLoop (s.AddMessage req.ConversationID
                { Role := "user", Content := req.userContent }) user req.ConversationID "" ch
                ).frames ++
              (h.handleBonusMechanism
                (if aiResponse ≠ "" then
                  (h.streamLoop (s.AddMessage req.ConversationID
                    { Role := "user", Content := req.userContent }) user req.ConversationID "" ch
                    ).store.AddMessage req.ConversationID
                    { Role := "assistant", Content := aiResponse }
                else (h.streamLoop (s.AddMessage req.ConversationID
                    { Role := "user", Content := req.userContent }) user req.ConversationID "" ch
                    ).store) user req.ConversationID).2 ++ [Frame.done]),
          aiCalls := [(conv.history, req.userContent)] } := by
  obtain ⟨⟨cookie, hc, hu⟩, hb, hconv, hown, hact, hturn, hlen, hai, hfl⟩ := hacc
  have hturn' : ¬ conv.TurnCount ≥ conv.MaxTurns := by omega
  have hlen' : ¬ (req.Message.utf8ByteSize : Int) > h.config.Game.MaxMessageLength := by omega
  unfold ChatHandler.SendMessage
  simp only [hc, hu, hb, hconv, hown, hact, hturn', hlen', hai, hfl, ne_eq, not_true_eq_false,
    if_false, Bool.not_true, Bool.false_eq_true]

theorem Store.EndConversation_shape (s : Store) (c : String) (b : Bool) (p : String) :
    (s.EndConversation c b p).messages = s.messages ∧
    (s.EndConversation c b p).winners = s.winners ∧
    (s.EndConversation c b p).user_bonus_status = s.user_bonus_status ∧
    (s.EndConversation c b p).users = s.users ∧
    (s.EndConversation c b p).sessions = s.sessions :=
  ⟨rfl, rfl, rfl, rfl, rfl⟩

theorem Store.GetUserBonusStatus_congr (s t : Store) (u : String)
    (h : s.user_bonus_status = t.user_bonus_status) :
    s.GetUserBonusStatus u = t.GetUserBonusStatus u := by
  unfold Store.GetUserBonusStatus
  rw [h]

theorem Store.getConversationMessages_two (s t : Store) (c r1 x1 r2 x2 : String)
    (h : t.messages = (s.messages ++ [{ conversation_id := c, role := r1, content := x1 }]) ++
      [{ conversation_id := c, role := r2, content := x2 }]) :
    t.getConversationMessages c =
      s.getConversationMessages c ++
        [{ Role := r1, Content := x1 }, { Role := r2, Content := x2 }] := by
  unfold Store.getConversationMessages
  rw [h]
  simp [List.filter_append, List.filter_cons]

theorem Store.GetConversation_some (s : Store) (c : String) (conv : Conversation)
    (h : s.GetConversation c = some conv) :
    ∃ r0, s.conversations.find? (fun r => decide (r.id = c)) = some r0 ∧
      conv = loadRow r0 (s.getConversationMessages c) := by
  rw [Store.GetConversation_eq] at h
  cases hrow : s.conversations.find? (fun r => decide (r.id = c)) with
  | none => simp [hrow] at h
  | some r0 =>
    rw [hrow] at h
    exact ⟨r0, rfl, (Option.some.inj h).symm⟩

/-- The conversation after a leak was handled: the user's message and the
accumulated reply are appended, one turn is counted, and the conversation is
ended as successful with the matched phrase. -/
theorem leak_conversation (s : Store) (c uc full pw n t a u st : String) (conv : Conversation)
    (hconv : s.GetConversation c = some conv) :
    (((((s.AddMessage c { Role := "user", Content := uc }).RecordWinner n c t pw a
        ).1.EndConversation c true pw).SetUserBonusStatus u st).AddMessage c
        { Role := "assistant", Content := full }).GetConversation c =
      some { conv with
        Messages := conv.Messages ++
          [{ Role := "user", Content := uc }, { Role := "assistant", Content := full }],
        TurnCount := conv.TurnCount + 1, IsActive := false, IsSuccess := true,
        FoundPassword := pw, LastMessage := previewText full } := by
  obtain ⟨r0, hrow, hc⟩ := Store.GetConversation_some s c conv hconv
  have hmsgs := Store.getConversationMessages_two s
    (((((s.AddMessage c { Role := "user", Content := uc }).RecordWinner n c t pw a
        ).1.EndConversation c true pw).SetUserBonusStatus u st).AddMessage c
        { Role := "assistant", Content := full }) c "user" uc "assistant" full
    (by
      rw [(Store.AddMessage_shape _ c _).1, (Store.SetUserBonusStatus_shape _ u st).2.1,
        (Store.EndConversation_shape _ c true pw).1, (Store.RecordWinner_shape _ n c t pw a).2.1,
        (Store.AddMessage_shape _ c _).1])
  rw [Store.GetConversation_eq, hmsgs, Store.row_AddMessage_assistant,
    (Store.SetUserBonusStatus_shape _ u st).1]
  unfold Store.EndConversation
  rw [Store.row_updateConversation _ c
      (fun r => { r with is_active := false, is_success := true, found_password := pw })
      (fun _ => rfl),
    (Store.RecordWinner_shape _ n c t pw a).1, Store.row_AddMessage_user, hrow, hc]
  rfl

theorem SendMessage_leak (h : ChatHandler) (s : Store) (r : Request messageRequest)
    (user : User) (req : messageRequest) (conv : Conversation)
    (pre post : List StreamDelta) (d : StreamDelta)
    (hacc : Accepted h s r user req conv (pre ++ d :: post))
    (hpre : ∀ x ∈ pre, isContent x) (hd : isContent d)
    (hno : ∀ j, 1 ≤ j → j ≤ pre.length →
      (CheckContent h.unicode h.passwordChecker (accumulate "" (pre.take j))).Found = false)
    (hhit : (CheckContent h.unicode h.passwordChecker (accumulate "" (pre ++ [d]))).Found = true) :
    h.SendMessage s r =
      { store :=
          (((((s.AddMessage req.ConversationID
                    { Role := "user", Content := req.userContent }).RecordWinner
                  user.Nickname req.ConversationID
                  (CheckContent h.unicode h.passwordChecker (accumulate "" (pre ++ [d]))).Type_
                  (CheckContent h.unicode h.passwordChecker (accumulate "" (pre ++ [d]))).Password
                  (prizeAmountOf h (CheckContent h.unicode h.passwordChecker
                    (accumulate "" (pre ++ [d]))))).1.EndConversation req.ConversationID true
                (CheckContent h.unicode h.passwordChecker (accumulate "" (pre ++ [d]))).Password
              ).SetUserBonusStatus user.ID
              (if (CheckContent h.unicode h.passwordChecker
                    (accumulate "" (pre ++ [d]))).Type_ = "grand"
                then "claimed_grand" else "claimed_consolation")).AddMessage req.ConversationID
            { Role := "assistant", Content := accumulate "" (pre ++ [d]) }),
        response := Response.sse ((pre ++ [d]).map contentFrame ++
          [winFrame h (CheckContent h.unicode h.passwordChecker (accumulate "" (pre ++ [d])))
            ((s.AddMessage req.ConversationID
                { Role := "user", Content := req.userContent }).RecordWinner
              user.Nickname req.ConversationID
              (CheckContent h.unicode h.passwordChecker (accumulate "" (pre ++ [d]))).Type_
              (CheckContent h.unicode h.passwordChecker (accumulate "" (pre ++ [d]))).Password
              (prizeAmountOf h (CheckContent h.unicode h.passwordChecker
                (accumulate "" (pre ++ [d]))))).2,
            Frame.done]),
        aiCalls := [(conv.history, req.userContent)] } := by
  rw [ChatHandler.SendMessage_accepted h s r user req conv _ hacc,
    ChatHandler.streamLoop_prefix h _ user req.ConversationID pre (d :: post) "" hpre hno]
  rw [accumulate_snoc] at hhit
  rw [ChatHandler.streamLoop_match h _ user req.ConversationID d post _ hd hhit,
    accumulate_snoc]
  simp only [List.map_append, List.map_cons, List.map_nil, List.append_assoc, List.cons_append,
    List.nil_append]

theorem CheckContent_found_canonical (unicode : Unicode) (pc : PasswordChecker) (T : String)
    (h : (CheckContent unicode pc T).Found = true) :
    CheckContent unicode pc T = PasswordMatch.grand pc ∨
    CheckContent unicode pc T = PasswordMatch.consolation pc := by
  rcases CheckContent_cases unicode pc T with ⟨_, e⟩ | ⟨_, _, e⟩ | ⟨_, _, e⟩
  · exact Or.inl e
  · exact Or.inr e
  · rw [e] at h
    exact absurd h (by simp [PasswordMatch.notFound])

theorem leak_events_aux (h : ChatHandler) (s : Store)
    (r : Request messageRequest) (user : User) (req : messageRequest) (conv : Conversation)
    (pre post : List StreamDelta) (d : StreamDelta)
    (hacc : Accepted h s r user req conv (pre ++ d :: post))
    (hpre : ∀ x ∈ pre, isContent x) (hd : isContent d)
    (hno : ∀ j, 1 ≤ j → j ≤ pre.length →
      (CheckContent h.unicode h.passwordChecker (accumulate "" (pre.take j))).Found = false)
    (hhit : (CheckContent h.unicode h.passwordChecker (accumulate "" (pre ++ [d]))).Found = true) :
    ∃ isFirst : Bool,
      (h.SendMessage s r).response =
        Response.sse ((pre ++ [d]).map contentFrame ++
          [winFrame h (CheckContent h.unicode h.passwordChecker (accumulate "" (pre ++ [d])))
            isFirst, Frame.done]) := by
  rw [SendMessage_leak h s r user req conv pre post d hacc hpre hd hno hhit]
  exact ⟨_, rfl⟩

theorem leak_winner_aux (h : ChatHandler) (s : Store)
    (r : Request messageRequest) (user : User) (req : messageRequest) (conv : Conversation)
    (pre post : List StreamDelta) (d : StreamDelta)
    (hacc : Accepted h s r user req conv (pre ++ d :: post))
    (hpre : ∀ x ∈ pre, isContent x) (hd : isContent d)
    (hno : ∀ j, 1 ≤ j → j ≤ pre.length →
      (CheckContent h.unicode h.passwordChecker (accumulate "" (pre.take j))).Found = false)
    (hhit : (CheckContent h.unicode h.passwordChecker (accumulate "" (pre ++ [d]))).Found = true) :
    ∃ w : WinnerRow, (h.SendMessage s r).store.winners = s.winners ++ [w] ∧
      w.prize_type = (CheckContent h.unicode h.passwordChecker
        (accumulate "" (pre ++ [d]))).Type_ ∧
      w.password = (CheckContent h.unicode h.passwordChecker
        (accumulate "" (pre ++ [d]))).Password := by
  rw [SendMessage_leak h s r user req conv pre post d hacc hpre hd hno hhit]
  obtain ⟨_, _, _, _, _, w, hw, _, _, ht, _, hp⟩ := Store.RecordWinner_shape
    (s.AddMessage req.ConversationID { Role := "user", Content := req.userContent })
    user.Nickname req.ConversationID
    (CheckContent h.unicode h.passwordChecker (accumulate "" (pre ++ [d]))).Type_
    (CheckContent h.unicode h.passwordChecker (accumulate "" (pre ++ [d]))).Password
    (prizeAmountOf h (CheckContent h.unicode h.passwordChecker (accumulate "" (pre ++ [d]))))
  refine ⟨w, ?_, ht, hp⟩
  simp only []
  rw [(Store.AddMessage_shape _ _ _).2.1, (Store.SetUserBonusStatus_shape _ _ _).2.2.1,
    (Store.EndConversation_shape _ _ _ _).2.1, hw, (Store.AddMessage_shape _ _ _).2.1]

/-- C12: when the request is accepted and the upstream deltas are content
deltas `pre ++ d :: post` such that no accumulated prefix within `pre` matches
and the text accumulated through `d` does, the event stream is exactly one
content event per delta of `pre ++ [d]` in order, each with that delta's text,
then one `password_found` event carrying the matcher's canonical phrase and
label, then `[DONE]`; the deltas in `post` produce nothing. -/
theorem SendMessage_first_match_events (h : ChatHandler) (s : Store)
    (r : Request messageRequest) (user : User) (req : messageRequest) (conv : Conversation)
    (pre post : List StreamDelta) (d : StreamDelta)
    (hacc : Accepted h s r user req conv (pre ++ d :: post))
    (hpre : ∀ x ∈ pre, isContent x) (hd : isContent d)
    (hno : ∀ j, 1 ≤ j → j ≤ pre.length →
      (CheckContent h.unicode h.passwordChecker (accumulate "" (pre.take j))).Found = false)
    (hhit : (CheckContent h.unicode h.passwordChecker (accumulate "" (pre ++ [d]))).Found = true) :
    ∃ isFirst : Bool,
      (h.SendMessage s r).response =
        Response.sse
          ((pre ++ [d]).map (fun x => Frame.event { Type_ := "content", Content := x.Content }) ++
            [Frame.event
              { Type_ := "password_found",
                Password := (CheckContent h.unicode h.passwordChecker
                  (accumulate "" (pre ++ [d]))).Password,
                PrizeType := (CheckContent h.unicode h.passwordChecker
                  (accumulate "" (pre ++ [d]))).DisplayName,
                PrizeAmount := prizeAmountOf h (CheckContent h.unicode h.passwordChecker
                  (accumulate "" (pre ++ [d]))),
                IsFirstWinner := isFirst },
             Frame.done]) := by
  rw [SendMessage_leak h s r user req conv pre post d hacc hpre hd hno hhit]
  exact ⟨_, rfl⟩

/-- C12 at a reply in which the consolation phrase 恭喜发财 is split over two
deltas and followed by a third: the match is found at the second delta. -/
theorem SendMessage_first_match_events_witness :
    ∃ isFirst : Bool,
      ((handlerOf sampleConfig (replyWith [StreamDelta.content "恭喜", StreamDelta.content "发财",
          StreamDelta.content "！"])).SendMessage (withConversation 0 20 true)
          (sendRequest "hi")).response =
        Response.sse
          (([StreamDelta.content "恭喜"] ++ [StreamDelta.content "发财"]).map
              (fun x => Frame.event { Type_ := "content", Content := x.Content }) ++
            [Frame.event
              { Type_ := "password_found",
                Password := (CheckContent basicUnicode (NewPasswordChecker "新年快乐" "恭喜发财")
                  (accumulate "" ([StreamDelta.content "恭喜"] ++
                    [StreamDelta.content "发财"]))).Password,
                PrizeType := (CheckContent basicUnicode (NewPasswordChecker "新年快乐" "恭喜发财")
                  (accumulate "" ([StreamDelta.content "恭喜"] ++
                    [StreamDelta.content "发财"]))).DisplayName,
                PrizeAmount := prizeAmountOf
                  (handlerOf sampleConfig (replyWith [StreamDelta.content "恭喜",
                    StreamDelta.content "发财", StreamDelta.content "！"]))
                  (CheckContent basicUnicode (NewPasswordChecker "新年快乐" "恭喜发财")
                    (accumulate "" ([StreamDelta.content "恭喜"] ++
                      [StreamDelta.content "发财"]))),
                IsFirstWinner := isFirst },
             Frame.done]) :=
  SendMessage_first_match_events
    (handlerOf sampleConfig (replyWith [StreamDelta.content "恭喜", StreamDelta.content "发财",
      StreamDelta.content "！"]))
    (withConversation 0 20 true) (sendRequest "hi") ann
    { ConversationID := "c1", Message := "hi", ImageURL := "" }
    { ID := "c1", UserID := "u1", Nickname := "Ann", Messages := [], TurnCount := 0,
      MaxTurns := 20, IsActive := true, IsSuccess := false, IsPublic := true,
      FoundPassword := "", LastMessage := [] }
    [StreamDelta.content "恭喜"] [StreamDelta.content "！"] (StreamDelta.content "发财")
    ⟨⟨"t1", rfl, by decide⟩, rfl, by decide, rfl, rfl, by decide, by decide, rfl, rfl⟩
    (by decide) (by decide)
    (by
      intro j h1 h2
      have hj : j = 1 := by
        simp only [List.length_singleton] at h2
        omega
      subst hj
      decide)
    (by decide)

/-- C13: after a match at delta `d` (no accumulated prefix within `pre`
matching), the conversation holds the user's message and one assistant
message equal to the text accumulated through `d`, has one more turn, and is
inactive and successful with found secret equal to the canonical phrase of
the matched tier; the user's bonus state is claimed_grand for a grand match
and claimed_consolation for a consolation match; and exactly one winner row
of that tier, phrase, conversation and nickname is added.  The turn count
before the call may be any value below the maximum, the last permitted turn
included. -/
theorem SendMessage_first_match_state (h : ChatHandler) (s : Store)
    (r : Request messageRequest) (user : User) (req : messageRequest) (conv : Conversation)
    (pre post : List StreamDelta) (d : StreamDelta)
    (hacc : Accepted h s r user req conv (pre ++ d :: post))
    (hpre : ∀ x ∈ pre, isContent x) (hd : isContent d)
    (hno : ∀ j, 1 ≤ j → j ≤ pre.length →
      (CheckContent h.unicode h.passwordChecker (accumulate "" (pre.take j))).Found = false)
    (hhit : (CheckContent h.unicode h.passwordChecker (accumulate "" (pre ++ [d]))).Found = true) :
    (h.SendMessage s r).store.GetConversation req.ConversationID =
      some { conv with
        Messages := conv.Messages ++
          [{ Role := "user", Content := req.userContent },
           { Role := "assistant", Content := accumulate "" (pre ++ [d]) }],
        TurnCount := conv.TurnCount + 1, IsActive := false, IsSuccess := true,
        FoundPassword := (CheckContent h.unicode h.passwordChecker
          (accumulate "" (pre ++ [d]))).Password,
        LastMessage := previewText (accumulate "" (pre ++ [d])) } ∧
    (((CheckContent h.unicode h.passwordChecker (accumulate "" (pre ++ [d]))).Type_ = "grand" ∧
        (CheckContent h.unicode h.passwordChecker (accumulate "" (pre ++ [d]))).Password =
          h.passwordChecker.grandPassword ∧
        (h.SendMessage s r).store.GetUserBonusStatus user.ID = "claimed_grand") ∨
      ((CheckContent h.unicode h.passwordChecker (accumulate "" (pre ++ [d]))).Type_ =
          "consolation" ∧
        (CheckContent h.unicode h.passwordChecker (accumulate "" (pre ++ [d]))).Password =
          h.passwordChecker.consolationPassword ∧
        (h.SendMessage s r).store.GetUserBonusStatus user.ID = "claimed_consolation")) ∧
    (∃ w : WinnerRow, (h.SendMessage s r).store.winners = s.winners ++ [w] ∧
      w.prize_type = (CheckContent h.unicode h.passwordChecker
        (accumulate "" (pre ++ [d]))).Type_ ∧
      w.password = (CheckContent h.unicode h.passwordChecker
        (accumulate "" (pre ++ [d]))).Password ∧
      w.conversation_id = req.ConversationID ∧ w.nickname = user.Nickname) := by
  rw [SendMessage_leak h s r user req conv pre post d hacc hpre hd hno hhit]
  have hconv : s.GetConversation req.ConversationID = some conv := hacc.2.2.1
  refine ⟨leak_conversation s _ _ _ _ _ _ _ _ _ conv hconv, ?_, ?_⟩
  · have hst : ∀ t st : Store, ∀ x : String,
        (t.SetUserBonusStatus user.ID x).AddMessage req.ConversationID
            { Role := "assistant", Content := accumulate "" (pre ++ [d]) } = st →
        st.GetUserBonusStatus user.ID = x := by
      intro t st x e
      rw [← e, Store.GetUserBonusStatus_congr _ (t.SetUserBonusStatus user.ID x) _
        (Store.AddMessage_shape _ _ _).2.2.1]
      exact (Store.SetUserBonusStatus_shape t user.ID x).2.2.2.2.2
    rcases CheckContent_found_canonical _ _ _ hhit with e | e
    · left
      refine ⟨by rw [e]; rfl, by rw [e]; rfl, ?_⟩
      have ht : (CheckContent h.unicode h.passwordChecker
          (accumulate "" (pre ++ [d]))).Type_ = "grand" := by rw [e]; rfl
      simp only [ht, if_true]
      exact hst _ _ _ rfl
    · right
      refine ⟨by rw [e]; rfl, by rw [e]; rfl, ?_⟩
      have ht : ¬ (CheckContent h.unicode h.passwordChecker
          (accumulate "" (pre ++ [d]))).Type_ = "grand" := by
        rw [e]
        show ¬ ("consolation" : String) = "grand"
        decide
      simp only [ht, if_false]
      exact hst _ _ _ rfl
  · obtain ⟨_, _, _, _, _, w, hw, hn, hc, ht, _, hp⟩ := Store.RecordWinner_shape
      (s.AddMessage req.ConversationID { Role := "user", Content := req.userContent })
      user.Nickname req.ConversationID
      (CheckContent h.unicode h.passwordChecker (accumulate "" (pre ++ [d]))).Type_
      (CheckContent h.unicode h.passwordChecker (accumulate "" (pre ++ [d]))).Password
      (prizeAmountOf h (CheckContent h.unicode h.passwordChecker (accumulate "" (pre ++ [d]))))
    refine ⟨w, ?_, ht, hp, hc, hn⟩
    simp only []
    rw [(Store.AddMessage_shape _ _ _).2.1, (Store.SetUserBonusStatus_shape _ _ _).2.2.1,
      (Store.EndConversation_shape _ _ _ _).2.1, hw, (Store.AddMessage_shape _ _ _).2.1]

/-- C13 at a conversation at turn 19 of 20 whose reply holds the consolation
phrase: it ends successful with that phrase, the reply is stored, and one
consolation winner is recorded. -/
theorem SendMessage_first_match_state_witness :
    ∃ w : WinnerRow,
      ((handlerOf sampleConfig (replyWith [StreamDelta.content "恭喜发财"])).SendMessage
          (withConversation 19 20 true) (sendRequest "hi")).store.winners =
        (withConversation 19 20 true).winners ++ [w] ∧
      w.prize_type = (CheckContent basicUnicode (NewPasswordChecker "新年快乐" "恭喜发财")
        (accumulate "" ([] ++ [StreamDelta.content "恭喜发财"]))).Type_ ∧
      w.password = (CheckContent basicUnicode (NewPasswordChecker "新年快乐" "恭喜发财")
        (accumulate "" ([] ++ [StreamDelta.content "恭喜发财"]))).Password ∧
      w.conversation_id = "c1" ∧ w.nickname = "Ann" :=
  (SendMessage_first_match_state
    (handlerOf sampleConfig (replyWith [StreamDelta.content "恭喜发财"]))
    (withConversation 19 20 true) (sendRequest "hi") ann
    { ConversationID := "c1", Message := "hi", ImageURL := "" }
    { ID := "c1", UserID := "u1", Nickname := "Ann", Messages := [], TurnCount := 19,
      MaxTurns := 20, IsActive := true, IsSuccess := false, IsPublic := true,
      FoundPassword := "", LastMessage := [] }
    [] [] (StreamDelta.content "恭喜发财")
    ⟨⟨"t1", rfl, by decide⟩, rfl, by decide, rfl, rfl, by decide, by decide, rfl, rfl⟩
    (by decide) (by decide)
    (by
      intro j h1 h2
      simp only [List.length_nil] at h2
      omega)
    (by decide)).2.2

/-- C14, as stated, fails: the reply 恭喜发财 then 新年快乐 holds both phrases
once complete, yet the match is reported at the first delta, for the
consolation tier, and the winner recorded is a consolation winner. -/
theorem SendMessage_consolation_before_grand :
    strings.Contains
        (accumulate "" [StreamDelta.content "恭喜发财", StreamDelta.content "新年快乐"])
        "新年快乐" = true ∧
    strings.Contains
        (accumulate "" [StreamDelta.content "恭喜发财", StreamDelta.content "新年快乐"])
        "恭喜发财" = true ∧
    ((handlerOf sampleConfig (replyWith [StreamDelta.content "恭喜发财",
        StreamDelta.content "新年快乐"])).SendMessage (withConversation 0 20 true)
        (sendRequest "hi")).response =
      Response.sse
        [Frame.event { Type_ := "content", Content := "恭喜发财" },
         Frame.event { Type_ := "password_found", Password := "恭喜发财", PrizeType := "安慰奖",
                       PrizeAmount := "10", IsFirstWinner := true },
         Frame.done] ∧
    ((handlerOf sampleConfig (replyWith [StreamDelta.content "恭喜发财",
        StreamDelta.content "新年快乐"])).SendMessage (withConversation 0 20 true)
        (sendRequest "hi")).store.winners =
      [{ nickname := "Ann", conversation_id := "c1", category := "consolation-first",
         prize_type := "consolation", prize_amount := "10", password := "恭喜发财" }] := by
  decide

/-- C14, amended: let the text through delta `d` be the first accumulated
prefix that `CheckContent` reports as found.  If it hits a grand tier (it
holds the grand phrase verbatim or after punctuation is stripped, or all grand
keywords), in particular if it contains the grand phrase, with or without the
consolation phrase, the `password_found` event carries the grand phrase, label
and prize and the winner recorded is a grand winner.  If it hits no grand
tier, the event carries the consolation phrase, label and prize and the winner
recorded is a consolation winner, whatever the later deltas `post` hold. -/
theorem SendMessage_first_match_grand (h : ChatHandler) (s : Store)
    (r : Request messageRequest) (user : User) (req : messageRequest) (conv : Conversation)
    (pre post : List StreamDelta) (d : StreamDelta)
    (hacc : Accepted h s r user req conv (pre ++ d :: post))
    (hpre : ∀ x ∈ pre, isContent x) (hd : isContent d)
    (hno : ∀ j, 1 ≤ j → j ≤ pre.length →
      (CheckContent h.unicode h.passwordChecker (accumulate "" (pre.take j))).Found = false) :
    (strings.Contains (accumulate "" (pre ++ [d])) h.passwordChecker.grandPassword = true →
      reportsMatch h s r (pre ++ [d]) h.passwordChecker.grandPassword "特等奖"
        h.config.Game.Prizes.GrandAmount "grand") ∧
    (grandHit h.unicode h.passwordChecker (accumulate "" (pre ++ [d])) →
      reportsMatch h s r (pre ++ [d]) h.passwordChecker.grandPassword "特等奖"
        h.config.Game.Prizes.GrandAmount "grand") ∧
    ((CheckContent h.unicode h.passwordChecker (accumulate "" (pre ++ [d]))).Found = true →
      ¬ grandHit h.unicode h.passwordChecker (accumulate "" (pre ++ [d])) →
      reportsMatch h s r (pre ++ [d]) h.passwordChecker.consolationPassword "安慰奖"
        h.config.Game.Prizes.ConsolationAmount "consolation") := by
  have grandCase : grandHit h.unicode h.passwordChecker (accumulate "" (pre ++ [d])) →
      reportsMatch h s r (pre ++ [d]) h.passwordChecker.grandPassword "特等奖"
        h.config.Game.Prizes.GrandAmount "grand" := by
    intro hg
    have hm : CheckContent h.unicode h.passwordChecker (accumulate "" (pre ++ [d])) =
        PasswordMatch.grand h.passwordChecker :=
      CheckContent_of_grandHit _ _ _ hg
    have hhit : (CheckContent h.unicode h.passwordChecker
        (accumulate "" (pre ++ [d]))).Found = true := by rw [hm]; rfl
    obtain ⟨isFirst, hresp⟩ :=
      leak_events_aux h s r user req conv pre post d hacc hpre hd hno hhit
    obtain ⟨w, hw, ht, hp⟩ :=
      leak_winner_aux h s r user req conv pre post d hacc hpre hd hno hhit
    refine ⟨isFirst, w, ?_, hw, ?_, ?_⟩
    · rw [hresp, hm]
      have : prizeAmountOf h (PasswordMatch.grand h.passwordChecker) =
          h.config.Game.Prizes.GrandAmount := by
        have hne : ¬ ("grand" : String) = "consolation" := by decide
        simp [prizeAmountOf, PasswordMatch.grand, hne]
      unfold winFrame
      rw [this]
      rfl
    · rw [ht, hm]
      rfl
    · rw [hp, hm]
      rfl
  refine ⟨fun hg => grandCase (Or.inl hg), grandCase, ?_⟩
  intro hhit hng
  have hc : consolationHit h.unicode h.passwordChecker (accumulate "" (pre ++ [d])) := by
    rcases (found_iff_some_hit _ _ _).1 hhit with hg | hc
    · exact absurd hg hng
    · exact hc
  have hm : CheckContent h.unicode h.passwordChecker (accumulate "" (pre ++ [d])) =
      PasswordMatch.consolation h.passwordChecker :=
    CheckContent_of_consolationHit _ _ _ hng hc
  obtain ⟨isFirst, hresp⟩ :=
    leak_events_aux h s r user req conv pre post d hacc hpre hd hno hhit
  obtain ⟨w, hw, ht, hp⟩ :=
    leak_winner_aux h s r user req conv pre post d hacc hpre hd hno hhit
  refine ⟨isFirst, w, ?_, hw, ?_, ?_⟩
  · rw [hresp, hm]
    have : prizeAmountOf h (PasswordMatch.consolation h.passwordChecker) =
        h.config.Game.Prizes.ConsolationAmount := by
      simp [prizeAmountOf, PasswordMatch.consolation]
    unfold winFrame
    rw [this]
    rfl
  · rw [ht, hm]
    rfl
  · rw [hp, hm]
    rfl

/-- C14, amended, at a single delta that holds the consolation phrase followed
by the grand phrase. -/
theorem SendMessage_first_match_grand_witness :
    reportsMatch (handlerOf sampleConfig (replyWith [StreamDelta.content "恭喜发财，新年快乐"]))
      (withConversation 0 20 true) (sendRequest "hi")
      ([] ++ [StreamDelta.content "恭喜发财，新年快乐"]) "新年快乐" "特等奖" "100" "grand" :=
  (SendMessage_first_match_grand
    (handlerOf sampleConfig (replyWith [StreamDelta.content "恭喜发财，新年快乐"]))
    (withConversation 0 20 true) (sendRequest "hi") ann
    { ConversationID := "c1", Message := "hi", ImageURL := "" }
    { ID := "c1", UserID := "u1", Nickname := "Ann", Messages := [], TurnCount := 0,
      MaxTurns := 20, IsActive := true, IsSuccess := false, IsPublic := true,
      FoundPassword := "", LastMessage := [] }
    [] [] (StreamDelta.content "恭喜发财，新年快乐")
    ⟨⟨"t1", rfl, by decide⟩, rfl, by decide, rfl, rfl, by decide, by decide, rfl, rfl⟩
    (by decide) (by decide)
    (by
      intro j h1 h2
      simp only [List.length_nil] at h2
      omega)).1 (by decide)

theorem ChatHandler.streamLoop_error (h : ChatHandler) (s : Store) (user : User) (c : String)
    (e : StreamDelta) (post : List StreamDelta) (full : String) (he : e.Error ≠ none) :
    h.streamLoop s user c full (e :: post) =
      { store := s, frames := [errorFrame], fullResponse := some full } := by
  have : e.Error.isSome = true := Option.isSome_iff_ne_none.2 he
  simp only [ChatHandler.streamLoop, this, if_true, errorFrame]

theorem ChatHandler.streamLoop_done (h : ChatHandler) (s : Store) (user : User) (c : String)
    (dn : StreamDelta) (post : List StreamDelta) (full : String) (he : dn.Error = none)
    (hdn : dn.Done = true) :
    h.streamLoop s user c full (dn :: post) =
      { store := s, frames := [], fullResponse := some full } := by
  simp only [ChatHandler.streamLoop, he, hdn, Option.isSome_none, Bool.false_eq_true, if_false,
    if_true]

theorem SendMessage_no_match (h : ChatHandler) (s : Store) (r : Request messageRequest)
    (user : User) (req : messageRequest) (conv : Conversation)
    (pre tail : List StreamDelta) (tf : List Frame)
    (hacc : Accepted h s r user req conv (pre ++ tail))
    (hpre : ∀ x ∈ pre, isContent x)
    (hno : ∀ j, 1 ≤ j → j ≤ pre.length →
      (CheckContent h.unicode h.passwordChecker (accumulate "" (pre.take j))).Found = false)
    (htail : ∀ (s' : Store) (full : String),
      h.streamLoop s' user req.ConversationID full tail =
        { store := s', frames := tf, fullResponse := some full }) :
    h.SendMessage s r =
      { store := (h.handleBonusMechanism
          (storeReply (s.AddMessage req.ConversationID
            { Role := "user", Content := req.userContent }) req.ConversationID
            (accumulate "" pre)) user req.ConversationID).1,
        response := Response.sse (pre.map contentFrame ++ tf ++
          (h.handleBonusMechanism
            (storeReply (s.AddMessage req.ConversationID
              { Role := "user", Content := req.userContent }) req.ConversationID
              (accumulate "" pre)) user req.ConversationID).2 ++ [Frame.done]),
        aiCalls := [(conv.history, req.userContent)] } := by
  rw [ChatHandler.SendMessage_accepted h s r user req conv _ hacc,
    ChatHandler.streamLoop_prefix h _ user req.ConversationID pre tail "" hpre hno, htail]
  simp only [storeReply, List.append_assoc]

/-- C15 fails on the code: after the error event the handler goes on as at
the end of a stream.  With a reply of one content delta "hi" followed by an
error delta, sent in a conversation at turn 1 of 20 by a user whose total then
reaches the consolation threshold, the error event is followed by a
`bonus_offer` event and `[DONE]`, the partial reply "hi" is stored as an
assistant message, and the bonus state changes to offered; at turn 19 of 20
the conversation is left inactive.  With a reply that is only an error delta,
sent by a continued user whose total then reaches the grand threshold 4, a
grand winner is recorded, the state becomes claimed_grand and the
conversation is ended as successful. -/
theorem SendMessage_error_then_bonus :
    ((handlerOf sampleConfig (replyWith [StreamDelta.content "hi",
        StreamDelta.error "boom"])).SendMessage (withConversation 1 20 true)
        (sendRequest "hi")).response =
      Response.sse
        [Frame.event { Type_ := "content", Content := "hi" },
         Frame.event { Type_ := "error", Content := "AI 响应出错，请重试" },
         Frame.event { Type_ := "bonus_offer", TotalTurns := 2, ConsolationPassword := "恭喜发财",
                       ConsolationPrizeAmount := "10", GrandAvailable := true },
         Frame.done] ∧
    ((handlerOf sampleConfig (replyWith [StreamDelta.content "hi",
        StreamDelta.error "boom"])).SendMessage (withConversation 1 20 true)
        (sendRequest "hi")).store.getConversationMessages "c1" =
      [{ Role := "user", Content := "hi" }, { Role := "assistant", Content := "hi" }] ∧
    (withConversation 1 20 true).GetUserBonusStatus "u1" = "" ∧
    ((handlerOf sampleConfig (replyWith [StreamDelta.content "hi",
        StreamDelta.error "boom"])).SendMessage (withConversation 1 20 true)
        (sendRequest "hi")).store.GetUserBonusStatus "u1" = "offered" ∧
    (((handlerOf sampleConfig (replyWith [StreamDelta.content "hi",
        StreamDelta.error "boom"])).SendMessage (withConversation 19 20 true)
        (sendRequest "hi")).store.GetConversation "c1").map (fun c => c.IsActive) =
      some false ∧
    ((handlerOf sampleConfig (replyWith [StreamDelta.error "boom"])).SendMessage
        (withStatus 3 20 true "continued") (sendRequest "hi")).store.winners.map
        (fun w => w.prize_type) = ["grand"] ∧
    ((handlerOf sampleConfig (replyWith [StreamDelta.error "boom"])).SendMessage
        (withStatus 3 20 true "continued") (sendRequest "hi")).store.GetUserBonusStatus "u1" =
      "claimed_grand" ∧
    outcomeOf ((handlerOf sampleConfig (replyWith [StreamDelta.error "boom"])).SendMessage
        (withStatus 3 20 true "continued") (sendRequest "hi")).store "c1" =
      some (false, true, "新年快乐", 4, 20) := by
  decide

/-- What the handler does at an error delta: when an error delta `e` arrives
after content deltas `pre` none of whose accumulated prefixes matches, the
event stream is one content event per delta of `pre`, then one error event,
then the events of the bonus mechanism, then `[DONE]`; the database is that of
the bonus mechanism run once on the database in which the user's message and,
when non-empty, the partial reply accumulated from `pre` have been stored;
leak detection records no winner and the deltas after `e` are not read. -/
theorem SendMessage_error_delta (h : ChatHandler) (s : Store)
    (r : Request messageRequest) (user : User) (req : messageRequest) (conv : Conversation)
    (pre post : List StreamDelta) (e : StreamDelta)
    (hacc : Accepted h s r user req conv (pre ++ e :: post))
    (hpre : ∀ x ∈ pre, isContent x)
    (hno : ∀ j, 1 ≤ j → j ≤ pre.length →
      (CheckContent h.unicode h.passwordChecker (accumulate "" (pre.take j))).Found = false)
    (he : e.Error ≠ none) :
    (h.SendMessage s r).response =
      Response.sse
        (pre.map (fun x => Frame.event { Type_ := "content", Content := x.Content }) ++
          [Frame.event { Type_ := "error", Content := "AI 响应出错，请重试" }] ++
          (h.handleBonusMechanism
            (storeReply (s.AddMessage req.ConversationID
              { Role := "user", Content := req.userContent }) req.ConversationID
              (accumulate "" pre)) user req.ConversationID).2 ++ [Frame.done]) ∧
    (h.SendMessage s r).store =
      (h.handleBonusMechanism
        (storeReply (s.AddMessage req.ConversationID
          { Role := "user", Content := req.userContent }) req.ConversationID
          (accumulate "" pre)) user req.ConversationID).1 ∧
    (storeReply (s.AddMessage req.ConversationID
        { Role := "user", Content := req.userContent }) req.ConversationID
        (accumulate "" pre)).winners = s.winners ∧
    (accumulate "" pre = "" →
      (storeReply (s.AddMessage req.ConversationID
          { Role := "user", Content := req.userContent }) req.ConversationID
          (accumulate "" pre)).messages =
        s.messages ++ [{ conversation_id := req.ConversationID, role := "user",
                         content := req.userContent }]) ∧
    (accumulate "" pre ≠ "" →
      (storeReply (s.AddMessage req.ConversationID
          { Role := "user", Content := req.userContent }) req.ConversationID
          (accumulate "" pre)).messages =
        s.messages ++ [{ conversation_id := req.ConversationID, role := "user",
                         content := req.userContent }] ++
          [{ conversation_id := req.ConversationID, role := "assistant",
             content := accumulate "" pre }]) := by
  rw [SendMessage_no_match h s r user req conv pre (e :: post) [errorFrame] hacc hpre hno
    (fun s' full => ChatHandler.streamLoop_error h s' user _ e post full he)]
  refine ⟨rfl, rfl, ?_, ?_, ?_⟩
  · unfold storeReply
    split_ifs
    · rw [(Store.AddMessage_shape _ _ _).2.1, (Store.AddMessage_shape _ _ _).2.1]
    · rw [(Store.AddMessage_shape _ _ _).2.1]
  · intro hempty
    unfold storeReply
    simp only [hempty, ne_eq, not_true_eq_false, if_false]
    rw [(Store.AddMessage_shape _ _ _).1]
  · intro hne
    unfold storeReply
    simp only [hne, ne_eq, not_false_eq_true, if_true]
    rw [(Store.AddMessage_shape _ _ _).1, (Store.AddMessage_shape _ _ _).1]

/-- C16, as stated, fails: when the reply is only the Done marker, the
concatenation of the deltas is empty and no assistant message is appended;
the conversation holds just the user's message. -/
theorem SendMessage_empty_reply_not_stored :
    ((handlerOf sampleConfig (replyWith [StreamDelta.done])).SendMessage
        (withConversation 0 20 true) (sendRequest "hi")).response =
      Response.sse [Frame.done] ∧
    ((handlerOf sampleConfig (replyWith [StreamDelta.done])).SendMessage
        (withConversation 0 20 true) (sendRequest "hi")).store.getConversationMessages "c1" =
      [{ Role := "user", Content := "hi" }] ∧
    ((handlerOf sampleConfig (replyWith [StreamDelta.done])).SendMessage
        (withConversation 0 20 true) (sendRequest "hi")).store.messages =
      [{ conversation_id := "c1", role := "user", content := "hi" }] := by
  decide

/-- C16, amended: when the deltas are content deltas `pre`, none of whose
accumulated prefixes matches, followed by nothing or by a Done marker, the
event stream is one content event per delta of `pre` in order, then the
events of the bonus mechanism, then `[DONE]` last; the database is that of
the bonus mechanism run once on the database in which the user's message has
been stored and then, when the concatenation of `pre` is non-empty, one
assistant message equal to it; when the concatenation is empty no assistant
message is stored. -/
theorem SendMessage_stream_end (h : ChatHandler) (s : Store)
    (r : Request messageRequest) (user : User) (req : messageRequest) (conv : Conversation)
    (pre tail : List StreamDelta)
    (hacc : Accepted h s r user req conv (pre ++ tail))
    (hpre : ∀ x ∈ pre, isContent x)
    (hno : ∀ j, 1 ≤ j → j ≤ pre.length →
      (CheckContent h.unicode h.passwordChecker (accumulate "" (pre.take j))).Found = false)
    (htail : tail = [] ∨ ∃ dn post, tail = dn :: post ∧ dn.Error = none ∧ dn.Done = true) :
    (h.SendMessage s r).response =
      Response.sse
        (pre.map (fun x => Frame.event { Type_ := "content", Content := x.Content }) ++
          (h.handleBonusMechanism
            (storeReply (s.AddMessage req.ConversationID
              { Role := "user", Content := req.userContent }) req.ConversationID
              (accumulate "" pre)) user req.ConversationID).2 ++ [Frame.done]) ∧
    (h.SendMessage s r).store =
      (h.handleBonusMechanism
        (storeReply (s.AddMessage req.ConversationID
          { Role := "user", Content := req.userContent }) req.ConversationID
          (accumulate "" pre)) user req.ConversationID).1 ∧
    (accumulate "" pre ≠ "" →
      (storeReply (s.AddMessage req.ConversationID
          { Role := "user", Content := req.userContent }) req.ConversationID
          (accumulate "" pre)).messages =
        s.messages ++ [{ conversation_id := req.ConversationID, role := "user",
                         content := req.userContent }] ++
          [{ conversation_id := req.ConversationID, role := "assistant",
             content := accumulate "" pre }]) ∧
    (accumulate "" pre = "" →
      (storeReply (s.AddMessage req.ConversationID
          { Role := "user", Content := req.userContent }) req.ConversationID
          (accumulate "" pre)).messages =
        s.messages ++ [{ conversation_id := req.ConversationID, role := "user",
                         content := req.userContent }]) := by
  have hloop : ∀ (s' : Store) (full : String),
      h.streamLoop s' user req.ConversationID full tail =
        { store := s', frames := [], fullResponse := some full } := by
    intro s' full
    rcases htail with rfl | ⟨dn, post, rfl, he, hdn⟩
    · rfl
    · exact ChatHandler.streamLoop_done h s' user _ dn post full he hdn
  rw [SendMessage_no_match h s r user req conv pre tail [] hacc hpre hno hloop]
  refine ⟨?_, rfl, ?_, ?_⟩
  · simp only [List.append_nil]
    rfl
  · intro hne
    unfold storeReply
    simp only [hne, ne_eq, not_false_eq_true, if_true]
    rw [(Store.AddMessage_shape _ _ _).1, (Store.AddMessage_shape _ _ _).1]
  · intro hempty
    unfold storeReply
    simp only [hempty, ne_eq, not_true_eq_false, if_false]
    rw [(Store.AddMessage_shape _ _ _).1]

/-- C16, amended, at a reply of two content deltas and a Done marker in a
conversation at turn 0 of 20. -/
theorem SendMessage_stream_end_witness :
    ((handlerOf sampleConfig (replyWith [StreamDelta.content "你", StreamDelta.content "好",
        StreamDelta.done])).SendMessage (withConversation 0 20 true)
        (sendRequest "hi")).response =
      Response.sse
        ([StreamDelta.content "你", StreamDelta.content "好"].map
            (fun x => Frame.event { Type_ := "content", Content := x.Content }) ++
          ((handlerOf sampleConfig (replyWith [StreamDelta.content "你", StreamDelta.content "好",
              StreamDelta.done])).handleBonusMechanism
            (storeReply ((withConversation 0 20 true).AddMessage "c1"
              { Role := "user", Content := "hi" }) "c1"
              (accumulate "" [StreamDelta.content "你", StreamDelta.content "好"]))
            ann "c1").2 ++ [Frame.done]) :=
  (SendMessage_stream_end
    (handlerOf sampleConfig (replyWith [StreamDelta.content "你", StreamDelta.content "好",
      StreamDelta.done]))
    (withConversation 0 20 true) (sendRequest "hi") ann
    { ConversationID := "c1", Message := "hi", ImageURL := "" }
    { ID := "c1", UserID := "u1", Nickname := "Ann", Messages := [], TurnCount := 0,
      MaxTurns := 20, IsActive := true, IsSuccess := false, IsPublic := true,
      FoundPassword := "", LastMessage := [] }
    [StreamDelta.content "你", StreamDelta.content "好"] [StreamDelta.done]
    ⟨⟨"t1", rfl, by decide⟩, rfl, by decide, rfl, rfl, by decide, by decide, rfl, rfl⟩
    (by decide)
    (by
      intro j h1 h2
      have hj : j = 1 ∨ j = 2 := by
        simp only [List.length_cons, List.length_nil] at h2
        omega
      rcases hj with rfl | rfl <;> decide)
    (Or.inr ⟨StreamDelta.done, [], rfl, rfl, rfl⟩)).1

/-! ## Bonus mechanism -/

theorem strings.Contains_append_right (a b : String) : strings.Contains (a ++ b) b = true := by
  rw [strings.Contains_iff]
  show b.data <:+: (a ++ b).data
  rw [String.data_append]
  exact (List.suffix_append a.data b.data).isInfix

theorem Store.getConversationMessages_one (s t : Store) (c r1 x1 : String)
    (h : t.messages = s.messages ++ [{ conversation_id := c, role := r1, content := x1 }]) :
    t.getConversationMessages c =
      s.getConversationMessages c ++ [{ Role := r1, Content := x1 }] := by
  unfold Store.getConversationMessages
  rw [h]
  simp [List.filter_append, List.filter_cons]

/-- The effects of `autoGrantPassword` on a conversation that exists: the
disclosing message is appended, the conversation is ended as successful with
the phrase, the claimed state is set, one winner is added, and a content
event and a `password_found` event are sent. -/
theorem autoGrant_facts (h : ChatHandler) (s : Store) (user : User)
    (c t pw amount : String) (total : Int) (conv : Conversation)
    (hconv : s.GetConversation c = some conv) :
    (h.autoGrantPassword s user c t pw amount total).1.GetConversation c =
      some { conv with
        Messages := conv.Messages ++ [{ Role := "assistant", Content := bonusTextOf total pw }],
        IsActive := false, IsSuccess := true, FoundPassword := pw,
        LastMessage := previewText (bonusTextOf total pw) } ∧
    (h.autoGrantPassword s user c t pw amount total).1.GetUserBonusStatus user.ID =
      (if t = "grand" then "claimed_grand" else "claimed_consolation") ∧
    (∃ w : WinnerRow,
      (h.autoGrantPassword s user c t pw amount total).1.winners = s.winners ++ [w] ∧
      w.prize_type = t ∧ w.password = pw ∧ w.conversation_id = c ∧
      w.nickname = user.Nickname) ∧
    (∃ isFirst : Bool, (h.autoGrantPassword s user c t pw amount total).2 =
      [Frame.event { Type_ := "content", Content := bonusTextOf total pw },
       Frame.event { Type_ := "password_found", Password := pw,
                     PrizeType := (if t = "consolation" then "安慰奖" else "特等奖"),
                     PrizeAmount := amount, IsFirstWinner := isFirst }]) := by
  obtain ⟨r0, hrow, hc⟩ := Store.GetConversation_some s c conv hconv
  have key : ∀ st : String,
      ((((s.AddMessage c { Role := "assistant", Content := bonusTextOf total pw }).RecordWinner
          user.Nickname c t pw amount).1.EndConversation c true pw).SetUserBonusStatus
          user.ID st).GetConversation c =
        some { conv with
          Messages := conv.Messages ++ [{ Role := "assistant", Content := bonusTextOf total pw }],
          IsActive := false, IsSuccess := true, FoundPassword := pw,
          LastMessage := previewText (bonusTextOf total pw) } := by
    intro st
    have hmsgs := Store.getConversationMessages_one s
      ((((s.AddMessage c { Role := "assistant", Content := bonusTextOf total pw }).RecordWinner
          user.Nickname c t pw amount).1.EndConversation c true pw).SetUserBonusStatus
          user.ID st) c "assistant" (bonusTextOf total pw)
      (by
        rw [(Store.SetUserBonusStatus_shape _ _ st).2.1,
          (Store.EndConversation_shape _ c true pw).1,
          (Store.RecordWinner_shape _ _ c t pw amount).2.1, (Store.AddMessage_shape _ c _).1])
    rw [Store.GetConversation_eq, hmsgs, (Store.SetUserBonusStatus_shape _ _ st).1]
    unfold Store.EndConversation
    rw [Store.row_updateConversation _ c
        (fun r => { r with is_active := false, is_success := true, found_password := pw })
        (fun _ => rfl),
      (Store.RecordWinner_shape _ _ c t pw amount).1, Store.row_AddMessage_assistant, hrow, hc]
    rfl
  have hwin : ∀ st : String, ∃ w : WinnerRow,
      ((((s.AddMessage c { Role := "assistant", Content := bonusTextOf total pw }).RecordWinner
          user.Nickname c t pw amount).1.EndConversation c true pw).SetUserBonusStatus
          user.ID st).winners = s.winners ++ [w] ∧
      w.prize_type = t ∧ w.password = pw ∧ w.conversation_id = c ∧
      w.nickname = user.Nickname := by
    intro st
    obtain ⟨_, _, _, _, _, w, hw, hn, hcv, ht, _, hp⟩ := Store.RecordWinner_shape
      (s.AddMessage c { Role := "assistant", Content := bonusTextOf total pw })
      user.Nickname c t pw amount
    refine ⟨w, ?_, ht, hp, hcv, hn⟩
    rw [(Store.SetUserBonusStatus_shape _ _ st).2.2.1,
      (Store.EndConversation_shape _ c true pw).2.1, hw, (Store.AddMessage_shape _ c _).2.1]
  have hs3 : ∀ A : Store,
      (if t = "grand" then A.SetUserBonusStatus user.ID "claimed_grand"
        else A.SetUserBonusStatus user.ID "claimed_consolation") =
      A.SetUserBonusStatus user.ID
        (if t = "grand" then "claimed_grand" else "claimed_consolation") := by
    intro A
    split_ifs <;> rfl
  unfold ChatHandler.autoGrantPassword
  simp only [hs3]
  exact ⟨key _, (Store.SetUserBonusStatus_shape _ _ _).2.2.2.2.2, hwin _, ⟨_, rfl⟩⟩

theorem handleBonus_fresh_grant (h : ChatHandler) (s : Store) (user : User) (c : String)
    (hst : s.GetUserBonusStatus user.ID = "")
    (hpos : 0 < h.config.Game.BonusConsolationThreshold)
    (hturns : s.GetUserTotalTurnCount user.ID ≥ h.config.Game.BonusConsolationThreshold)
    (hcap : s.GetGrandWinnerCount ≥ h.config.Game.Prizes.GrandCount) :
    h.handleBonusMechanism s user c =
      h.autoGrantPassword s user c "consolation" h.config.Game.Passwords.Consolation
        h.config.Game.Prizes.ConsolationAmount (s.GetUserTotalTurnCount user.ID) := by
  have h1 : ¬ (("" : String) = "claimed_consolation" ∨ ("" : String) = "claimed_grand") := by
    decide
  have h2 : ¬ ("" : String) = "continued" := by decide
  have h3 : ¬ s.GetGrandWinnerCount < h.config.Game.Prizes.GrandCount := by omega
  unfold ChatHandler.handleBonusMechanism
  simp only [hst, h1, h2, h3, if_false, and_false, gt_iff_lt, hpos, ge_iff_le, hturns, and_self,
    if_true, decide_False, Bool.false_eq_true]

theorem handleBonus_continued_grant (h : ChatHandler) (s : Store) (user : User) (c : String)
    (hst : s.GetUserBonusStatus user.ID = "continued")
    (hpos : 0 < h.config.Game.BonusGrandThreshold)
    (hturns : s.GetUserTotalTurnCount user.ID ≥ h.config.Game.BonusGrandThreshold) :
    h.handleBonusMechanism s user c =
      h.autoGrantPassword s user c "grand" h.config.Game.Passwords.Grand
        h.config.Game.Prizes.GrandAmount (s.GetUserTotalTurnCount user.ID) := by
  have h1 : ¬ (("continued" : String) = "claimed_consolation" ∨
      ("continued" : String) = "claimed_grand") := by decide
  unfold ChatHandler.handleBonusMechanism
  simp only [hst, h1, if_false, gt_iff_lt, hpos, ge_iff_le, hturns, and_self, if_true]

theorem handleBonus_continued_idle (h : ChatHandler) (s : Store) (user : User) (c : String)
    (hst : s.GetUserBonusStatus user.ID = "continued")
    (hlow : s.GetUserTotalTurnCount user.ID < h.config.Game.BonusGrandThreshold ∨
      h.config.Game.BonusGrandThreshold ≤ 0) :
    h.handleBonusMechanism s user c = (s, []) := by
  have h1 : ¬ (("continued" : String) = "claimed_consolation" ∨
      ("continued" : String) = "claimed_grand") := by decide
  have h2 : ¬ ("continued" : String) = "" := by decide
  have h3 : ¬ (h.config.Game.BonusGrandThreshold > 0 ∧
      s.GetUserTotalTurnCount user.ID ≥ h.config.Game.BonusGrandThreshold ∧ True) := by
    rintro ⟨a, b, _⟩
    omega
  unfold ChatHandler.handleBonusMechanism
  simp only [hst, h1, h2, h3, if_false, and_false]

theorem handleBonus_fresh_idle (h : ChatHandler) (s : Store) (user : User) (c : String)
    (hst : s.GetUserBonusStatus user.ID = "")
    (hoff : h.config.Game.BonusConsolationThreshold ≤ 0) :
    h.handleBonusMechanism s user c = (s, []) := by
  have h1 : ¬ (("" : String) = "claimed_consolation" ∨ ("" : String) = "claimed_grand") := by
    decide
  have h2 : ¬ ("" : String) = "continued" := by decide
  have h3 : ¬ h.config.Game.BonusConsolationThreshold > 0 := by omega
  unfold ChatHandler.handleBonusMechanism
  simp only [hst, h1, h2, h3, if_false, and_false, false_and]

/-- C17, as stated, fails: the `bonus_offer` event sent at the consolation
threshold carries the configured consolation phrase 恭喜发财 in its
`ConsolationPassword` field; and with a consolation threshold of 0 nothing is
offered although the total is at least the threshold. -/
theorem handleBonusMechanism_offer_carries_phrase :
    ((handlerOf sampleConfig (replyWith [])).handleBonusMechanism
        (withConversation 2 20 true) ann "c1").2 =
      [Frame.event { Type_ := "bonus_offer", TotalTurns := 2, ConsolationPassword := "恭喜发财",
                     ConsolationPrizeAmount := "10", GrandAvailable := true }] ∧
    strings.Contains "恭喜发财" sampleConfig.Game.Passwords.Consolation = true ∧
    (withConversation 2 20 true).GetUserTotalTurnCount "u1" ≥
      (configWith 0 4 1).Game.BonusConsolationThreshold ∧
    (handlerOf (configWith 0 4 1) (replyWith [])).handleBonusMechanism
        (withConversation 2 20 true) ann "c1" = (withConversation 2 20 true, []) := by
  decide

/-- C17, amended: for a user in state none whose total turn count is at least
a positive consolation threshold, while the grand-winner count is below the
cap, `handleBonusMechanism` sets the state to offered and sends exactly one
`bonus_offer` event, whose `ConsolationPassword` field is the configured
consolation phrase and whose `Password` and `Content` fields are empty; it
records no winner, stores no message and changes no conversation.  With a
consolation threshold of 0 or less nothing happens. -/
theorem handleBonusMechanism_offer (h : ChatHandler) (s : Store) (user : User) (c : String)
    (hst : s.GetUserBonusStatus user.ID = "") :
    (0 < h.config.Game.BonusConsolationThreshold →
      s.GetUserTotalTurnCount user.ID ≥ h.config.Game.BonusConsolationThreshold →
      s.GetGrandWinnerCount < h.config.Game.Prizes.GrandCount →
      h.handleBonusMechanism s user c =
        (s.SetUserBonusStatus user.ID "offered",
          [Frame.event
            { Type_ := "bonus_offer", Content := "", Password := "",
              TotalTurns := s.GetUserTotalTurnCount user.ID,
              ConsolationPassword := h.config.Game.Passwords.Consolation,
              ConsolationPrizeAmount := h.config.Game.Prizes.ConsolationAmount,
              GrandAvailable := true }]) ∧
      (h.handleBonusMechanism s user c).1.GetUserBonusStatus user.ID = "offered" ∧
      (h.handleBonusMechanism s user c).1.winners = s.winners ∧
      (h.handleBonusMechanism s user c).1.messages = s.messages ∧
      (h.handleBonusMechanism s user c).1.conversations = s.conversations) ∧
    (h.config.Game.BonusConsolationThreshold ≤ 0 →
      h.handleBonusMechanism s user c = (s, [])) := by
  refine ⟨?_, handleBonus_fresh_idle h s user c hst⟩
  intro hpos hturns hcap
  have h1 : ¬ (("" : String) = "claimed_consolation" ∨ ("" : String) = "claimed_grand") := by
    decide
  have h2 : ¬ ("" : String) = "continued" := by decide
  have hres : h.handleBonusMechanism s user c =
      (s.SetUserBonusStatus user.ID "offered",
        [Frame.event
          { Type_ := "bonus_offer", Content := "", Password := "",
            TotalTurns := s.GetUserTotalTurnCount user.ID,
            ConsolationPassword := h.config.Game.Passwords.Consolation,
            ConsolationPrizeAmount := h.config.Game.Prizes.ConsolationAmount,
            GrandAvailable := true }]) := by
    unfold ChatHandler.handleBonusMechanism
    simp only [hst, h1, h2, hcap, if_false, and_false, gt_iff_lt, hpos, ge_iff_le, hturns,
      and_self, if_true, decide_True]
  rw [hres]
  obtain ⟨hc, hm, hw, _, _, hg⟩ := Store.SetUserBonusStatus_shape s user.ID "offered"
  exact ⟨rfl, hg, hw, hm, hc⟩

/-- C17, amended, at a user whose total of 2 turns equals the threshold 2. -/
theorem handleBonusMechanism_offer_witness :
    ((handlerOf sampleConfig (replyWith [])).handleBonusMechanism
        (withConversation 2 20 true) ann "c1").1.GetUserBonusStatus ann.ID = "offered" :=
  ((handleBonusMechanism_offer (handlerOf sampleConfig (replyWith []))
    (withConversation 2 20 true) ann "c1" (by decide)).1
    (by decide) (by decide) (by decide)).2.1

/-- C18, as stated, fails: with a consolation threshold of 0 and a grand cap
of 0, a user in state none with 2 turns has a total at least the threshold
and the grand-winner count is at the cap, yet nothing is granted. -/
theorem handleBonusMechanism_zero_threshold_no_grant :
    (withConversation 2 20 true).GetUserBonusStatus "u1" = "" ∧
    (withConversation 2 20 true).GetUserTotalTurnCount "u1" ≥
      (configWith 0 4 0).Game.BonusConsolationThreshold ∧
    (withConversation 2 20 true).GetGrandWinnerCount ≥ (configWith 0 4 0).Game.Prizes.GrandCount ∧
    (handlerOf (configWith 0 4 0) (replyWith [])).handleBonusMechanism
        (withConversation 2 20 true) ann "c1" = (withConversation 2 20 true, []) := by
  decide

/-- C18, amended: for a user in state none whose total turn count is at least
a positive consolation threshold, while the grand-winner count is at or above
the cap, `handleBonusMechanism` grants the consolation secret to the existing
conversation: the state becomes claimed_consolation, an assistant message
ending in the consolation phrase is appended, one consolation winner is
recorded, the conversation is ended as successful with that phrase, and the
events sent are a content event and a `password_found` event, no
`bonus_offer`.  With a consolation threshold of 0 or less nothing happens. -/
theorem handleBonusMechanism_consolation_grant (h : ChatHandler) (s : Store) (user : User)
    (c : String) (hst : s.GetUserBonusStatus user.ID = "") :
    (0 < h.config.Game.BonusConsolationThreshold →
      s.GetUserTotalTurnCount user.ID ≥ h.config.Game.BonusConsolationThreshold →
      s.GetGrandWinnerCount ≥ h.config.Game.Prizes.GrandCount →
      ∀ conv, s.GetConversation c = some conv →
        (h.handleBonusMechanism s user c).1.GetUserBonusStatus user.ID =
          "claimed_consolation" ∧
        (h.handleBonusMechanism s user c).1.GetConversation c =
          some { conv with
            Messages := conv.Messages ++
              [{ Role := "assistant",
                 Content := bonusTextOf (s.GetUserTotalTurnCount user.ID)
                   h.config.Game.Passwords.Consolation }],
            IsActive := false, IsSuccess := true,
            FoundPassword := h.config.Game.Passwords.Consolation,
            LastMessage := previewText (bonusTextOf (s.GetUserTotalTurnCount user.ID)
              h.config.Game.Passwords.Consolation) } ∧
        strings.Contains
          (bonusTextOf (s.GetUserTotalTurnCount user.ID) h.config.Game.Passwords.Consolation)
          h.config.Game.Passwords.Consolation = true ∧
        (∃ w : WinnerRow, (h.handleBonusMechanism s user c).1.winners = s.winners ++ [w] ∧
          w.prize_type = "consolation" ∧ w.password = h.config.Game.Passwords.Consolation ∧
          w.conversation_id = c ∧ w.nickname = user.Nickname) ∧
        (∃ isFirst : Bool, (h.handleBonusMechanism s user c).2 =
          [Frame.event
            { Type_ := "content",
              Content := bonusTextOf (s.GetUserTotalTurnCount user.ID)
                h.config.Game.Passwords.Consolation },
           Frame.event
            { Type_ := "password_found", Password := h.config.Game.Passwords.Consolation,
              PrizeType := "安慰奖", PrizeAmount := h.config.Game.Prizes.ConsolationAmount,
              IsFirstWinner := isFirst }])) ∧
    (h.config.Game.BonusConsolationThreshold ≤ 0 →
      h.handleBonusMechanism s user c = (s, [])) := by
  refine ⟨?_, handleBonus_fresh_idle h s user c hst⟩
  intro hpos hturns hcap conv hconv
  rw [handleBonus_fresh_grant h s user c hst hpos hturns hcap]
  obtain ⟨f1, f2, f3, f4⟩ := autoGrant_facts h s user c "consolation"
    h.config.Game.Passwords.Consolation h.config.Game.Prizes.ConsolationAmount
    (s.GetUserTotalTurnCount user.ID) conv hconv
  have hne : ¬ ("consolation" : String) = "grand" := by decide
  simp only [hne, if_false, if_true] at f2 f4
  exact ⟨f2, f1, strings.Contains_append_right _ _, f3, f4⟩

/-- C18, amended, at threshold 2, a user with 2 turns and a grand cap of 0. -/
theorem handleBonusMechanism_consolation_grant_witness :
    ((handlerOf (configWith 2 4 0) (replyWith [])).handleBonusMechanism
        (withConversation 2 20 true) ann "c1").1.GetUserBonusStatus ann.ID =
      "claimed_consolation" :=
  ((handleBonusMechanism_consolation_grant (handlerOf (configWith 2 4 0) (replyWith []))
    (withConversation 2 20 true) ann "c1" (by decide)).1
    (by decide) (by decide) (by decide)
    { ID := "c1", UserID := "u1", Nickname := "Ann", Messages := [], TurnCount := 2,
      MaxTurns := 20, IsActive := true, IsSuccess := false, IsPublic := true,
      FoundPassword := "", LastMessage := [] }
    (by decide)).1

/-- C19, as stated, fails: with a grand threshold of 0, a user in state
continued with 5 turns has a total at least the threshold, yet nothing is
granted: the database is unchanged and no event is sent. -/
theorem handleBonusMechanism_zero_grand_threshold :
    (withStatus 5 20 true "continued").GetUserBonusStatus "u1" = "continued" ∧
    (withStatus 5 20 true "continued").GetUserTotalTurnCount "u1" ≥
      (configWith 2 0 1).Game.BonusGrandThreshold ∧
    (handlerOf (configWith 2 0 1) (replyWith [])).handleBonusMechanism
        (withStatus 5 20 true "continued") ann "c1" = (withStatus 5 20 true "continued", []) := by
  decide

/-- C19, amended: for a user in state continued and a positive grand
threshold, when the total turn count is at least the threshold
`handleBonusMechanism` grants the grand secret to the existing conversation
with all four effects (an assistant message ending in the grand phrase is
appended, one grand winner is recorded, the conversation is ended as
successful with the grand phrase, the state becomes claimed_grand); when the
total is below the threshold, or the threshold is not positive, the database
is unchanged and no event is sent. -/
theorem handleBonusMechanism_grand_grant (h : ChatHandler) (s : Store) (user : User)
    (c : String) (hst : s.GetUserBonusStatus user.ID = "continued") :
    (0 < h.config.Game.BonusGrandThreshold →
      s.GetUserTotalTurnCount user.ID ≥ h.config.Game.BonusGrandThreshold →
      ∀ conv, s.GetConversation c = some conv →
        (h.handleBonusMechanism s user c).1.GetConversation c =
          some { conv with
            Messages := conv.Messages ++
              [{ Role := "assistant",
                 Content := bonusTextOf (s.GetUserTotalTurnCount user.ID)
                   h.config.Game.Passwords.Grand }],
            IsActive := false, IsSuccess := true,
            FoundPassword := h.config.Game.Passwords.Grand,
            LastMessage := previewText (bonusTextOf (s.GetUserTotalTurnCount user.ID)
              h.config.Game.Passwords.Grand) } ∧
        strings.Contains
          (bonusTextOf (s.GetUserTotalTurnCount user.ID) h.config.Game.Passwords.Grand)
          h.config.Game.Passwords.Grand = true ∧
        (∃ w : WinnerRow, (h.handleBonusMechanism s user c).1.winners = s.winners ++ [w] ∧
          w.prize_type = "grand" ∧ w.password = h.config.Game.Passwords.Grand ∧
          w.conversation_id = c ∧ w.nickname = user.Nickname) ∧
        (h.handleBonusMechanism s user c).1.GetUserBonusStatus user.ID = "claimed_grand") ∧
    ((s.GetUserTotalTurnCount user.ID < h.config.Game.BonusGrandThreshold ∨
        h.config.Game.BonusGrandThreshold ≤ 0) →
      h.handleBonusMechanism s user c = (s, [])) := by
  refine ⟨?_, handleBonus_continued_idle h s user c hst⟩
  intro hpos hturns conv hconv
  rw [handleBonus_continued_grant h s user c hst hpos hturns]
  obtain ⟨f1, f2, f3, _⟩ := autoGrant_facts h s user c "grand"
    h.config.Game.Passwords.Grand h.config.Game.Prizes.GrandAmount
    (s.GetUserTotalTurnCount user.ID) conv hconv
  simp only [if_true] at f2
  exact ⟨f1, strings.Contains_append_right _ _, f3, f2⟩

/-- C19, amended, at threshold 4 and a continued user with 5 turns. -/
theorem handleBonusMechanism_grand_grant_witness :
    ((handlerOf sampleConfig (replyWith [])).handleBonusMechanism
        (withStatus 5 20 true "continued") ann "c1").1.GetUserBonusStatus ann.ID =
      "claimed_grand" :=
  ((handleBonusMechanism_grand_grant (handlerOf sampleConfig (replyWith []))
    (withStatus 5 20 true "continued") ann "c1" (by decide)).1 (by decide) (by decide)
    { ID := "c1", UserID := "u1", Nickname := "Ann", Messages := [], TurnCount := 5,
      MaxTurns := 20, IsActive := true, IsSuccess := false, IsPublic := true,
      FoundPassword := "", LastMessage := [] }
    (by decide)).2.2.2

/-- C20 fails on the code: from an empty database, user `u1` logs in, opens
conversations `c1` and `c2`, and leaks the consolation phrase in `c1`, which
sets the state claimed_consolation; a later `SendMessage` in the still active
`c2` whose reply holds the grand phrase sets the state to claimed_grand and
records a second winner for the same user. -/
theorem SendMessage_overwrites_claimed_state :
    (claimedRun 3).GetUserBonusStatus "u1" = "claimed_consolation" ∧
    ((claimedRun 3).GetConversation "c2").map (fun c => c.IsActive) = some true ∧
    (claimedRun 4).GetUserBonusStatus "u1" = "claimed_grand" ∧
    (claimedRun 4).winners.map (fun w => w.prize_type) = ["consolation", "grand"] := by
  decide

/-! ## Secret matcher: keyword lists and monotonicity -/

/-- C26 fails on the code: the keyword lists are fixed literals, not taken
from the phrases.  For the phrases 新年快乐 and 恭喜发财 the grand fragment
小喵科技 is not a substring of the grand phrase and the consolation fragment
好运连连 is not a substring of the consolation phrase. -/
theorem NewPasswordChecker_keywords_not_from_phrases :
    (NewPasswordChecker "新年快乐" "恭喜发财").grandKeywords =
      ["小喵科技", "身体安康", "万事如意"] ∧
    (NewPasswordChecker "新年快乐" "恭喜发财").consolationKeywords = ["好运连连"] ∧
    strings.Contains "新年快乐" "小喵科技" = false ∧
    strings.Contains "恭喜发财" "好运连连" = false ∧
    ¬ (∀ kw ∈ (NewPasswordChecker "新年快乐" "恭喜发财").grandKeywords,
        strings.Contains "新年快乐" kw = true) := by
  decide

/-- C27: the keyword tier can report a text that holds neither phrase: with
phrases 新年快乐 and 恭喜发财, the text 好运连连 contains neither phrase, its
stripped form contains neither stripped phrase, and yet it is reported Found. -/
theorem CheckContent_keyword_false_positive :
    ∃ grand consolation T : String,
      strings.Contains T grand = false ∧ strings.Contains T consolation = false ∧
      strings.Contains (stripPunctuation basicUnicode T)
        (stripPunctuation basicUnicode grand) = false ∧
      strings.Contains (stripPunctuation basicUnicode T)
        (stripPunctuation basicUnicode consolation) = false ∧
      (CheckContent basicUnicode (NewPasswordChecker grand consolation) T).Found = true :=
  ⟨"新年快乐", "恭喜发财", "好运连连", by decide, by decide, by decide, by decide, by decide⟩

theorem strings.Contains_mono (U T V sub : String) (h : strings.Contains T sub = true) :
    strings.Contains (U ++ T ++ V) sub = true := by
  rw [strings.Contains_iff] at h ⊢
  rw [String.data_append, String.data_append]
  obtain ⟨a, b, hab⟩ := h
  exact ⟨U.data ++ a, b ++ V.data, by simp [← hab, List.append_assoc]⟩

theorem stripPunctuation_append (unicode : Unicode) (a b : String) :
    stripPunctuation unicode (a ++ b) = stripPunctuation unicode a ++ stripPunctuation unicode b := by
  unfold stripPunctuation
  rw [String.data_append, List.filter_append]
  rfl

theorem tierHit_mono (unicode : Unicode) (U T V phrase : String) (keywords : List String)
    (h : tierHit unicode T phrase keywords) :
    tierHit unicode (U ++ T ++ V) phrase keywords := by
  rcases h with h | h | ⟨hne, h⟩
  · exact Or.inl (strings.Contains_mono U T V phrase h)
  · refine Or.inr (Or.inl ?_)
    rw [stripPunctuation_append, stripPunctuation_append]
    exact strings.Contains_mono _ _ _ _ h
  · exact Or.inr (Or.inr ⟨hne, fun kw hkw => strings.Contains_mono U T V kw (h kw hkw)⟩)

theorem CheckContent_type_grand_iff (unicode : Unicode) (pc : PasswordChecker) (T : String) :
    (CheckContent unicode pc T).Type_ = "grand" ↔ grandHit unicode pc T := by
  rcases CheckContent_cases unicode pc T with ⟨hg, e⟩ | ⟨hg, _, e⟩ | ⟨hg, _, e⟩
  · rw [e]
    exact ⟨fun _ => hg, fun _ => rfl⟩
  · rw [e]
    constructor
    · intro h
      exact absurd h (by show ¬ ("consolation" : String) = "grand"; decide)
    · intro h
      exact absurd h hg
  · rw [e]
    constructor
    · intro h
      exact absurd h (by show ¬ ("" : String) = "grand"; decide)
    · intro h
      exact absurd h hg

/-- C29: detection is monotone in the text: if `CheckContent(T)` is Found then
so is `CheckContent(U ++ T ++ V)`, and if the type for `T` is "grand" then the
type for `U ++ T ++ V` is "grand". -/
theorem CheckContent_monotone (unicode : Unicode) (grand consolation U T V : String) :
    ((CheckContent unicode (NewPasswordChecker grand consolation) T).Found = true →
      (CheckContent unicode (NewPasswordChecker grand consolation) (U ++ T ++ V)).Found = true) ∧
    ((CheckContent unicode (NewPasswordChecker grand consolation) T).Type_ = "grand" →
      (CheckContent unicode (NewPasswordChecker grand consolation) (U ++ T ++ V)).Type_
        = "grand") := by
  constructor
  · intro h
    rw [found_iff_some_hit] at h ⊢
    rcases h with h | h
    · exact Or.inl (tierHit_mono unicode U T V _ _ h)
    · exact Or.inr (tierHit_mono unicode U T V _ _ h)
  · intro h
    rw [CheckContent_type_grand_iff] at h ⊢
    exact tierHit_mono unicode U T V _ _ h

/-- C29 at the text 新年，快乐 placed between a greeting and an exclamation mark. -/
theorem CheckContent_monotone_witness :
    (CheckContent basicUnicode (NewPasswordChecker "新年快乐" "恭喜发财")
      ("祝你" ++ "新年，快乐" ++ "！")).Type_ = "grand" :=
  (CheckContent_monotone basicUnicode "新年快乐" "恭喜发财" "祝你" "新年，快乐" "！").2 (by decide)

set_option maxRecDepth 20000 in
/-- C28 fails on the code: with the limit 1500, a message of 501 CJK
characters (1503 bytes) sent to an active conversation below its turn limit is
rejected for length, although its number of characters is within the limit. -/
theorem SendMessage_length_counts_bytes :
    longMessage.length = 501 ∧
    (longMessage.length : Int) ≤ sampleConfig.Game.MaxMessageLength ∧
    longMessage.utf8ByteSize = 1503 ∧
    ((handlerOf sampleConfig (replyWith [])).SendMessage (withConversation 0 20 true)
        (sendRequest longMessage)).response = errorJSON 400 "消息长度超过 1500 字" ∧
    ((handlerOf sampleConfig (replyWith [])).SendMessage (withConversation 0 20 true)
        (sendRequest longMessage)).aiCalls = [] := by
  decide

/-! ## NewConversation and BonusChoice -/

theorem find_none_of_fresh (rows : List ConversationRow) (c : String)
    (h : ∀ r ∈ rows, r.id ≠ c) :
    rows.find? (fun r => decide (r.id = c)) = none := by
  rw [List.find?_eq_none]
  intro r hr
  simpa using h r hr

theorem filter_nil_of_fresh (rows : List MessageRow) (c : String)
    (h : ∀ m ∈ rows, m.conversation_id ≠ c) :
    rows.filter (fun m => decide (m.conversation_id = c)) = [] := by
  rw [List.filter_eq_nil_iff]
  intro m hm
  simpa using h m hm

/-- C21: for a logged-in user whose bonus state is claimed_consolation or
claimed_grand, `NewConversation` is rejected with status 400 and the database
is unchanged; for a logged-in user in any other state, and a generated id not
yet used, it adds one conversation row and one message row, so that the new
conversation is active with turn count 0, the configured `MaxTurns`, and the
opening assistant message as its only message. -/
theorem NewConversation_contract (h : ChatHandler) (s : Store) (r : Request Unit)
    (convID cookie : String) (user : User)
    (hc : r.cookie = some cookie) (hu : s.GetUserBySession cookie = some user) :
    ((s.GetUserBonusStatus user.ID = "claimed_consolation" ∨
        s.GetUserBonusStatus user.ID = "claimed_grand") →
      (h.NewConversation s r convID).store = s ∧
      (h.NewConversation s r convID).response =
        failureJSON 400 "你已获得口令奖品，无法再创建新对话") ∧
    (¬ (s.GetUserBonusStatus user.ID = "claimed_consolation" ∨
        s.GetUserBonusStatus user.ID = "claimed_grand") →
      s.freshID convID →
      (h.NewConversation s r convID).store.conversations =
        s.conversations ++
          [{ id := convID, user_id := user.ID, nickname := user.Nickname, turn_count := 0,
             max_turns := h.config.Game.MaxTurns, is_active := true, is_success := false,
             is_public := true, found_password := "", last_message := [] }] ∧
      (h.NewConversation s r convID).store.messages =
        s.messages ++
          [{ conversation_id := convID, role := "assistant",
             content := GenerateInitialMessage }] ∧
      (h.NewConversation s r convID).store.GetConversation convID =
        some { ID := convID, UserID := user.ID, Nickname := user.Nickname,
               Messages := [{ Role := "assistant", Content := GenerateInitialMessage }],
               TurnCount := 0, MaxTurns := h.config.Game.MaxTurns, IsActive := true,
               IsSuccess := false, IsPublic := true, FoundPassword := "",
               LastMessage := [] } ∧
      (h.NewConversation s r convID).response =
        Response.json 200 [("success", JsonValue.bool true),
          ("conversationId", JsonValue.str convID),
          ("initialMessage", JsonValue.str GenerateInitialMessage)]) := by
  constructor
  · intro hst
    simp only [ChatHandler.NewConversation, hc, hu, hst, if_true, and_self]
  · intro hst hfresh
    have hnone := find_none_of_fresh s.conversations convID hfresh.1
    have hres : h.NewConversation s r convID =
        { store := { s with
            conversations := s.conversations ++
              [{ id := convID, user_id := user.ID, nickname := user.Nickname, turn_count := 0,
                 max_turns := h.config.Game.MaxTurns, is_active := true, is_success := false,
                 is_public := true, found_password := "", last_message := [] }],
            messages := s.messages ++
              [{ conversation_id := convID, role := "assistant",
                 content := GenerateInitialMessage }] },
          response := Response.json 200 [("success", JsonValue.bool true),
            ("conversationId", JsonValue.str convID),
            ("initialMessage", JsonValue.str GenerateInitialMessage)],
          aiCalls := [] } := by
      simp only [ChatHandler.NewConversation, hc, hu, hst, if_false, Store.CreateConversation,
        hnone, Option.isSome_none, Bool.false_eq_true]
    rw [hres]
    refine ⟨rfl, rfl, ?_, rfl⟩
    rw [Store.GetConversation_eq]
    simp only [Store.getConversationMessages, List.find?_append, hnone, Option.none_or,
      List.filter_append, filter_nil_of_fresh s.messages convID hfresh.2, List.nil_append]
    simp [List.find?_cons, List.filter_cons, loadRow]

/-- C21 at a logged-in user in state none and an empty database. -/
theorem NewConversation_contract_witness :
    ((handlerOf sampleConfig (replyWith [])).NewConversation loggedIn
        { cookie := some "t1", body := some (), flusher := true } "c1").store.GetConversation "c1" =
      some { ID := "c1", UserID := ann.ID, Nickname := ann.Nickname,
             Messages := [{ Role := "assistant", Content := GenerateInitialMessage }],
             TurnCount := 0, MaxTurns := (handlerOf sampleConfig (replyWith [])).config.Game.MaxTurns,
             IsActive := true, IsSuccess := false, IsPublic := true, FoundPassword := "",
             LastMessage := [] } :=
  ((NewConversation_contract (handlerOf sampleConfig (replyWith [])) loggedIn
    { cookie := some "t1", body := some (), flusher := true } "c1" "t1" ann rfl (by decide)).2
    (by decide) ⟨by decide, by decide⟩).2.2.1

theorem handleBonus_offered_idle (h : ChatHandler) (s : Store) (user : User) (c : String)
    (hst : s.GetUserBonusStatus user.ID = "offered") :
    h.handleBonusMechanism s user c = (s, []) := by
  have h1 : ¬ (("offered" : String) = "claimed_consolation" ∨
      ("offered" : String) = "claimed_grand") := by decide
  have h2 : ¬ ("offered" : String) = "continued" := by decide
  have h3 : ¬ ("offered" : String) = "" := by decide
  unfold ChatHandler.handleBonusMechanism
  simp only [hst, h1, h2, h3, if_false, and_false]

/-- C22: for a user in state offered `handleBonusMechanism` changes nothing
and sends no event, whatever the turn count and the winner count.  For a
logged-in user in state offered naming a conversation of their own,
`BonusChoice` with "claim" sets claimed_consolation, records one consolation
winner and ends the conversation as successful with the consolation phrase,
and with "continue" sets continued and records no winner.  `BonusChoice` by a
user whose state is not offered, or with any other choice value, is rejected
with status 400 and leaves the database unchanged. -/
theorem BonusChoice_contract (h : ChatHandler) (s : Store) (r : Request bonusChoiceRequest)
    (cookie : String) (user : User) (req : bonusChoiceRequest)
    (hc : r.cookie = some cookie) (hu : s.GetUserBySession cookie = some user)
    (hb : r.body = some req) :
    (s.GetUserBonusStatus user.ID = "offered" →
      ∀ c, h.handleBonusMechanism s user c = (s, [])) ∧
    (s.GetUserBonusStatus user.ID = "offered" →
      ∀ conv, s.GetConversation req.ConversationID = some conv → conv.UserID = user.ID →
        (req.Choice = "claim" →
          (h.BonusChoice s r).store.GetUserBonusStatus user.ID = "claimed_consolation" ∧
          (∃ w : WinnerRow, (h.BonusChoice s r).store.winners = s.winners ++ [w] ∧
            w.prize_type = "consolation" ∧
            w.password = h.config.Game.Passwords.Consolation) ∧
          (∃ conv', (h.BonusChoice s r).store.GetConversation req.ConversationID = some conv' ∧
            conv'.IsActive = false ∧ conv'.IsSuccess = true ∧
            conv'.FoundPassword = h.config.Game.Passwords.Consolation)) ∧
        (req.Choice = "continue" →
          (h.BonusChoice s r).store.GetUserBonusStatus user.ID = "continued" ∧
          (h.BonusChoice s r).store.winners = s.winners)) ∧
    (s.GetUserBonusStatus user.ID ≠ "offered" →
      (h.BonusChoice s r).store = s ∧
      (h.BonusChoice s r).response = errorJSON 400 "当前无可用的福利选择") ∧
    (req.Choice ≠ "claim" → req.Choice ≠ "continue" →
      (h.BonusChoice s r).store = s ∧
      ∃ msg, (h.BonusChoice s r).response = errorJSON 400 msg) := by
  refine ⟨fun hst c => handleBonus_offered_idle h s user c hst, ?_, ?_, ?_⟩
  · intro hst conv hconv hown
    have hguard : ¬ ((some conv).isNone = true ∨
        Option.map (fun c => c.UserID) (some conv) ≠ some user.ID) := by
      simp [hown]
    constructor
    · intro hch
      have hres : (h.BonusChoice s r).store =
          (((s.RecordWinner user.Nickname req.ConversationID "consolation"
              h.config.Game.Passwords.Consolation h.config.Game.Prizes.ConsolationAmount
              ).1.EndConversation req.ConversationID true
              h.config.Game.Passwords.Consolation).SetUserBonusStatus user.ID
              "claimed_consolation").AddMessage req.ConversationID
            { Role := "assistant",
              Content := "🎉 恭喜你选择领取福利口令！口令是：" ++
                h.config.Game.Passwords.Consolation } := by
        simp only [ChatHandler.BonusChoice, hc, hu, hb, hst, hconv, hguard, hch, ne_eq,
          not_true_eq_false, if_false, if_true]
      rw [hres]
      refine ⟨?_, ?_, ?_⟩
      · rw [Store.GetUserBonusStatus_congr _ _ _ (Store.AddMessage_shape _ _ _).2.2.1]
        exact (Store.SetUserBonusStatus_shape _ _ _).2.2.2.2.2
      · obtain ⟨_, _, _, _, _, w, hw, _, _, ht, _, hp⟩ := Store.RecordWinner_shape s
          user.Nickname req.ConversationID "consolation" h.config.Game.Passwords.Consolation
          h.config.Game.Prizes.ConsolationAmount
        refine ⟨w, ?_, ht, hp⟩
        rw [(Store.AddMessage_shape _ _ _).2.1, (Store.SetUserBonusStatus_shape _ _ _).2.2.1,
          (Store.EndConversation_shape _ _ _ _).2.1, hw]
      · obtain ⟨r0, hrow, _⟩ := Store.GetConversation_some s _ conv hconv
        rw [Store.GetConversation_eq, Store.row_AddMessage_assistant,
          (Store.SetUserBonusStatus_shape _ _ _).1]
        unfold Store.EndConversation
        rw [Store.row_updateConversation _ req.ConversationID
            (fun r => { r with is_active := false, is_success := true,
                               found_password := h.config.Game.Passwords.Consolation })
            (fun _ => rfl),
          (Store.RecordWinner_shape _ _ _ _ _ _).1, hrow]
        exact ⟨_, rfl, rfl, rfl, rfl⟩
    · intro hch
      have hne : ¬ ("continue" : String) = "claim" := by decide
      have hres : (h.BonusChoice s r).store =
          (s.SetUserBonusStatus user.ID "continued").AddMessage req.ConversationID
            { Role := "assistant",
              Content := "你选择了放弃福利口令，继续挑战主口令！加油！当你的总对话次数达到80次时，将自动获得主口令。" } := by
        simp only [ChatHandler.BonusChoice, hc, hu, hb, hst, hconv, hguard, hch, hne, ne_eq,
          not_true_eq_false, if_false, if_true]
      rw [hres]
      refine ⟨?_, ?_⟩
      · rw [Store.GetUserBonusStatus_congr _ _ _ (Store.AddMessage_shape _ _ _).2.2.1]
        exact (Store.SetUserBonusStatus_shape _ _ _).2.2.2.2.2
      · rw [(Store.AddMessage_shape _ _ _).2.1, (Store.SetUserBonusStatus_shape _ _ _).2.2.1]
  · intro hst
    simp only [ChatHandler.BonusChoice, hc, hu, hb, hst, ne_eq, not_false_eq_true, if_true,
      and_self]
  · intro h1 h2
    unfold ChatHandler.BonusChoice
    simp only [hc, hu, hb, h1, h2, if_false]
    split_ifs <;> exact ⟨rfl, _, rfl⟩

/-- C22 at a logged-in user in state offered choosing "continue". -/
theorem BonusChoice_contract_witness :
    ((handlerOf sampleConfig (replyWith [])).BonusChoice (withStatus 2 20 true "offered")
        { cookie := some "t1", body := some { ConversationID := "c1", Choice := "continue" },
          flusher := true }).store.GetUserBonusStatus ann.ID = "continued" ∧
    ((handlerOf sampleConfig (replyWith [])).BonusChoice (withStatus 2 20 true "offered")
        { cookie := some "t1", body := some { ConversationID := "c1", Choice := "continue" },
          flusher := true }).store.winners = (withStatus 2 20 true "offered").winners :=
  ((BonusChoice_contract (handlerOf sampleConfig (replyWith [])) (withStatus 2 20 true "offered")
    { cookie := some "t1", body := some { ConversationID := "c1", Choice := "continue" },
      flusher := true }
    "t1" ann { ConversationID := "c1", Choice := "continue" } rfl (by decide) rfl).2.1
    (by decide)
    { ID := "c1", UserID := "u1", Nickname := "Ann", Messages := [], TurnCount := 2,
      MaxTurns := 20, IsActive := true, IsSuccess := false, IsPublic := true,
      FoundPassword := "", LastMessage := [] }
    (by decide) rfl).2 rfl

/-! ## First-winner flags -/

theorem lookupRow_filter_append (rows : List (String × String)) (k v k' : String) :
    lookupRow (rows.filter (fun r => decide (r.1 ≠ k)) ++ [(k, v)]) k' =
      if k' = k then some v else lookupRow rows k' := by
  induction rows with
  | nil =>
    by_cases hk : k' = k
    · simp [lookupRow, List.find?_cons, hk]
    · have hk' : ¬ k = k' := fun e => hk e.symm
      simp [lookupRow, List.find?_cons, hk, hk']
  | cons r rows ih =>
    by_cases hrk : r.1 = k
    · have hstep : (r :: rows).filter (fun r => decide (r.1 ≠ k)) =
          rows.filter (fun r => decide (r.1 ≠ k)) := by
        simp [List.filter_cons, hrk]
      rw [hstep, ih]
      by_cases hk : k' = k
      · simp [hk]
      · have : ¬ r.1 = k' := by rw [hrk]; exact fun e => hk e.symm
        simp [hk, lookupRow, List.find?_cons, this]
    · have hstep : (r :: rows).filter (fun r => decide (r.1 ≠ k)) =
          r :: rows.filter (fun r => decide (r.1 ≠ k)) := by
        simp [List.filter_cons, hrk]
      rw [hstep]
      by_cases hrk' : r.1 = k'
      · have hk : ¬ k' = k := by rw [← hrk']; exact hrk
        simp [lookupRow, List.find?_cons, hrk', hk]
      · have := ih
        simp only [lookupRow, List.cons_append, List.find?_cons, hrk', decide_False] at this ⊢
        exact this

theorem Store.getClaimStatus_set (s : Store) (k v k' : String) :
    (s.setClaimStatus k v).getClaimStatus k' =
      if k' = k then v else s.getClaimStatus k' := by
  unfold Store.getClaimStatus Store.setClaimStatus
  simp only []
  rw [lookupRow_filter_append]
  split_ifs <;> rfl

theorem Store.getClaimStatus_winners (s : Store) (ws : List WinnerRow) (k : String) :
    ({ s with winners := ws } : Store).getClaimStatus k = s.getClaimStatus k := rfl

/-- The flag and the first-claimed marks after one `RecordWinner` call. -/
theorem Store.RecordWinner_flags (s : Store) (n c t p a : String) :
    ((s.RecordWinner n c t p a).2 = true ↔
      (t = "grand" ∧ s.getClaimStatus "grand_first_claimed" = "0") ∨
      (t = "consolation" ∧ s.getClaimStatus "consolation_first_claimed" = "0")) ∧
    ((s.RecordWinner n c t p a).1.getClaimStatus "grand_first_claimed" = "0" ↔
      s.getClaimStatus "grand_first_claimed" = "0" ∧ t ≠ "grand") ∧
    ((s.RecordWinner n c t p a).1.getClaimStatus "consolation_first_claimed" = "0" ↔
      s.getClaimStatus "consolation_first_claimed" = "0" ∧ t ≠ "consolation") ∧
    (∃ w : WinnerRow, (s.RecordWinner n c t p a).1.winners = s.winners ++ [w] ∧
      w.prize_type = t ∧
      (w.category = t ++ "-first" ↔ (s.RecordWinner n c t p a).2 = true)) := by
  have hgc : ¬ ("grand" : String) = "consolation" := by decide
  have k1 : ¬ ("grand_first_claimed" : String) = "consolation_first_claimed" := by decide
  have k2 : ¬ ("grand_first_claimed" : String) = "consolation_claim_count" := by decide
  have k3 : ¬ ("consolation_first_claimed" : String) = "consolation_claim_count" := by decide
  have k4 : ¬ ("consolation_first_claimed" : String) = "grand_first_claimed" := by decide
  have one : ¬ ("1" : String) = "0" := by decide
  have c1 : ¬ ("grand-subsequent" : String) = "grand" ++ "-first" := by decide
  have c2 : ¬ ("consolation-subsequent" : String) = "consolation" ++ "-first" := by decide
  have c3 : ("grand-first" : String) = "grand" ++ "-first" := by decide
  have c4 : ("consolation-first" : String) = "consolation" ++ "-first" := by decide
  by_cases hg : t = "grand"
  · subst hg
    by_cases h0 : s.getClaimStatus "grand_first_claimed" = "0"
    · refine ⟨?_, ?_, ?_, ?_⟩
      · simp [Store.RecordWinner, Store.getClaimStatus_winners, h0, hgc]
      · simp [Store.RecordWinner, Store.getClaimStatus_winners, h0, Store.getClaimStatus_set, one]
      · simp [Store.RecordWinner, Store.getClaimStatus_winners, h0, Store.getClaimStatus_set, k4, hgc]
      · refine ⟨_, by simp only [Store.RecordWinner, h0, if_true]; rfl, rfl, ?_⟩
        simp [Store.RecordWinner, Store.getClaimStatus_winners, h0, c3]
    · refine ⟨?_, ?_, ?_, ?_⟩
      · simp [Store.RecordWinner, Store.getClaimStatus_winners, h0, hgc]
      · simp [Store.RecordWinner, Store.getClaimStatus_winners, h0]
      · simp [Store.RecordWinner, Store.getClaimStatus_winners, h0, hgc]
      · refine ⟨_, by simp only [Store.RecordWinner, h0, if_true, if_false]; rfl, rfl, ?_⟩
        simp [Store.RecordWinner, Store.getClaimStatus_winners, h0, c1]
  · by_cases hcn : t = "consolation"
    · subst hcn
      have hcg : ¬ ("consolation" : String) = "grand" := by decide
      by_cases h0 : s.getClaimStatus "consolation_first_claimed" = "0"
      · refine ⟨?_, ?_, ?_, ?_⟩
        · simp [Store.RecordWinner, Store.getClaimStatus_winners, h0, hcg]
        · simp [Store.RecordWinner, Store.getClaimStatus_winners, h0, hcg, Store.getClaimStatus_set, k1, k2]
        · simp [Store.RecordWinner, Store.getClaimStatus_winners, h0, hcg, Store.getClaimStatus_set, k3, one]
        · refine ⟨_, by simp only [Store.RecordWinner, h0, hcg, if_true, if_false]; rfl,
            rfl, ?_⟩
          simp [Store.RecordWinner, Store.getClaimStatus_winners, h0, hcg, c4]
      · refine ⟨?_, ?_, ?_, ?_⟩
        · simp [Store.RecordWinner, Store.getClaimStatus_winners, h0, hcg]
        · simp [Store.RecordWinner, Store.getClaimStatus_winners, h0, hcg, Store.getClaimStatus_set, k2]
        · simp [Store.RecordWinner, Store.getClaimStatus_winners, h0, hcg, Store.getClaimStatus_set, k3]
        · refine ⟨_, by simp only [Store.RecordWinner, h0, hcg, if_true, if_false]; rfl,
            rfl, ?_⟩
          simp [Store.RecordWinner, Store.getClaimStatus_winners, h0, hcg, c2]
    · refine ⟨?_, ?_, ?_, ?_⟩
      · simp [Store.RecordWinner, Store.getClaimStatus_winners, hg, hcn]
      · simp [Store.RecordWinner, Store.getClaimStatus_winners, hg, hcn]
      · simp [Store.RecordWinner, Store.getClaimStatus_winners, hg, hcn]
      · refine ⟨_, by simp only [Store.RecordWinner, hg, hcn, if_false]; rfl, rfl, ?_⟩
        have hlen : ¬ ("" : String) = t ++ "-first" := by
          intro e
          have := congrArg String.length e
          rw [String.length_append] at this
          have h6 : ("-first" : String).length = 6 := by decide
          have h0 : ("" : String).length = 0 := by decide
          omega
        simp [Store.RecordWinner, Store.getClaimStatus_winners, hg, hcn, hlen]

theorem Store.recordAll_snoc (s : Store) (pre : List WinnerCall) (c : WinnerCall) :
    (s.recordAll (pre ++ [c])).1 =
        ((s.recordAll pre).1.RecordWinner c.nickname c.convID c.passwordType c.password
          c.prizeAmount).1 ∧
    (s.recordAll (pre ++ [c])).2 =
        (s.recordAll pre).2 ++
          [((s.recordAll pre).1.RecordWinner c.nickname c.convID c.passwordType c.password
            c.prizeAmount).2] := by
  induction pre generalizing s with
  | nil => exact ⟨rfl, rfl⟩
  | cons x pre ih =>
    obtain ⟨h1, h2⟩ := ih (s.RecordWinner x.nickname x.convID x.passwordType x.password
      x.prizeAmount).1
    simp only [List.cons_append, Store.recordAll, List.append_eq, h1, h2, List.cons_append,
      and_self]

theorem Store.recordAll_marks (s : Store) (pre : List WinnerCall) :
    ((s.recordAll pre).1.getClaimStatus "grand_first_claimed" = "0" ↔
      s.getClaimStatus "grand_first_claimed" = "0" ∧ ∀ x ∈ pre, x.passwordType ≠ "grand") ∧
    ((s.recordAll pre).1.getClaimStatus "consolation_first_claimed" = "0" ↔
      s.getClaimStatus "consolation_first_claimed" = "0" ∧
        ∀ x ∈ pre, x.passwordType ≠ "consolation") := by
  induction pre generalizing s with
  | nil => simp [Store.recordAll]
  | cons x pre ih =>
    obtain ⟨_, hg, hc, _⟩ := Store.RecordWinner_flags s x.nickname x.convID x.passwordType
      x.password x.prizeAmount
    obtain ⟨ig, ic⟩ := ih (s.RecordWinner x.nickname x.convID x.passwordType x.password
      x.prizeAmount).1
    constructor
    · show (Store.recordAll (s.RecordWinner x.nickname x.convID x.passwordType x.password
          x.prizeAmount).1 pre).1.getClaimStatus "grand_first_claimed" = "0" ↔ _
      rw [ig, hg]
      simp only [List.mem_cons, forall_eq_or_imp, and_assoc]
    · show (Store.recordAll (s.RecordWinner x.nickname x.convID x.passwordType x.password
          x.prizeAmount).1 pre).1.getClaimStatus "consolation_first_claimed" = "0" ↔ _
      rw [ic, hc]
      simp only [List.mem_cons, forall_eq_or_imp, and_assoc]

/-- C23: in a sequential run of `RecordWinner` calls from the freshly created
database, the call `c` made after the calls `pre` returns `isFirst = true`
exactly when its tier is grand or consolation and no earlier call was made for
that tier, so per tier the first call returns true and every later one false;
the winner row it inserts has category "<tier>-first" exactly when it returns
true; and the flags of the run are those of the calls in order. -/
theorem RecordWinner_first_flag (pre : List WinnerCall) (c : WinnerCall) :
    (((Store.New.recordAll pre).1.RecordWinner c.nickname c.convID c.passwordType c.password
        c.prizeAmount).2 = true ↔
      (c.passwordType = "grand" ∨ c.passwordType = "consolation") ∧
        ∀ x ∈ pre, x.passwordType ≠ c.passwordType) ∧
    (∃ w : WinnerRow,
      ((Store.New.recordAll pre).1.RecordWinner c.nickname c.convID c.passwordType c.password
          c.prizeAmount).1.winners = (Store.New.recordAll pre).1.winners ++ [w] ∧
      w.prize_type = c.passwordType ∧
      (w.category = c.passwordType ++ "-first" ↔
        ((Store.New.recordAll pre).1.RecordWinner c.nickname c.convID c.passwordType c.password
          c.prizeAmount).2 = true)) ∧
    (Store.New.recordAll (pre ++ [c])).2 =
      (Store.New.recordAll pre).2 ++
        [((Store.New.recordAll pre).1.RecordWinner c.nickname c.convID c.passwordType
          c.password c.prizeAmount).2] := by
  obtain ⟨hflag, _, _, hw⟩ := Store.RecordWinner_flags (Store.New.recordAll pre).1
    c.nickname c.convID c.passwordType c.password c.prizeAmount
  obtain ⟨mg, mc⟩ := Store.recordAll_marks Store.New pre
  have g0 : Store.New.getClaimStatus "grand_first_claimed" = "0" := by decide
  have c0 : Store.New.getClaimStatus "consolation_first_claimed" = "0" := by decide
  refine ⟨?_, hw, (Store.recordAll_snoc Store.New pre c).2⟩
  rw [hflag, mg, mc]
  simp only [g0, c0, true_and]
  constructor
  · rintro (⟨ht, hall⟩ | ⟨ht, hall⟩)
    · exact ⟨Or.inl ht, by rw [ht]; exact hall⟩
    · exact ⟨Or.inr ht, by rw [ht]; exact hall⟩
  · rintro ⟨ht | ht, hall⟩
    · exact Or.inl ⟨ht, by rw [ht] at hall; exact hall⟩
    · exact Or.inr ⟨ht, by rw [ht] at hall; exact hall⟩

/-- C23 at a run of a grand call, a consolation call and a second grand call:
the flags are true, true, false. -/
theorem RecordWinner_first_flag_witness :
    (Store.New.recordAll
      [{ nickname := "Ann", convID := "c1", passwordType := "grand", password := "新年快乐",
         prizeAmount := "100" },
       { nickname := "Bob", convID := "c2", passwordType := "consolation",
         password := "恭喜发财", prizeAmount := "10" },
       { nickname := "Eve", convID := "c3", passwordType := "grand", password := "新年快乐",
         prizeAmount := "100" }]).2 = [true, true, false] := by
  have h := (RecordWinner_first_flag
    [{ nickname := "Ann", convID := "c1", passwordType := "grand", password := "新年快乐",
       prizeAmount := "100" },
     { nickname := "Bob", convID := "c2", passwordType := "consolation",
       password := "恭喜发财", prizeAmount := "10" }]
    { nickname := "Eve", convID := "c3", passwordType := "grand", password := "新年快乐",
      prizeAmount := "100" }).2.2
  rw [List.cons_append, List.cons_append, List.nil_append] at h
  rw [h]
  decide

/-! ## Conversation rows along operations -/

theorem find_map_id (rows : List ConversationRow) (c : String)
    (g : ConversationRow → ConversationRow) (hg : ∀ r, (g r).id = r.id) :
    (rows.map g).find? (fun r => decide (r.id = c)) =
      (rows.find? (fun r => decide (r.id = c))).map g := by
  induction rows with
  | nil => rfl
  | cons r rows ih =>
    by_cases hr : r.id = c
    · have : (g r).id = c := by rw [hg, hr]
      simp [List.find?_cons, hr, this]
    · have : ¬ (g r).id = c := by rw [hg]; exact hr
      simp [List.find?_cons, hr, this, ih]

theorem Store.row_id (s : Store) (c : String) (r : ConversationRow) (h : s.row c = some r) :
    r.id = c := by
  have := List.find?_some h
  simpa using this

theorem Quiet.refl (s : Store) : Quiet s s :=
  fun _ => ⟨fun h => h, fun r h => ⟨r, h, rfl, rfl, fun x => x⟩⟩

theorem Quiet.trans {a b c : Store} (h1 : Quiet a b) (h2 : Quiet b c) : Quiet a c := by
  intro k
  refine ⟨fun hn => (h2 k).1 ((h1 k).1 hn), ?_⟩
  intro r hr
  obtain ⟨r1, hr1, q1⟩ := (h1 k).2 r hr
  obtain ⟨r2, hr2, q2⟩ := (h2 k).2 r1 hr1
  exact ⟨r2, hr2, q2.1.trans q1.1, q2.2.1.trans q1.2.1, fun x => q1.2.2 (q2.2.2 x)⟩

theorem Quiet.of_map (s s' : Store) (g : ConversationRow → ConversationRow)
    (hconv : s'.conversations = s.conversations.map g)
    (hg : ∀ r, (g r).id = r.id ∧ quietRow r (g r)) : Quiet s s' := by
  intro k
  have hrow : s'.row k = (s.row k).map g := by
    unfold Store.row
    rw [hconv]
    exact find_map_id _ k g (fun r => (hg r).1)
  refine ⟨fun hn => by rw [hrow, hn]; rfl, fun r hr => ⟨g r, by rw [hrow, hr]; rfl, (hg r).2⟩⟩

theorem Quiet.of_eq (s s' : Store) (hconv : s'.conversations = s.conversations) : Quiet s s' := by
  refine Quiet.of_map s s' id ?_ (fun r => ⟨rfl, rfl, rfl, fun x => x⟩)
  rw [hconv, List.map_id]

theorem Quiet.updateConversation (s : Store) (c : String)
    (f : ConversationRow → ConversationRow) (hf : ∀ r, (f r).id = r.id ∧ quietRow r (f r)) :
    Quiet s (s.updateConversation c f) := by
  refine Quiet.of_map s _ (fun r => if r.id = c then f r else r) rfl ?_
  intro r
  show (if r.id = c then f r else r).id = r.id ∧ quietRow r (if r.id = c then f r else r)
  by_cases hr : r.id = c
  · rw [if_pos hr]
    exact hf r
  · rw [if_neg hr]
    exact ⟨rfl, rfl, rfl, fun x => x⟩

theorem assistant_not_user (x : String) :
    ({ Role := "assistant", Content := x } : Message).Role ≠ "user" := by
  show ("assistant" : String) ≠ "user"
  decide

theorem quiet_EndConversation (s : Store) (c : String) (b : Bool) (p : String) :
    Quiet s (s.EndConversation c b p) :=
  Quiet.updateConversation s c
    (fun r => { r with is_active := false, is_success := b, found_password := p })
    (fun _ => ⟨rfl, rfl, rfl, fun x => by cases x⟩)

theorem quiet_AddMessage (s : Store) (c : String) (msg : Message) (hrole : msg.Role ≠ "user") :
    Quiet s (s.AddMessage c msg) := by
  unfold Store.AddMessage
  simp only [hrole, if_false]
  exact (Quiet.of_eq s _ rfl).trans
    (Quiet.updateConversation _ c
      (fun r => { r with last_message := previewText msg.Content })
      (fun _ => ⟨rfl, rfl, rfl, fun x => x⟩))

theorem quiet_RecordWinner (s : Store) (n c t p a : String) :
    Quiet s (s.RecordWinner n c t p a).1 :=
  Quiet.of_eq s _ (Store.RecordWinner_shape s n c t p a).1

theorem quiet_SetUserBonusStatus (s : Store) (u st : String) :
    Quiet s (s.SetUserBonusStatus u st) :=
  Quiet.of_eq s _ (Store.SetUserBonusStatus_shape s u st).1

theorem quiet_autoGrantPassword (h : ChatHandler) (s : Store) (user : User)
    (c t pw amount : String) (total : Int) :
    Quiet s (h.autoGrantPassword s user c t pw amount total).1 := by
  unfold ChatHandler.autoGrantPassword
  simp only []
  have base := ((quiet_AddMessage s c { Role := "assistant", Content := bonusTextOf total pw }
    (assistant_not_user _)).trans (quiet_RecordWinner _ user.Nickname c t pw amount)).trans
    (quiet_EndConversation _ c true pw)
  split_ifs
  · exact base.trans (quiet_SetUserBonusStatus _ _ _)
  · exact base.trans (quiet_SetUserBonusStatus _ _ _)

theorem quiet_handleBonusMechanism (h : ChatHandler) (s : Store) (user : User) (c : String) :
    Quiet s (h.handleBonusMechanism s user c).1 := by
  unfold ChatHandler.handleBonusMechanism
  simp only []
  split_ifs
  · exact Quiet.refl s
  · exact quiet_autoGrantPassword h s user c _ _ _ _
  · exact quiet_SetUserBonusStatus s _ _
  · exact quiet_autoGrantPassword h s user c _ _ _ _
  · exact Quiet.refl s

theorem quiet_streamLoop (h : ChatHandler) (s : Store) (user : User) (c : String)
    (full : String) (ch : List StreamDelta) :
    Quiet s (h.streamLoop s user c full ch).store := by
  induction ch generalizing full with
  | nil => exact Quiet.refl s
  | cons d rest ih =>
    by_cases herr : d.Error = none
    · by_cases hdone : d.Done = true
      · rw [ChatHandler.streamLoop_done h s user c d rest full herr hdone]
        exact Quiet.refl s
      · have hd : isContent d := ⟨by simpa using hdone, herr⟩
        cases hhit : (CheckContent h.unicode h.passwordChecker (full ++ d.Content)).Found
        · have := ChatHandler.streamLoop_prefix h s user c [d] rest full
            (fun x hx => by
              rw [List.mem_singleton] at hx
              rw [hx]
              exact hd)
            (fun j h1 h2 => by
              have hj : j = 1 := by
                simp only [List.length_singleton] at h2
                omega
              subst hj
              exact hhit)
          rw [List.singleton_append] at this
          rw [this]
          exact ih _
        · rw [ChatHandler.streamLoop_match h s user c d rest full hd hhit]
          exact (((quiet_RecordWinner s _ _ _ _ _).trans (quiet_EndConversation _ _ _ _)).trans
            (quiet_SetUserBonusStatus _ _ _)).trans
            (quiet_AddMessage _ _ _ (assistant_not_user _))
    · rw [ChatHandler.streamLoop_error h s user c d rest full herr]
      exact Quiet.refl s

theorem Quiet.calm {s s' : Store} (h : Quiet s s') : Calm s s' := by
  intro c r hr
  obtain ⟨r', hr', q⟩ := (h c).2 r hr
  exact ⟨r', hr', q.2.2⟩

theorem Store.row_GetConversation (s : Store) (c : String) :
    s.GetConversation c = (s.row c).map (fun r => loadRow r (s.getConversationMessages c)) :=
  Store.GetConversation_eq s c

theorem Store.turnsOK_iff (s : Store) :
    s.turnsOK ↔ ∀ c r, s.row c = some r →
      r.turn_count ≤ r.max_turns ∧ (r.is_active = true → r.turn_count < r.max_turns) := by
  constructor
  · intro h c r hr
    have := h c (loadRow r (s.getConversationMessages c))
      (by rw [Store.row_GetConversation, hr]; rfl)
    exact this
  · intro h c conv hconv
    rw [Store.row_GetConversation] at hconv
    cases hr : s.row c with
    | none => rw [hr] at hconv; exact absurd hconv (by simp)
    | some r =>
      rw [hr] at hconv
      have e : conv = loadRow r (s.getConversationMessages c) := (Option.some.inj hconv).symm
      rw [e]
      exact h c r hr

theorem Quiet.turnsOK {s s' : Store} (h : Quiet s s') (hs : s.turnsOK) : s'.turnsOK := by
  rw [Store.turnsOK_iff] at hs ⊢
  intro c r' hr'
  cases hr : s.row c with
  | none =>
    rw [(h c).1 hr] at hr'
    exact absurd hr' (by simp)
  | some r =>
    obtain ⟨r'', hr'', q⟩ := (h c).2 r hr
    rw [hr'] at hr''
    have e : r' = r'' := Option.some.inj hr''
    subst e
    obtain ⟨h1, h2⟩ := hs c r hr
    obtain ⟨qt, qm, qa⟩ := q
    rw [qt, qm]
    exact ⟨h1, fun x => h2 (qa x)⟩

/-- The rows after a user message: the rows of other conversations are as
before; the conversation itself has one more turn and is active only if it
was active and the new count is below the maximum. -/
theorem Store.row_AddMessage_user_all (s : Store) (c content k : String) :
    (s.AddMessage c { Role := "user", Content := content }).row k =
      (s.row k).map (fun r =>
        if r.id = c then
          { r with turn_count := r.turn_count + 1, last_message := previewText content,
                   is_active := r.is_active && !decide (r.turn_count + 1 ≥ r.max_turns) }
        else r) := by
  by_cases hk : k = c
  · subst hk
    have := Store.row_AddMessage_user s k content
    unfold Store.row
    rw [this]
    cases hr : s.conversations.find? (fun r => decide (r.id = k)) with
    | none => rfl
    | some r =>
      have hid : r.id = k := by
        have := List.find?_some hr
        simpa using this
      simp only [Option.map_some', hid, if_true]
  · have key : ∀ (t : Store) (f : ConversationRow → ConversationRow),
        (∀ r, (f r).id = r.id) → (t.updateConversation c f).row k = t.row k := by
      intro t f hf
      unfold Store.row Store.updateConversation
      simp only []
      rw [find_map_id _ k _ (fun r => by by_cases hr : r.id = c <;> simp [hr, hf])]
      cases hr : t.conversations.find? (fun r => decide (r.id = k)) with
      | none => rfl
      | some r =>
        have hid : r.id = k := by
          have := List.find?_some hr
          simpa using this
        have : ¬ r.id = c := by rw [hid]; exact hk
        simp only [Option.map_some', this, if_false]
    have hrhs : (s.row k).map (fun r =>
        if r.id = c then
          { r with turn_count := r.turn_count + 1, last_message := previewText content,
                   is_active := r.is_active && !decide (r.turn_count + 1 ≥ r.max_turns) }
        else r) = s.row k := by
      cases hr : s.row k with
      | none => rfl
      | some r =>
        have : ¬ r.id = c := by rw [Store.row_id s k r hr]; exact hk
        simp only [Option.map_some', this, if_false]
    rw [hrhs]
    unfold Store.AddMessage
    simp only [if_true]
    split
    · split
      · rw [key, key]
        · rfl
        · exact fun _ => rfl
        · exact fun _ => rfl
      · rw [key]
        · rfl
        · exact fun _ => rfl
    · rw [key]
      · rfl
      · exact fun _ => rfl

theorem turnsOK_AddMessage_user (s : Store) (c content : String) (conv : Conversation)
    (hs : s.turnsOK) (hconv : s.GetConversation c = some conv)
    (hturn : conv.TurnCount < conv.MaxTurns) :
    (s.AddMessage c { Role := "user", Content := content }).turnsOK := by
  obtain ⟨r0, hrow, hc⟩ := Store.GetConversation_some s c conv hconv
  have ht0 : r0.turn_count < r0.max_turns := by
    rw [hc] at hturn
    exact hturn
  rw [Store.turnsOK_iff] at hs ⊢
  intro k r' hr'
  rw [Store.row_AddMessage_user_all] at hr'
  cases hr : s.row k with
  | none => rw [hr] at hr'; exact absurd hr' (by simp)
  | some r =>
    rw [hr] at hr'
    simp only [Option.map_some', Option.some.injEq] at hr'
    by_cases hid : r.id = c
    · have hk : k = c := (Store.row_id s k r hr).symm.trans hid
      subst hk
      have e : r = r0 := by
        have : s.row k = some r0 := hrow
        rw [hr] at this
        exact Option.some.inj this
      subst e
      simp only [hid, if_true] at hr'
      subst hr'
      simp only [Bool.and_eq_true, Bool.not_eq_true', decide_eq_false_iff_not]
      constructor
      · omega
      · intro x
        omega
    · simp only [hid, if_false] at hr'
      subst hr'
      exact hs k r hr

/-- The database after `SendMessage`: unchanged by a rejection, ended without
success by the turn-limit branch, and otherwise the user message followed by
writes that keep every turn count. -/
theorem SendMessage_store_cases (h : ChatHandler) (s : Store) (r : Request messageRequest) :
    (h.SendMessage s r).store = s ∨
    (∃ req, r.body = some req ∧
      (h.SendMessage s r).store = s.EndConversation req.ConversationID false "") ∨
    (∃ req conv, r.body = some req ∧ s.GetConversation req.ConversationID = some conv ∧
      conv.IsActive = true ∧ conv.TurnCount < conv.MaxTurns ∧
      Quiet (s.AddMessage req.ConversationID { Role := "user", Content := req.userContent })
        (h.SendMessage s r).store) := by
  unfold ChatHandler.SendMessage
  cases hc : r.cookie with
  | none => exact Or.inl rfl
  | some cookie =>
    simp only []
    cases hu : s.GetUserBySession cookie with
    | none => exact Or.inl rfl
    | some user =>
      simp only []
      cases hb : r.body with
      | none => exact Or.inl rfl
      | some req =>
        simp only []
        cases hconv : s.GetConversation req.ConversationID with
        | none => exact Or.inl rfl
        | some conv =>
          simp only []
          by_cases h1 : conv.UserID ≠ user.ID
          · rw [if_pos h1]
            exact Or.inl rfl
          · rw [if_neg h1]
            by_cases h2 : (!conv.IsActive) = true
            · rw [if_pos h2]
              exact Or.inl rfl
            · rw [if_neg h2]
              by_cases h3 : conv.TurnCount ≥ conv.MaxTurns
              · rw [if_pos h3]
                exact Or.inr (Or.inl ⟨req, rfl, rfl⟩)
              · rw [if_neg h3]
                by_cases h4 : (req.Message.utf8ByteSize : Int) > h.config.Game.MaxMessageLength
                · rw [if_pos h4]
                  exact Or.inl rfl
                · rw [if_neg h4]
                  have hact : conv.IsActive = true := by
                    cases hx : conv.IsActive with
                    | true => rfl
                    | false => rw [hx] at h2; exact absurd rfl h2
                  refine Or.inr (Or.inr ⟨req, conv, rfl, hconv, hact, lt_of_not_ge h3, ?_⟩)
                  cases hai : h.aiService conv.history req.userContent with
                  | error e => exact Quiet.refl _
                  | ok ch =>
                    simp only []
                    by_cases h5 : (!r.flusher) = true
                    · rw [if_pos h5]
                      exact Quiet.refl _
                    · rw [if_neg h5]
                      have hloop := quiet_streamLoop h
                        (s.AddMessage req.ConversationID
                          { Role := "user", Content := req.userContent })
                        user req.ConversationID "" ch
                      cases hfull : (h.streamLoop (s.AddMessage req.ConversationID
                          { Role := "user", Content := req.userContent })
                          user req.ConversationID "" ch).fullResponse with
                      | none => exact hloop
                      | some ai =>
                        simp only []
                        refine hloop.trans (Quiet.trans ?_ (quiet_handleBonusMechanism h _ user _))
                        by_cases h6 : ai ≠ ""
                        · rw [if_pos h6]
                          exact quiet_AddMessage _ _ _ (assistant_not_user _)
                        · rw [if_neg h6]
                          exact Quiet.refl _

theorem quiet_BonusChoice (h : ChatHandler) (s : Store) (r : Request bonusChoiceRequest) :
    Quiet s (h.BonusChoice s r).store := by
  unfold ChatHandler.BonusChoice
  cases hc : r.cookie with
  | none => exact Quiet.refl s
  | some cookie =>
    simp only []
    cases hu : s.GetUserBySession cookie with
    | none => exact Quiet.refl s
    | some user =>
      simp only []
      cases hb : r.body with
      | none => exact Quiet.refl s
      | some req =>
        simp only []
        split_ifs
        · exact Quiet.refl s
        · exact Quiet.refl s
        · exact (((quiet_RecordWinner s _ _ _ _ _).trans (quiet_EndConversation _ _ _ _)).trans
            (quiet_SetUserBonusStatus _ _ _)).trans
            (quiet_AddMessage _ _ _ (assistant_not_user _))
        · exact (quiet_SetUserBonusStatus s _ _).trans
            (quiet_AddMessage _ _ _ (assistant_not_user _))
        · exact Quiet.refl s

/-- The rows after `CreateConversation`: the old rows stay, and a new row
starts at turn 0 with the given maximum. -/
theorem Store.row_CreateConversation (s : Store) (convID userID nickname : String)
    (maxTurns : Int) (initial : String) (k : String) :
    (s.CreateConversation convID userID nickname maxTurns initial).1.row k = s.row k ∨
    (s.row k = none ∧ ∃ r,
      (s.CreateConversation convID userID nickname maxTurns initial).1.row k = some r ∧
      r.turn_count = 0 ∧ r.max_turns = maxTurns) := by
  unfold Store.CreateConversation
  split_ifs with hdup
  · exact Or.inl rfl
  · simp only []
    show Store.row { s with
        conversations := s.conversations ++ [_], messages := _ } k = s.row k ∨ _
    unfold Store.row
    simp only [List.find?_append]
    cases hr : s.conversations.find? (fun r => decide (r.id = k)) with
    | some r0 => exact Or.inl rfl
    | none =>
      by_cases hk : convID = k
      · refine Or.inr ⟨rfl,
          { id := convID, user_id := userID, nickname := nickname, turn_count := 0,
            max_turns := maxTurns, is_active := true, is_success := false, is_public := true,
            found_password := "", last_message := [] }, ?_, rfl, rfl⟩
        simp [List.find?, hk]
      · refine Or.inl ?_
        simp [List.find?, hk]

theorem turnsOK_NewConversation (h : ChatHandler) (hmax : 1 ≤ h.config.Game.MaxTurns)
    (s : Store) (r : Request Unit) (convID : String) (hs : s.turnsOK) :
    (h.NewConversation s r convID).store.turnsOK := by
  have hc : ∀ u n i, (s.CreateConversation convID u n h.config.Game.MaxTurns i).1.turnsOK := by
    intro u n i
    rw [Store.turnsOK_iff] at hs ⊢
    intro k r1 hr1
    rcases Store.row_CreateConversation s convID u n h.config.Game.MaxTurns i k with
      e | ⟨_, r2, hr2, ht, hm⟩
    · exact hs k r1 (e.symm.trans hr1)
    · rw [hr1] at hr2
      have e : r1 = r2 := Option.some.inj hr2
      subst e
      rw [ht, hm]
      exact ⟨by omega, fun _ => by omega⟩
  unfold ChatHandler.NewConversation
  cases hcookie : r.cookie with
  | none => exact hs
  | some cookie =>
    simp only []
    cases hu : s.GetUserBySession cookie with
    | none => exact hs
    | some user =>
      simp only []
      split_ifs
      · exact hs
      · split <;> exact hc _ _ _

theorem turnsOK_EndConversation (s : Store) (c : String) (b : Bool) (p : String)
    (hs : s.turnsOK) : (s.EndConversation c b p).turnsOK :=
  (quiet_EndConversation s c b p).turnsOK hs

theorem turnsOK_SendMessage (h : ChatHandler) (s : Store) (r : Request messageRequest)
    (hs : s.turnsOK) : (h.SendMessage s r).store.turnsOK := by
  rcases SendMessage_store_cases h s r with e | ⟨req, _, e⟩ | ⟨req, conv, _, hconv, _, hlt, q⟩
  · rw [e]
    exact hs
  · rw [e]
    exact turnsOK_EndConversation s _ _ _ hs
  · exact q.turnsOK (turnsOK_AddMessage_user s _ _ conv hs hconv hlt)

theorem turnsOK_step (h : ChatHandler) (hmax : 1 ≤ h.config.Game.MaxTurns) (s : Store)
    (op : Operation) (hs : s.turnsOK) : (h.step s op).turnsOK := by
  cases op with
  | newConversation r convID => exact turnsOK_NewConversation h hmax s r convID hs
  | sendMessage r => exact turnsOK_SendMessage h s r hs
  | bonusChoice r => exact (quiet_BonusChoice h s r).turnsOK hs

theorem turnsOK_run (h : ChatHandler) (hmax : 1 ≤ h.config.Game.MaxTurns) (ops : List Operation)
    (s : Store) (hs : s.turnsOK) : (h.run s ops).turnsOK := by
  induction ops generalizing s with
  | nil => exact hs
  | cons op rest ih => exact ih (h.step s op) (turnsOK_step h hmax s op hs)

theorem turnsOK_empty (s : Store) (h0 : s.conversations = []) : s.turnsOK := by
  rw [Store.turnsOK_iff]
  intro c r hr
  unfold Store.row at hr
  rw [h0] at hr
  exact absurd hr (by simp)

/-! ## Turn counts -/

theorem length_text_ne_limit_text (n : Int) :
    "消息长度超过 " ++ toString n ++ " 字" ≠ "已达到最大对话轮次" := by
  intro e
  have e2 := congrArg String.data e
  rw [String.data_append, String.data_append] at e2
  have hd : ("消息长度超过 " : String).data = ['消', '息', '长', '度', '超', '过', ' '] := by decide
  have hd2 : ("已达到最大对话轮次" : String).data =
      ['已', '达', '到', '最', '大', '对', '话', '轮', '次'] := by decide
  rw [hd, hd2] at e2
  have := (List.cons.inj e2).1
  exact absurd this (by decide)

theorem errorJSON_inj (m n : Nat) (a b : String) (e : errorJSON m a = errorJSON n b) :
    m = n ∧ a = b := by
  simpa [errorJSON] using e

/-- The turn-limit rejection of `SendMessage` is written only for an active
conversation whose turn count has reached its maximum. -/
theorem SendMessage_limit_branch (h : ChatHandler) (s : Store) (r : Request messageRequest)
    (hresp : (h.SendMessage s r).response = errorJSON 400 "已达到最大对话轮次") :
    ∃ req conv, r.body = some req ∧ s.GetConversation req.ConversationID = some conv ∧
      conv.IsActive = true ∧ conv.TurnCount ≥ conv.MaxTurns := by
  unfold ChatHandler.SendMessage at hresp
  cases hc : r.cookie with
  | none =>
    rw [hc] at hresp
    exact absurd (errorJSON_inj _ _ _ _ hresp).1 (by decide)
  | some cookie =>
    rw [hc] at hresp
    simp only [] at hresp
    cases hu : s.GetUserBySession cookie with
    | none =>
      rw [hu] at hresp
      exact absurd (errorJSON_inj _ _ _ _ hresp).1 (by decide)
    | some user =>
      rw [hu] at hresp
      simp only [] at hresp
      cases hb : r.body with
      | none =>
        rw [hb] at hresp
        exact absurd (errorJSON_inj _ _ _ _ hresp).2 (by decide)
      | some req =>
        rw [hb] at hresp
        simp only [] at hresp
        cases hconv : s.GetConversation req.ConversationID with
        | none =>
          rw [hconv] at hresp
          exact absurd (errorJSON_inj _ _ _ _ hresp).1 (by decide)
        | some conv =>
          rw [hconv] at hresp
          simp only [] at hresp
          by_cases h1 : conv.UserID ≠ user.ID
          · rw [if_pos h1] at hresp
            exact absurd (errorJSON_inj _ _ _ _ hresp).1 (by decide)
          · rw [if_neg h1] at hresp
            by_cases h2 : (!conv.IsActive) = true
            · rw [if_pos h2] at hresp
              exact absurd (errorJSON_inj _ _ _ _ hresp).2 (by decide)
            · rw [if_neg h2] at hresp
              have hact : conv.IsActive = true := by
                cases hx : conv.IsActive with
                | true => rfl
                | false => rw [hx] at h2; exact absurd rfl h2
              by_cases h3 : conv.TurnCount ≥ conv.MaxTurns
              · exact ⟨req, conv, rfl, hconv, hact, h3⟩
              · rw [if_neg h3] at hresp
                exfalso
                by_cases h4 : (req.Message.utf8ByteSize : Int) > h.config.Game.MaxMessageLength
                · rw [if_pos h4] at hresp
                  simp only [errorJSON, Response.json.injEq, List.cons.injEq, Prod.mk.injEq,
                    JsonValue.str.injEq, true_and, and_true] at hresp
                  exact length_text_ne_limit_text _ hresp
                · rw [if_neg h4] at hresp
                  cases hai : h.aiService conv.history req.userContent with
                  | error e =>
                    rw [hai] at hresp
                    exact absurd (errorJSON_inj _ _ _ _ hresp).1 (by decide)
                  | ok ch =>
                    rw [hai] at hresp
                    simp only [] at hresp
                    by_cases h5 : (!r.flusher) = true
                    · rw [if_pos h5] at hresp
                      exact absurd (errorJSON_inj _ _ _ _ hresp).1 (by decide)
                    · rw [if_neg h5] at hresp
                      cases hfull : (h.streamLoop (s.AddMessage req.ConversationID
                          { Role := "user", Content := req.userContent })
                          user req.ConversationID "" ch).fullResponse with
                      | none =>
                        rw [hfull] at hresp
                        simp [errorJSON] at hresp
                      | some ai =>
                        rw [hfull] at hresp
                        simp [errorJSON] at hresp

theorem SendMessage_accepted_quiet (h : ChatHandler) (s : Store)
    (r : Request messageRequest) (user : User) (req : messageRequest) (conv : Conversation)
    (ch : List StreamDelta) (hacc : Accepted h s r user req conv ch) :
    Quiet (s.AddMessage req.ConversationID { Role := "user", Content := req.userContent })
      (h.SendMessage s r).store := by
  rw [ChatHandler.SendMessage_accepted h s r user req conv ch hacc]
  have hloop := quiet_streamLoop h
    (s.AddMessage req.ConversationID { Role := "user", Content := req.userContent })
    user req.ConversationID "" ch
  cases hfull : (h.streamLoop (s.AddMessage req.ConversationID
      { Role := "user", Content := req.userContent })
      user req.ConversationID "" ch).fullResponse with
  | none => exact hloop
  | some ai =>
    simp only []
    refine hloop.trans (Quiet.trans ?_ (quiet_handleBonusMechanism h _ user _))
    by_cases h6 : ai ≠ ""
    · rw [if_pos h6]
      exact quiet_AddMessage _ _ _ (assistant_not_user _)
    · rw [if_neg h6]
      exact Quiet.refl _

theorem Quiet.GetConversation {s s' : Store} (q : Quiet s s') (c : String) (conv : Conversation)
    (hconv : s.GetConversation c = some conv) :
    ∃ conv', s'.GetConversation c = some conv' ∧ conv'.TurnCount = conv.TurnCount ∧
      conv'.MaxTurns = conv.MaxTurns ∧ (conv'.IsActive = true → conv.IsActive = true) := by
  obtain ⟨r0, hrow, e⟩ := Store.GetConversation_some s c conv hconv
  obtain ⟨r1, hr1, qt, qm, qa⟩ := (q c).2 r0 hrow
  refine ⟨loadRow r1 (s'.getConversationMessages c), ?_, ?_, ?_, ?_⟩
  · rw [Store.row_GetConversation, hr1]
    rfl
  · rw [e]
    exact qt
  · rw [e]
    exact qm
  · rw [e]
    exact qa

theorem GetConversation_AddMessage_user (s : Store) (c content : String) (conv : Conversation)
    (hconv : s.GetConversation c = some conv) :
    ∃ conv1, (s.AddMessage c { Role := "user", Content := content }).GetConversation c =
        some conv1 ∧ conv1.TurnCount = conv.TurnCount + 1 := by
  obtain ⟨r0, hrow, e⟩ := Store.GetConversation_some s c conv hconv
  have hrow1 := Store.row_AddMessage_user s c content
  rw [hrow] at hrow1
  have h1 := Store.GetConversation_eq (s.AddMessage c { Role := "user", Content := content }) c
  rw [hrow1] at h1
  refine ⟨_, h1, ?_⟩
  rw [e]
  rfl

/-- C30: with a configured maximum of at least 1 turn, in every database
reached from one without conversations by `NewConversation`, `SendMessage`
and `BonusChoice` operations, every conversation has TurnCount ≤ MaxTurns and
an active one has TurnCount < MaxTurns; `SendMessage` never answers there with
the turn-limit rejection; an accepted `SendMessage` raises the TurnCount of
its conversation by exactly 1; and storing a message whose role is not "user"
leaves the TurnCount as it was. -/
theorem turn_count_invariant (h : ChatHandler) (hmax : 1 ≤ h.config.Game.MaxTurns)
    (s0 : Store) (h0 : s0.conversations = []) (ops : List Operation) :
    (h.run s0 ops).turnsOK ∧
    (∀ r, (h.SendMessage (h.run s0 ops) r).response ≠ errorJSON 400 "已达到最大对话轮次") ∧
    (∀ r user req conv ch, Accepted h (h.run s0 ops) r user req conv ch →
      ∃ conv', (h.SendMessage (h.run s0 ops) r).store.GetConversation req.ConversationID =
          some conv' ∧ conv'.TurnCount = conv.TurnCount + 1) ∧
    (∀ c msg conv, msg.Role ≠ "user" → (h.run s0 ops).GetConversation c = some conv →
      ∃ conv', ((h.run s0 ops).AddMessage c msg).GetConversation c = some conv' ∧
        conv'.TurnCount = conv.TurnCount) := by
  have hok := turnsOK_run h hmax ops s0 (turnsOK_empty s0 h0)
  refine ⟨hok, ?_, ?_, ?_⟩
  · intro r hresp
    obtain ⟨req, conv, _, hconv, hact, hge⟩ := SendMessage_limit_branch h _ r hresp
    have := (hok req.ConversationID conv hconv).2 hact
    omega
  · intro r user req conv ch hacc
    have q := SendMessage_accepted_quiet h _ r user req conv ch hacc
    obtain ⟨conv1, h1, t1⟩ := GetConversation_AddMessage_user (h.run s0 ops)
      req.ConversationID req.userContent conv hacc.2.2.1
    obtain ⟨conv2, h2, t2, _⟩ := q.GetConversation req.ConversationID conv1 h1
    exact ⟨conv2, h2, t2.trans t1⟩
  · intro c msg conv hrole hconv
    obtain ⟨conv', h1, h2, _⟩ := (quiet_AddMessage _ c msg hrole).GetConversation c conv hconv
    exact ⟨conv', h1, h2⟩

/-- C30 at the sample configuration (maximum 20 turns) after the four
operations of `claimedOps` from the database with one logged-in user. -/
theorem turn_count_invariant_witness :
    ((handlerOf sampleConfig leakyClient).run loggedIn claimedOps).turnsOK ∧
    ∀ r, ((handlerOf sampleConfig leakyClient).SendMessage
        ((handlerOf sampleConfig leakyClient).run loggedIn claimedOps) r).response ≠
      errorJSON 400 "已达到最大对话轮次" :=
  ⟨(turn_count_invariant (handlerOf sampleConfig leakyClient) (by decide) loggedIn rfl
      claimedOps).1,
   (turn_count_invariant (handlerOf sampleConfig leakyClient) (by decide) loggedIn rfl
      claimedOps).2.1⟩

/-! ## Ended conversations -/

theorem Store.row_of_conversations (s s' : Store) (k : String)
    (e : s'.conversations = s.conversations) : s'.row k = s.row k := by
  unfold Store.row
  rw [e]

theorem Store.row_updateConversation_other (t : Store) (c k : String)
    (f : ConversationRow → ConversationRow) (hk : k ≠ c) (hf : ∀ r, (f r).id = r.id) :
    (t.updateConversation c f).row k = t.row k := by
  unfold Store.row Store.updateConversation
  simp only []
  rw [find_map_id _ k _ (fun r => by by_cases hr : r.id = c <;> simp [hr, hf])]
  cases hr : t.conversations.find? (fun r => decide (r.id = k)) with
  | none => rfl
  | some r =>
    have hid : r.id = k := by
      have := List.find?_some hr
      simpa using this
    have : ¬ r.id = c := by rw [hid]; exact hk
    simp only [Option.map_some', this, if_false]

theorem Store.row_EndConversation_other (s : Store) (c k : String) (b : Bool) (p : String)
    (hk : k ≠ c) : (s.EndConversation c b p).row k = s.row k :=
  Store.row_updateConversation_other s c k
    (fun r => { r with is_active := false, is_success := b, found_password := p })
    hk (fun _ => rfl)

theorem Store.row_AddMessage_other (s : Store) (c k : String) (msg : Message) (hk : k ≠ c) :
    (s.AddMessage c msg).row k = s.row k := by
  unfold Store.AddMessage
  simp only []
  split
  · split
    · split
      · rw [Store.row_updateConversation_other _ c k _ hk,
          Store.row_updateConversation_other _ c k _ hk]
        · rfl
        · exact fun _ => rfl
        · exact fun _ => rfl
      · rw [Store.row_updateConversation_other _ c k _ hk]
        · rfl
        · exact fun _ => rfl
    · rw [Store.row_updateConversation_other _ c k _ hk]
      · rfl
      · exact fun _ => rfl
  · rw [Store.row_updateConversation_other _ c k _ hk]
    · rfl
    · exact fun _ => rfl

theorem Store.row_RecordWinner (s : Store) (n c t p a k : String) :
    (s.RecordWinner n c t p a).1.row k = s.row k :=
  Store.row_of_conversations s _ k (Store.RecordWinner_shape s n c t p a).1

theorem Store.row_SetUserBonusStatus (s : Store) (u st k : String) :
    (s.SetUserBonusStatus u st).row k = s.row k :=
  Store.row_of_conversations s _ k (Store.SetUserBonusStatus_shape s u st).1

theorem row_autoGrantPassword_other (h : ChatHandler) (s : Store) (user : User)
    (c t pw amount : String) (total : Int) (k : String) (hk : k ≠ c) :
    (h.autoGrantPassword s user c t pw amount total).1.row k = s.row k := by
  unfold ChatHandler.autoGrantPassword
  simp only []
  split_ifs
  · rw [Store.row_SetUserBonusStatus, Store.row_EndConversation_other _ c k _ _ hk,
      Store.row_RecordWinner, Store.row_AddMessage_other _ c k _ hk]
  · rw [Store.row_SetUserBonusStatus, Store.row_EndConversation_other _ c k _ _ hk,
      Store.row_RecordWinner, Store.row_AddMessage_other _ c k _ hk]

theorem row_handleBonusMechanism_other (h : ChatHandler) (s : Store) (user : User)
    (c k : String) (hk : k ≠ c) : (h.handleBonusMechanism s user c).1.row k = s.row k := by
  unfold ChatHandler.handleBonusMechanism
  simp only []
  split_ifs
  · rfl
  · exact row_autoGrantPassword_other h s user c _ _ _ _ k hk
  · exact Store.row_SetUserBonusStatus s _ _ k
  · exact row_autoGrantPassword_other h s user c _ _ _ _ k hk
  · rfl

theorem row_streamLoop_other (h : ChatHandler) (s : Store) (user : User) (c : String)
    (full : String) (ch : List StreamDelta) (k : String) (hk : k ≠ c) :
    (h.streamLoop s user c full ch).store.row k = s.row k := by
  induction ch generalizing full with
  | nil => rfl
  | cons d rest ih =>
    by_cases herr : d.Error = none
    · by_cases hdone : d.Done = true
      · rw [ChatHandler.streamLoop_done h s user c d rest full herr hdone]
      · have hd : isContent d := ⟨by simpa using hdone, herr⟩
        cases hhit : (CheckContent h.unicode h.passwordChecker (full ++ d.Content)).Found
        · have := ChatHandler.streamLoop_prefix h s user c [d] rest full
            (fun x hx => by
              rw [List.mem_singleton] at hx
              rw [hx]
              exact hd)
            (fun j h1 h2 => by
              have hj : j = 1 := by
                simp only [List.length_singleton] at h2
                omega
              subst hj
              exact hhit)
          rw [List.singleton_append] at this
          rw [this]
          exact ih _
        · rw [ChatHandler.streamLoop_match h s user c d rest full hd hhit]
          simp only []
          rw [Store.row_AddMessage_other _ c k _ hk, Store.row_SetUserBonusStatus,
            Store.row_EndConversation_other _ c k _ _ hk, Store.row_RecordWinner]
    · rw [ChatHandler.streamLoop_error h s user c d rest full herr]

/-- `SendMessage` leaves the row of every ended conversation exactly as it was. -/
theorem SendMessage_row_inactive (h : ChatHandler) (s : Store) (r : Request messageRequest)
    (k : String) (r0 : ConversationRow) (hrow : s.row k = some r0)
    (hin : r0.is_active = false) : (h.SendMessage s r).store.row k = some r0 := by
  unfold ChatHandler.SendMessage
  cases hc : r.cookie with
  | none => exact hrow
  | some cookie =>
    simp only []
    cases hu : s.GetUserBySession cookie with
    | none => exact hrow
    | some user =>
      simp only []
      cases hb : r.body with
      | none => exact hrow
      | some req =>
        simp only []
        cases hconv : s.GetConversation req.ConversationID with
        | none => exact hrow
        | some conv =>
          simp only []
          by_cases h1 : conv.UserID ≠ user.ID
          · rw [if_pos h1]
            exact hrow
          · rw [if_neg h1]
            by_cases h2 : (!conv.IsActive) = true
            · rw [if_pos h2]
              exact hrow
            · rw [if_neg h2]
              have hk : k ≠ req.ConversationID := by
                intro e
                subst e
                obtain ⟨r1, hr1, e1⟩ := Store.GetConversation_some s _ conv hconv
                have e2 : r1 = r0 := Option.some.inj (hr1.symm.trans hrow)
                subst e2
                rw [e1] at h2
                exact h2 (by show (!r1.is_active) = true; rw [hin]; rfl)
              by_cases h3 : conv.TurnCount ≥ conv.MaxTurns
              · rw [if_pos h3]
                exact (Store.row_EndConversation_other s _ k _ _ hk).trans hrow
              · rw [if_neg h3]
                by_cases h4 : (req.Message.utf8ByteSize : Int) > h.config.Game.MaxMessageLength
                · rw [if_pos h4]
                  exact hrow
                · rw [if_neg h4]
                  have hadd := (Store.row_AddMessage_other s req.ConversationID k
                    { Role := "user", Content := req.userContent } hk).trans hrow
                  cases hai : h.aiService conv.history req.userContent with
                  | error e => exact hadd
                  | ok ch =>
                    simp only []
                    by_cases h5 : (!r.flusher) = true
                    · rw [if_pos h5]
                      exact hadd
                    · rw [if_neg h5]
                      have hloop := (row_streamLoop_other h
                        (s.AddMessage req.ConversationID
                          { Role := "user", Content := req.userContent })
                        user req.ConversationID "" ch k hk).trans hadd
                      cases hfull : (h.streamLoop (s.AddMessage req.ConversationID
                          { Role := "user", Content := req.userContent })
                          user req.ConversationID "" ch).fullResponse with
                      | none => exact hloop
                      | some ai =>
                        simp only []
                        rw [row_handleBonusMechanism_other h _ user _ k hk]
                        by_cases h6 : ai ≠ ""
                        · rw [if_pos h6, Store.row_AddMessage_other _ _ k _ hk]
                          exact hloop
                        · rw [if_neg h6]
                          exact hloop

/-- `NewConversation` leaves every existing row exactly as it was. -/
theorem NewConversation_row_kept (h : ChatHandler) (s : Store) (r : Request Unit)
    (convID k : String) (r0 : ConversationRow) (hrow : s.row k = some r0) :
    (h.NewConversation s r convID).store.row k = some r0 := by
  have hc : ∀ u n m i, (s.CreateConversation convID u n m i).1.row k = some r0 := by
    intro u n m i
    rcases Store.row_CreateConversation s convID u n m i k with e | ⟨hn, _⟩
    · exact e.trans hrow
    · rw [hn] at hrow
      exact absurd hrow (by simp)
  unfold ChatHandler.NewConversation
  cases hcookie : r.cookie with
  | none => exact hrow
  | some cookie =>
    simp only []
    cases hu : s.GetUserBySession cookie with
    | none => exact hrow
    | some user =>
      simp only []
      split_ifs
      · exact hrow
      · split <;> exact hc _ _ _ _

theorem Store.row_AddMessage_reply (s : Store) (c k : String) (msg : Message)
    (hrole : msg.Role ≠ "user") (r0 : ConversationRow) (hrow : s.row k = some r0) :
    ∃ r1, (s.AddMessage c msg).row k = some r1 ∧ r1.is_active = r0.is_active ∧
      r1.is_success = r0.is_success ∧ r1.found_password = r0.found_password := by
  by_cases hk : k = c
  · subst hk
    refine ⟨{ r0 with last_message := previewText msg.Content }, ?_, rfl, rfl, rfl⟩
    unfold Store.AddMessage
    simp only [hrole, if_false]
    unfold Store.row
    refine (Store.row_updateConversation _ k
      (fun r => { r with last_message := previewText msg.Content }) (fun _ => rfl)).trans ?_
    have : s.conversations.find? (fun r => decide (r.id = k)) = some r0 := hrow
    show Option.map _ (s.conversations.find? (fun r => decide (r.id = k))) = _
    rw [this]
    rfl
  · exact ⟨r0, (Store.row_AddMessage_other s c k msg hk).trans hrow, rfl, rfl, rfl⟩

/-- `BonusChoice` keeps the active flag, the success flag and the found phrase
of every conversation, except for a "claim" naming that conversation. -/
theorem BonusChoice_row_fields (h : ChatHandler) (s : Store) (r : Request bonusChoiceRequest)
    (k : String) (r0 : ConversationRow) (hrow : s.row k = some r0)
    (hnc : ¬ (Operation.bonusChoice r).claims k) :
    ∃ r1, (h.BonusChoice s r).store.row k = some r1 ∧ r1.is_active = r0.is_active ∧
      r1.is_success = r0.is_success ∧ r1.found_password = r0.found_password := by
  have same : ∃ r1, s.row k = some r1 ∧ r1.is_active = r0.is_active ∧
      r1.is_success = r0.is_success ∧ r1.found_password = r0.found_password :=
    ⟨r0, hrow, rfl, rfl, rfl⟩
  unfold ChatHandler.BonusChoice
  cases hc : r.cookie with
  | none => exact same
  | some cookie =>
    simp only []
    cases hu : s.GetUserBySession cookie with
    | none => exact same
    | some user =>
      simp only []
      cases hb : r.body with
      | none => exact same
      | some req =>
        simp only []
        split_ifs with h1 h2 h3 h4
        · exact same
        · exact same
        · have hk : k ≠ req.ConversationID := by
            intro e
            exact hnc ⟨req, hb, e.symm, h3⟩
          refine ⟨r0, ?_, rfl, rfl, rfl⟩
          rw [Store.row_AddMessage_other _ _ k _ hk, Store.row_SetUserBonusStatus,
            Store.row_EndConversation_other _ _ k _ _ hk, Store.row_RecordWinner]
          exact hrow
        · exact Store.row_AddMessage_reply _ _ k _ (assistant_not_user _) r0
            ((Store.row_SetUserBonusStatus s _ _ k).trans hrow)
        · exact same

theorem step_row_inactive (h : ChatHandler) (s : Store) (op : Operation) (k : String)
    (r0 : ConversationRow) (hrow : s.row k = some r0) (hin : r0.is_active = false) :
    ∃ r1, (h.step s op).row k = some r1 ∧ r1.is_active = false ∧
      (¬ op.claims k →
        r1.is_success = r0.is_success ∧ r1.found_password = r0.found_password) := by
  cases op with
  | newConversation r convID =>
    exact ⟨r0, NewConversation_row_kept h s r convID k r0 hrow, hin, fun _ => ⟨rfl, rfl⟩⟩
  | sendMessage r =>
    exact ⟨r0, SendMessage_row_inactive h s r k r0 hrow hin, hin, fun _ => ⟨rfl, rfl⟩⟩
  | bonusChoice r =>
    obtain ⟨r1, hr1, q⟩ := (quiet_BonusChoice h s r).calm k r0 hrow
    have hin1 : r1.is_active = false := by
      cases hx : r1.is_active with
      | false => rfl
      | true =>
        rw [q hx] at hin
        exact absurd hin (by decide)
    refine ⟨r1, hr1, hin1, ?_⟩
    intro hnc
    obtain ⟨r2, hr2, _, hs, hf⟩ := BonusChoice_row_fields h s r k r0 hrow hnc
    have e : r1 = r2 := Option.some.inj (hr1.symm.trans hr2)
    rw [e]
    exact ⟨hs, hf⟩

theorem run_row_inactive (h : ChatHandler) (ops : List Operation) (s : Store) (k : String)
    (r0 : ConversationRow) (hrow : s.row k = some r0) (hin : r0.is_active = false) :
    ∃ r1, (h.run s ops).row k = some r1 ∧ r1.is_active = false ∧
      ((∀ op ∈ ops, ¬ op.claims k) →
        r1.is_success = r0.is_success ∧ r1.found_password = r0.found_password) := by
  induction ops generalizing s r0 with
  | nil => exact ⟨r0, hrow, hin, fun _ => ⟨rfl, rfl⟩⟩
  | cons op rest ih =>
    obtain ⟨r1, hr1, hin1, hsame1⟩ := step_row_inactive h s op k r0 hrow hin
    obtain ⟨r2, hr2, hin2, hsame2⟩ := ih (h.step s op) r1 hr1 hin1
    refine ⟨r2, hr2, hin2, ?_⟩
    intro hno
    have h2 := hsame2 (fun o ho => hno o (List.mem_cons_of_mem _ ho))
    have h1 := hsame1 (hno op (List.mem_cons_self _ _))
    exact ⟨h2.1.trans h1.1, h2.2.trans h1.2⟩

/-- C25 fails on the code: `BonusChoice` does not check that the conversation
is active.  With a maximum of 2 turns and the consolation threshold 2, the
second message ends conversation `c1` by its turn limit (inactive, not
successful, no found phrase) and brings the bonus offer; `BonusChoice` "claim"
for `c1` then makes it successful with the consolation phrase as its found
phrase, while `SendMessage` to `c1` is rejected as ended and changes
nothing. -/
theorem BonusChoice_claim_rewrites_ended_limit :
    outcomeOf ((handlerOf shortConfig (replyWith [StreamDelta.content "hi", StreamDelta.done])).run
        loggedIn limitOps) "c1" = some (false, false, "", 2, 2) ∧
    outcomeOf ((handlerOf shortConfig (replyWith [StreamDelta.content "hi", StreamDelta.done])
        ).BonusChoice
        ((handlerOf shortConfig (replyWith [StreamDelta.content "hi", StreamDelta.done])).run
          loggedIn limitOps) (claimRequest "c1")).store "c1" =
      some (false, true, "恭喜发财", 2, 2) ∧
    ((handlerOf shortConfig (replyWith [StreamDelta.content "hi", StreamDelta.done])
        ).SendMessage
        ((handlerOf shortConfig (replyWith [StreamDelta.content "hi", StreamDelta.done])).run
          loggedIn limitOps) (sendRequestTo "c1" "z")).response =
      errorJSON 400 "对话已结束" ∧
    ((handlerOf shortConfig (replyWith [StreamDelta.content "hi", StreamDelta.done])
        ).SendMessage
        ((handlerOf shortConfig (replyWith [StreamDelta.content "hi", StreamDelta.done])).run
          loggedIn limitOps) (sendRequestTo "c1" "z")).store =
      (handlerOf shortConfig (replyWith [StreamDelta.content "hi", StreamDelta.done])).run
        loggedIn limitOps := by
  decide

/-- Every other path keeps an ended conversation as it is: a conversation that
is inactive stays inactive through every sequence of `NewConversation`,
`SendMessage` and `BonusChoice` operations, and its success flag and found
phrase stay as they were unless one of the operations is a `BonusChoice`
"claim" naming that conversation. -/
theorem ended_conversation_stays_ended (h : ChatHandler) (s : Store) (k : String)
    (conv : Conversation) (ops : List Operation)
    (hconv : s.GetConversation k = some conv) (hin : conv.IsActive = false) :
    ∃ conv', (h.run s ops).GetConversation k = some conv' ∧ conv'.IsActive = false ∧
      ((∀ op ∈ ops, ¬ op.claims k) →
        conv'.IsSuccess = conv.IsSuccess ∧ conv'.FoundPassword = conv.FoundPassword) := by
  obtain ⟨r0, hrow, e⟩ := Store.GetConversation_some s k conv hconv
  have hin0 : r0.is_active = false := by
    rw [e] at hin
    exact hin
  obtain ⟨r1, hr1, hin1, hsame⟩ := run_row_inactive h ops s k r0 hrow hin0
  have hget := Store.row_GetConversation (h.run s ops) k
  rw [hr1] at hget
  refine ⟨_, hget, hin1, ?_⟩
  intro hno
  rw [e]
  exact hsame hno

/-! ## Grand-winner count -/

theorem Store.GetGrandWinnerCount_append (s s' : Store) (w : WinnerRow)
    (hw : s'.winners = s.winners ++ [w]) :
    s'.GetGrandWinnerCount =
      s.GetGrandWinnerCount + (if w.prize_type = "grand" then 1 else 0) := by
  unfold Store.GetGrandWinnerCount
  rw [hw, List.filter_append]
  by_cases hg : w.prize_type = "grand"
  · simp [List.filter, hg]
  · simp [List.filter, hg]

theorem Store.GetGrandWinnerCount_of_winners (s s' : Store) (hw : s'.winners = s.winners) :
    s'.GetGrandWinnerCount = s.GetGrandWinnerCount := by
  unfold Store.GetGrandWinnerCount
  rw [hw]

theorem autoGrant_winners (h : ChatHandler) (s : Store) (user : User)
    (c t pw amount : String) (total : Int) :
    ∃ w : WinnerRow, (h.autoGrantPassword s user c t pw amount total).1.winners =
      s.winners ++ [w] ∧ w.prize_type = t := by
  obtain ⟨_, _, _, _, _, w, hw, _, _, ht, _⟩ := Store.RecordWinner_shape
    (s.AddMessage c { Role := "assistant", Content := bonusTextOf total pw })
    user.Nickname c t pw amount
  refine ⟨w, ?_, ht⟩
  unfold ChatHandler.autoGrantPassword
  simp only []
  split_ifs
  · rw [(Store.SetUserBonusStatus_shape _ _ _).2.2.1, (Store.EndConversation_shape _ _ _ _).2.1,
      hw, (Store.AddMessage_shape s c _).2.1]
  · rw [(Store.SetUserBonusStatus_shape _ _ _).2.2.1, (Store.EndConversation_shape _ _ _ _).2.1,
      hw, (Store.AddMessage_shape s c _).2.1]

theorem autoGrant_frame_types (h : ChatHandler) (s : Store) (user : User)
    (c t pw amount : String) (total : Int) (e : SSEEvent)
    (he : Frame.event e ∈ (h.autoGrantPassword s user c t pw amount total).2) :
    e.Type_ = "content" ∨ e.Type_ = "password_found" := by
  unfold ChatHandler.autoGrantPassword at he
  simp only [List.mem_cons, Frame.event.injEq, List.mem_singleton, List.not_mem_nil,
    or_false] at he
  rcases he with he | he
  · rw [he]
    exact Or.inl rfl
  · rw [he]
    exact Or.inr rfl

/-- C24 fails on the code: the grand cap of 1 is read only when the bonus
offer is decided.  Two users who each get the grand phrase leaked in their own
conversation are both recorded as grand winners.  And in the run `capOps`,
after user `u2` has taken the one grand prize by a leak (count 1, the cap),
user `u1`, who chose to continue while the prize was still there, reaches the
grand threshold 4 and is granted the grand phrase by the bonus mechanism: the
count becomes 2, so the difference `GrandCount - count`, which the offer path
logs as the grand prizes remaining, is -1. -/
theorem grand_winner_count_exceeds_cap :
    sampleConfig.Game.Prizes.GrandCount = 1 ∧
    ((handlerOf sampleConfig (replyWith [StreamDelta.content "新年快乐", StreamDelta.done])).run
      twoLoggedIn grandLeakOps).GetGrandWinnerCount = 2 ∧
    ((handlerOf sampleConfig leakOnRequest).run twoLoggedIn
      (capOps.take 7)).GetGrandWinnerCount = 1 ∧
    ((handlerOf sampleConfig leakOnRequest).run twoLoggedIn
      (capOps.take 7)).GetUserBonusStatus "u1" = "continued" ∧
    ((handlerOf sampleConfig leakOnRequest).run twoLoggedIn capOps).GetGrandWinnerCount = 2 ∧
    ((handlerOf sampleConfig leakOnRequest).run twoLoggedIn capOps).GetUserBonusStatus "u1" =
      "claimed_grand" ∧
    sampleConfig.Game.Prizes.GrandCount -
      ((handlerOf sampleConfig leakOnRequest).run twoLoggedIn capOps).GetGrandWinnerCount =
        -1 := by
  decide

/-- Where the grand cap is read: only when the bonus offer is decided.
`handleBonusMechanism` sends a `bonus_offer` event only while the grand-winner
count is below `Prizes.GrandCount`, and for a user whose state is not
continued it leaves the grand-winner count as it was.  For a continued user
at the grand threshold it records one more grand winner whatever the count,
and so does an accepted `SendMessage` whose reply first matches with the
grand phrase. -/
theorem grand_cap_gates_only_offer (h : ChatHandler) (s : Store) (user : User) (c : String) :
    (∀ e, Frame.event e ∈ (h.handleBonusMechanism s user c).2 → e.Type_ = "bonus_offer" →
      s.GetGrandWinnerCount < h.config.Game.Prizes.GrandCount) ∧
    (s.GetUserBonusStatus user.ID ≠ "continued" →
      (h.handleBonusMechanism s user c).1.GetGrandWinnerCount = s.GetGrandWinnerCount) ∧
    (s.GetUserBonusStatus user.ID = "continued" → 0 < h.config.Game.BonusGrandThreshold →
      s.GetUserTotalTurnCount user.ID ≥ h.config.Game.BonusGrandThreshold →
      (h.handleBonusMechanism s user c).1.GetGrandWinnerCount = s.GetGrandWinnerCount + 1) ∧
    (∀ r req conv pre d post, Accepted h s r user req conv (pre ++ d :: post) →
      (∀ x ∈ pre, isContent x) → isContent d →
      (∀ j, 1 ≤ j → j ≤ pre.length →
        (CheckContent h.unicode h.passwordChecker (accumulate "" (pre.take j))).Found = false) →
      (CheckContent h.unicode h.passwordChecker (accumulate "" (pre ++ [d]))).Type_ = "grand" →
      (h.SendMessage s r).store.GetGrandWinnerCount = s.GetGrandWinnerCount + 1) := by
  refine ⟨?_, ?_, ?_, ?_⟩
  · intro e he hty
    unfold ChatHandler.handleBonusMechanism at he
    simp only [] at he
    split_ifs at he with h1 h2 h3 h4
    · simp at he
    · rcases autoGrant_frame_types h s user c "grand"
        h.config.Game.Passwords.Grand h.config.Game.Prizes.GrandAmount
        (s.GetUserTotalTurnCount user.ID) e he with ht | ht
      · rw [ht] at hty
        exact absurd hty (by decide)
      · rw [ht] at hty
        exact absurd hty (by decide)
    · simpa using h4
    · rcases autoGrant_frame_types h s user c "consolation"
        h.config.Game.Passwords.Consolation h.config.Game.Prizes.ConsolationAmount
        (s.GetUserTotalTurnCount user.ID) e he with ht | ht
      · rw [ht] at hty
        exact absurd hty (by decide)
      · rw [ht] at hty
        exact absurd hty (by decide)
    · simp at he
  · intro hst
    unfold ChatHandler.handleBonusMechanism
    simp only []
    split_ifs with h1 h2 h3 h4
    · rfl
    · exact absurd h2.2.2 hst
    · exact Store.GetGrandWinnerCount_of_winners s _ (Store.SetUserBonusStatus_shape s _ _).2.2.1
    · obtain ⟨w, hw, ht⟩ := autoGrant_winners h s user c "consolation"
        h.config.Game.Passwords.Consolation h.config.Game.Prizes.ConsolationAmount
        (s.GetUserTotalTurnCount user.ID)
      rw [Store.GetGrandWinnerCount_append s _ w hw, ht]
      simp
    · rfl
  · intro hst hpos hturns
    rw [handleBonus_continued_grant h s user c hst hpos hturns]
    obtain ⟨w, hw, ht⟩ := autoGrant_winners h s user c "grand"
      h.config.Game.Passwords.Grand h.config.Game.Prizes.GrandAmount
      (s.GetUserTotalTurnCount user.ID)
    rw [Store.GetGrandWinnerCount_append s _ w hw, ht]
    simp
  · intro r req conv pre d post hacc hpre hd hno hty
    have hhit : (CheckContent h.unicode h.passwordChecker
        (accumulate "" (pre ++ [d]))).Found = true := by
      rw [CheckContent_of_grandHit _ _ _ ((CheckContent_type_grand_iff _ _ _).1 hty)]
      rfl
    obtain ⟨w, hw, ht, _⟩ := leak_winner_aux h s r user req conv pre post d hacc hpre hd hno hhit
    rw [Store.GetGrandWinnerCount_append s _ w hw, ht, hty]
    simp

end Guardian
